import Mathlib

/-!
# Steam Analytics chatbot client: conversation store, transport, chat controllers

A shallow embedding of `app/static/js/modules/chatbot/chat-history.js`,
`app/static/js/modules/chatbot/chat-api.js`, `app/static/js/modules/chatbot/chatbot.js`
and of the chat methods of `app/static/js/floating_chatbot.js`.

Modelling conventions.

* Points in time (`Date.now()`, `new Date()`, the ISO strings written by
  `toISOString()` and read back by `new Date(s)`) are integers: milliseconds since
  the epoch.  Every clock reading is an input of the operation that takes it.
* `Math.random().toString(36).substr(2, 9)` is an input string.
* `localStorage` holds one item under `storageKey`.  What `JSON.stringify` writes
  and `JSON.parse` reads back is identified with the value itself, so the item is
  an `Option (List Conversation)`; `none` is the absent key.  `setItem` may throw
  (quota), which `saveHistory` swallows: whether it succeeds is an input.
* `JSON.parse(jsonData)` in `importHistory` is a platform call: its outcome
  (`JsonParse`) is the input of the model.
* What a `fetch` and the `response.json()` after it do is an input (`Attempt`,
  `ChatFetch`).  An `async` method of a controller is cut at its `await fetch(...)`
  into the part that runs at the call and the part that runs when the fetch has
  settled, so that other calls can come in between.
* A `String` is a JavaScript string that is well-formed UTF-16, read as its sequence
  of code points.  Where the code counts or cuts by UTF-16 code units (`length`,
  `substring`) the model goes through `utf16`, in which a character above the Basic
  Multilingual Plane takes two units.  A conversation title is kept as code units
  (`Utf16`), since `substring` can cut a surrogate pair in two.
* `String.prototype.toLowerCase` is the lower-case conversion of the Unicode standard.
  The model carries the case data of the ASCII characters and of the Greek letters
  (`jsToLowerCase`); on a string with any other character the conversion is an input,
  the function of the platform.
* A `Date` beyond the range of time values is an Invalid Date, `none`; a comparison
  with it is false.
-/

namespace Steam

/-! ## Data model -/

/-- A JavaScript string as its UTF-16 code units. -/
abbrev Utf16 := List Nat

/-- The UTF-16 code units of a character: the code point itself, or a surrogate pair
for a character above the Basic Multilingual Plane. -/
def utf16Char (c : Char) : Utf16 :=
  if c.toNat < 0x10000 then [c.toNat]
  else [0xD800 + (c.toNat - 0x10000) / 0x400, 0xDC00 + (c.toNat - 0x10000) % 0x400]

/-- The UTF-16 code units of a string; their number is the property `length`. -/
def utf16 (s : String) : Utf16 :=
  s.data.flatMap utf16Char

/-- A chat message as built by `saveMessage`. `extra` holds the own keys of the
metadata object other than the five named fields. -/
structure Message where
  id : String
  role : String
  content : String
  timestamp : Int
  conversationId : String
  extra : List (String × String)
deriving DecidableEq, Repr

/-- The `metadata` argument of `saveMessage`: an object whose own keys are spread
over the message literal *after* the named fields, so a key named like a field
replaces it. A field here is `some v` when the object has that key. -/
structure Metadata where
  id : Option String := none
  role : Option String := none
  content : Option String := none
  timestamp : Option Int := none
  conversationId : Option String := none
  extra : List (String × String) := []
deriving DecidableEq, Repr

/-- A stored conversation. -/
structure Conversation where
  id : String
  title : Utf16
  createdAt : Int
  updatedAt : Int
  messages : List Message
deriving DecidableEq, Repr

/-- The `ChatHistory` object together with the `localStorage` item it owns. -/
structure ChatHistory where
  currentConversationId : String
  storage : Option (List Conversation)
deriving DecidableEq, Repr

/-- What `saveMessage` reads from its environment, in the order it reads it. -/
structure SaveEnv where
  /-- Reading of `Date.now()` inside `generateMessageId`. -/
  idNow : Int
  /-- The random suffix inside `generateMessageId`. -/
  idRandom : String
  /-- Reading of `new Date()` for `message.timestamp`. -/
  timestamp : Int
  /-- Reading of `new Date()` for `createdAt` of a conversation created by this call. -/
  createdAt : Int
  /-- Reading of `new Date()` in `conversation.updatedAt = ...` after the push. -/
  updatedAt : Int
  /-- Whether `localStorage.setItem` succeeds. -/
  setItemOk : Bool
deriving DecidableEq, Repr

namespace ChatHistory

def maxHistoryLength : Nat := 50

def maxMessagesPerConversation : Nat := 100

/-- The id `'conv_' + Date.now() + '_' + Math.random().toString(36).substr(2, 9)`. -/
def generateConversationId (now : Int) (random : String) : String :=
  "conv_" ++ toString now ++ "_" ++ random

/-- The id `'msg_' + Date.now() + '_' + Math.random().toString(36).substr(2, 9)`. -/
def generateMessageId (now : Int) (random : String) : String :=
  "msg_" ++ toString now ++ "_" ++ random

/-- The constructor: a fresh current conversation id; the store is not touched.
Here the store starts without the item. -/
def init (now : Int) (random : String) : ChatHistory :=
  { currentConversationId := generateConversationId now random, storage := none }

/-- The title: `firstMessage.length > 50 ? firstMessage.substring(0, 47) + '...' : firstMessage`,
prefixed with `Chat: `. Both `length` and `substring` count UTF-16 code units. -/
def generateConversationTitle (firstMessage : String) : Utf16 :=
  let message :=
    if (utf16 firstMessage).length > 50 then (utf16 firstMessage).take 47 ++ utf16 "..."
    else utf16 firstMessage
  utf16 "Chat: " ++ message

/-- The stored history: `stored ? JSON.parse(stored) : []`. -/
def getHistory (self : ChatHistory) : List Conversation :=
  match self.storage with
  | some history => history
  | none => []

/-- Runs `localStorage.setItem(storageKey, JSON.stringify(history))` inside `try`; a
failing `setItem` is logged and the item keeps its old value. -/
def saveHistory (self : ChatHistory) (history : List Conversation) (setItemOk : Bool) :
    ChatHistory :=
  if setItemOk then { self with storage := some history } else self

/-- The in-place update of the object that `history.find` returned: the first
element satisfying `p` is replaced by `f` of it. -/
def modifyFirst (p : Conversation → Bool) (f : Conversation → Conversation) :
    List Conversation → List Conversation
  | [] => []
  | conv :: rest => if p conv then f conv :: rest else conv :: modifyFirst p f rest

/-- Lines 39-45: push, set `updatedAt`, then
`messages.slice(-maxMessagesPerConversation)` when the length exceeds the cap. -/
def pushMessage (conversation : Conversation) (message : Message) (now : Int) :
    Conversation :=
  let messages := conversation.messages ++ [message]
  { conversation with
    updatedAt := now
    messages :=
      if messages.length > maxMessagesPerConversation then
        messages.drop (messages.length - maxMessagesPerConversation)
      else messages }

/-- The message literal of `saveMessage`, the metadata spread last. -/
def buildMessage (self : ChatHistory) (role content : String) (metadata : Metadata)
    (env : SaveEnv) : Message :=
  { id := metadata.id.getD (generateMessageId env.idNow env.idRandom)
    role := metadata.role.getD role
    content := metadata.content.getD content
    timestamp := metadata.timestamp.getD env.timestamp
    conversationId := metadata.conversationId.getD self.currentConversationId
    extra := metadata.extra }

/-- The history array that `saveMessage` hands to `saveHistory`. -/
def savedHistory (self : ChatHistory) (content : String) (message : Message)
    (env : SaveEnv) : List Conversation :=
  let history := self.getHistory
  let isCurrent := fun (conv : Conversation) => conv.id == self.currentConversationId
  let history :=
    match history.find? isCurrent with
    | some _ => history
    | none =>
      -- `updatedAt` of the literal is overwritten by `pushMessage` right below
      { id := self.currentConversationId
        title := generateConversationTitle content
        createdAt := env.createdAt
        updatedAt := env.createdAt
        messages := [] } :: history
  let history := modifyFirst isCurrent (fun conv => pushMessage conv message env.updatedAt) history
  if history.length > maxHistoryLength then history.take maxHistoryLength else history

/-- Method `saveMessage(role, content, metadata)`: the returned message and the new state. -/
def saveMessage (self : ChatHistory) (role content : String) (metadata : Metadata)
    (env : SaveEnv) : Message × ChatHistory :=
  let message := buildMessage self role content metadata env
  (message, self.saveHistory (savedHistory self content message env) env.setItemOk)

/-- The messages of `history.find(conv => conv.id === currentConversationId)`, or of
`{ messages: [] }` when there is none. -/
def getCurrentConversationMessages (self : ChatHistory) : List Message :=
  match self.getHistory.find? (fun conv => conv.id == self.currentConversationId) with
  | some conv => conv.messages
  | none => []

/-- Method `loadConversation(conversationId)`: the returned messages and the new state. -/
def loadConversation (self : ChatHistory) (conversationId : String) :
    List Message × ChatHistory :=
  let self := { self with currentConversationId := conversationId }
  (self.getCurrentConversationMessages, self)

/-- Method `startNewConversation()`: the returned id and the new state. -/
def startNewConversation (self : ChatHistory) (now : Int) (random : String) :
    String × ChatHistory :=
  let id := generateConversationId now random
  (id, { self with currentConversationId := id })

end ChatHistory

/-- One call on a `ChatHistory`, with what the call reads from its environment. -/
inductive Op where
  | saveMessage (role content : String) (metadata : Metadata) (env : SaveEnv)
  | startNewConversation (now : Int) (random : String)
  | loadConversation (conversationId : String)
deriving DecidableEq, Repr

namespace ChatHistory

def step (self : ChatHistory) : Op → ChatHistory
  | .saveMessage role content metadata env => (self.saveMessage role content metadata env).2
  | .startNewConversation now random => (self.startNewConversation now random).2
  | .loadConversation conversationId => (self.loadConversation conversationId).2

/-- The state after a sequence of calls. -/
def run (self : ChatHistory) (ops : List Op) : ChatHistory :=
  ops.foldl step self

end ChatHistory

namespace ChatHistory

/-- The two caps as one invariant of the stored history. -/
def Bounded (self : ChatHistory) : Prop :=
  self.getHistory.length ≤ maxHistoryLength ∧
    ∀ conv ∈ self.getHistory, conv.messages.length ≤ maxMessagesPerConversation

end ChatHistory

/-! ## Export and import -/

/-- Outcome of the platform call `JSON.parse(jsonData)` in `importHistory`.
Array elements are conversation objects whose `updatedAt` is a valid date. -/
inductive JsonParse where
  /-- The text is not valid JSON: `JSON.parse` throws a `SyntaxError` with this message. -/
  | syntaxError (message : String)
  /-- The text is valid JSON for a value on which `Array.isArray` is false. -/
  | nonArray
  /-- The text is valid JSON for an array of conversations. -/
  | array (conversations : List Conversation)
deriving DecidableEq, Repr

/-- The object returned by `importHistory`: `{ success: true, count }` or
`{ success: false, error }`. -/
structure ImportResult where
  success : Bool
  count : Option Nat
  error : Option String
deriving DecidableEq, Repr

/-- The comparator `(a, b) => new Date(b.updatedAt) - new Date(a.updatedAt)` is not
positive: `a` may stand before `b`. -/
def newerFirst (a b : Conversation) : Prop := b.updatedAt ≤ a.updatedAt

instance newerFirstDecidable : DecidableRel newerFirst :=
  fun a b => inferInstanceAs (Decidable (b.updatedAt ≤ a.updatedAt))

instance newerFirstTotal : IsTotal Conversation newerFirst :=
  ⟨fun a b => Int.le_total b.updatedAt a.updatedAt⟩

instance newerFirstTrans : IsTrans Conversation newerFirst :=
  ⟨fun _ _ _ hab hbc => Int.le_trans hbc hab⟩

namespace ChatHistory

/-- The call `.sort((a, b) => new Date(b.updatedAt) - new Date(a.updatedAt))`:
`Array.prototype.sort` is stable, and the stable sort of a list under a total
preorder is unique; stable insertion computes it. -/
def sortByUpdatedAt (history : List Conversation) : List Conversation :=
  history.insertionSort newerFirst

/-- The array `[...importedHistory, ...currentHistory].sort(...).slice(0, maxHistoryLength)`. -/
def mergeHistory (importedHistory currentHistory : List Conversation) : List Conversation :=
  (sortByUpdatedAt (importedHistory ++ currentHistory)).take maxHistoryLength

/-- Method `importHistory(jsonData)` on the outcome of `JSON.parse(jsonData)`: the
returned object and the new state. Both throws end in the `catch`, before any write. -/
def importHistory (self : ChatHistory) (parsed : JsonParse) (setItemOk : Bool) :
    ImportResult × ChatHistory :=
  match parsed with
  | .syntaxError message => ({ success := false, count := none, error := some message }, self)
  | .nonArray =>
    ({ success := false, count := none, error := some "Invalid history format" }, self)
  | .array importedHistory =>
    let mergedHistory := mergeHistory importedHistory self.getHistory
    ({ success := true, count := some mergedHistory.length, error := none },
      self.saveHistory mergedHistory setItemOk)

/-- The value whose text `JSON.stringify(history, null, 2)` the method `exportHistory`
puts into the downloaded file. -/
def exportHistory (self : ChatHistory) : List Conversation :=
  self.getHistory

/-- What `JSON.parse` yields on the text that `exportHistory` wrote for `history`. -/
def parseExported (history : List Conversation) : JsonParse :=
  .array history

end ChatHistory

/-! ## Rate limiter (`ChatAPI.createRateLimiter`) -/

/-- The closure returned by `createRateLimiter(limit, interval)`: its two captured
arguments and the captured `calls` array. -/
structure RateLimiter where
  limit : Int
  interval : Int
  calls : List Int
deriving DecidableEq, Repr

/-- A fresh limiter, `calls = []`. -/
def createRateLimiter (limit interval : Int) : RateLimiter :=
  { limit := limit, interval := interval, calls := [] }

namespace RateLimiter

/-- One call of the limiter at `Date.now() = now`: push, shift while the head is
`<= now - interval`, answer `calls.length <= limit`. -/
def call (self : RateLimiter) (now : Int) : Bool × RateLimiter :=
  let calls := self.calls ++ [now]
  let calls := calls.dropWhile (fun t => t ≤ now - self.interval)
  (decide ((calls.length : Int) ≤ self.limit), { self with calls := calls })

/-- Successive calls at the given times: the answers and the final limiter. -/
def callAll (self : RateLimiter) : List Int → List Bool × RateLimiter
  | [] => ([], self)
  | now :: times =>
    let first := self.call now
    let others := callAll first.2 times
    (first.1 :: others.1, others.2)

/-- The rule in the words of the specification: record `now`, drop the recorded
timestamps older than `now - interval`, admit when at most `limit` remain. -/
def admitBySpec (self : RateLimiter) (now : Int) : Bool × RateLimiter :=
  let calls := (self.calls ++ [now]).filter (fun t => ¬ t < now - self.interval)
  (decide ((calls.length : Int) ≤ self.limit), { self with calls := calls })

end RateLimiter

/-! ## Request with retries (`ChatAPI.request`) -/

/-- A JavaScript error object: `name` and `message`. -/
structure JsError where
  name : String
  message : String
deriving DecidableEq, Repr

/-- What one pass through the `try` block meets. -/
inductive Attempt (β : Type) where
  /-- The promise of `fetch` rejects with this error. -/
  | rejected (error : JsError)
  /-- The response arrives with `response.ok` false. -/
  | notOk (status : Nat) (statusText : String)
  /-- The response is ok but `response.json()` rejects with this error. -/
  | badBody (error : JsError)
  /-- The response is ok and its body parses to `data`. -/
  | ok (data : β)
deriving DecidableEq, Repr

/-- What `request` does to the outside, in order. -/
inductive Effect where
  | fetch
  | delay (ms : Nat)
deriving DecidableEq, Repr

/-- The fields of `ChatAPI`, with the values the constructor gives them. `baseURL`
and `timeout` only shape the arguments of `fetch`. -/
structure ChatAPI where
  baseURL : String := ""
  timeout : Nat := 30000
  retryAttempts : Nat := 3
  retryDelay : Nat := 1000
deriving DecidableEq, Repr

namespace ChatAPI

/-- The `catch` block of attempt `attempt`, which caught `error`; `rest` is what the
remaining iterations of the loop do. The effects include the `fetch` of this attempt. -/
def catchBlock {β : Type} (self : ChatAPI) (attempt : Nat) (error : JsError)
    (rest : List Effect × Except JsError (Option β)) :
    List Effect × Except JsError (Option β) :=
  if attempt = self.retryAttempts then
    ([Effect.fetch], .error
      { name := "Error"
        message := "API request failed after " ++ toString self.retryAttempts ++
          " attempts: " ++ error.message })
  else
    (Effect.fetch :: Effect.delay (self.retryDelay * attempt) :: rest.1, rest.2)

/-- The `for` loop of `request` with `remaining` iterations to go, that is at
`attempt = retryAttempts - remaining + 1`. `outcome k` is what attempt `k` meets.
The result is `.ok (some data)` for `return data`, `.error e` for a throw, and
`.ok none` when the loop ends without entering its body. -/
def requestLoop {β : Type} (self : ChatAPI) (outcome : Nat → Attempt β) :
    Nat → List Effect × Except JsError (Option β)
  | 0 => ([], .ok none)
  | remaining + 1 =>
    let attempt := self.retryAttempts - remaining
    let rest := requestLoop self outcome remaining
    match outcome attempt with
    | .ok data => ([Effect.fetch], .ok (some data))
    | .rejected error => catchBlock self attempt error rest
    | .notOk status statusText =>
      catchBlock self attempt
        { name := "Error", message := "HTTP " ++ toString status ++ ": " ++ statusText } rest
    | .badBody error => catchBlock self attempt error rest

/-- Method `request(endpoint, options)`: the effects in order and the way the promise settles. -/
def request {β : Type} (self : ChatAPI) (outcome : Nat → Attempt β) :
    List Effect × Except JsError (Option β) :=
  requestLoop self outcome self.retryAttempts

end ChatAPI

/-! ## JavaScript strings -/

/-- The method `String.prototype.includes`: `sub` occurs in `s` as a contiguous run.
In well-formed strings a run of code units that equals the code units of `sub` begins
and ends between two characters, so it is a run of characters. -/
def jsIncludes (s sub : String) : Bool :=
  decide (sub.data <:+: s.data)

/-- The characters that `String.prototype.trim` strips and that `\s` matches:
ECMAScript white space and line terminators. -/
def isJsWhitespace (c : Char) : Bool :=
  c == '\t' || c == '\n' || c == '\x0b' || c == '\x0c' || c == '\r' || c == ' ' ||
    c == '\u00a0' || c == '\u1680' || (0x2000 ≤ c.toNat && c.toNat ≤ 0x200a) ||
    c == '\u2028' || c == '\u2029' || c == '\u202f' || c == '\u205f' || c == '\u3000' ||
    c == '\ufeff'

/-- The method `String.prototype.trim`. -/
def jsTrim (s : String) : String :=
  String.mk ((s.data.dropWhile isJsWhitespace).reverse.dropWhile isJsWhitespace).reverse

/-- The characters whose case data the model carries: the ASCII characters and the
Greek letters from alpha to omega, capital and small. -/
def hasCaseData (c : Char) : Bool :=
  c.toNat < 0x80 || (0x391 ≤ c.toNat && c.toNat ≤ 0x3a9 && c.toNat != 0x3a2) ||
    (0x3b1 ≤ c.toNat && c.toNat ≤ 0x3c9)

/-- The property `Cased` of a character with case data: the letters. -/
def isCased (c : Char) : Bool :=
  c.isAlpha || (0x391 ≤ c.toNat && c.toNat ≤ 0x3c9)

/-- The property `Case_Ignorable` of a character with case data: apostrophe, full
stop, colon, circumflex accent and grave accent. -/
def isCaseIgnorable (c : Char) : Bool :=
  c.toNat == 0x27 || c.toNat == 0x2e || c.toNat == 0x3a || c.toNat == 0x5e || c.toNat == 0x60

/-- The lower-case mapping of a character with case data, capital sigma out of
context: `A` to `Z` and the Greek capitals move to their small letters. -/
def lowerChar (c : Char) : Char :=
  if 0x391 ≤ c.toNat ∧ c.toNat ≤ 0x3a9 then Char.ofNat (c.toNat + 0x20) else c.toLower

/-- The condition `Final_Sigma` of the Unicode case conversion: before the sigma
stands a cased letter, case-ignorable characters between them aside, and after it
no cased letter does, case-ignorable characters aside. `before` holds the characters
before the sigma, the nearest first. -/
def finalSigma (before after : List Char) : Bool :=
  ((before.dropWhile isCaseIgnorable).head?.map isCased).getD false &&
    !((after.dropWhile isCaseIgnorable).head?.map isCased).getD false

/-- The lower-case conversion of the characters that follow `before` (the nearest
first): a capital sigma becomes the final small sigma under `Final_Sigma`. -/
def lowerFrom : List Char → List Char → List Char
  | _, [] => []
  | before, c :: rest =>
    (if c.toNat == 0x3a3 && finalSigma before rest then Char.ofNat 0x3c2 else lowerChar c) ::
      lowerFrom (c :: before) rest

/-- The method `String.prototype.toLowerCase`, the lower-case conversion of the
Unicode standard, on a string of characters with case data; on any other string it
is `platform`, the function of the platform. -/
def jsToLowerCase (platform : String → String) (s : String) : String :=
  if s.data.all hasCaseData then String.mk (lowerFrom [] s.data) else platform s

/-! ## Error classification and `ChatAPI.sendMessage` -/

/-- The object returned by `ChatAPI.sendMessage`: `data` is `none` for `null` and for
`undefined`, `error` is `none` for `null`. -/
structure ApiResult (β : Type) where
  success : Bool
  data : Option β
  error : Option String
deriving DecidableEq, Repr

namespace ChatAPI

/-- The error that the `catch` block of `request` receives from an attempt, `none`
for an attempt that succeeds. -/
def caught {β : Type} : Attempt β → Option JsError
  | .rejected error => some error
  | .notOk status statusText =>
    some { name := "Error", message := "HTTP " ++ toString status ++ ": " ++ statusText }
  | .badBody error => some error
  | .ok _ => none

/-- Method `formatErrorMessage(error)`. -/
def formatErrorMessage (error : JsError) : String :=
  if error.name == "TypeError" && jsIncludes error.message "fetch" then
    "Network error. Please check your internet connection."
  else if jsIncludes error.message "timeout" then
    "Request timeout. Please try again."
  else if jsIncludes error.message "500" then
    "Server error. Please try again later."
  else if error.message == "" then "An unexpected error occurred."
  else error.message

/-- Method `sendMessage(message, context)`: the effects of its `request` and the
returned object. The body handed to `request` is `JSON.stringify` of a plain object. -/
def sendMessage {β : Type} (self : ChatAPI) (outcome : Nat → Attempt β) :
    List Effect × ApiResult β :=
  match self.request outcome with
  | (effects, .ok data) => (effects, { success := true, data := data, error := none })
  | (effects, .error error) =>
    (effects, { success := false, data := none, error := some (formatErrorMessage error) })

end ChatAPI

/-! ## Message validation (`ChatAPI.validateMessage`) -/

/-- The regular expressions that the three patterns of `validateMessage` are built
from. All three carry the flag `i`, so `char` and `notChar` compare without regard
to the case of ASCII letters. -/
inductive Regex where
  /-- The empty pattern. -/
  | empty
  /-- A literal character. -/
  | char (c : Char)
  /-- The class `[^c]`. -/
  | notChar (c : Char)
  /-- The class `\w`. -/
  | word
  /-- The class `\s`. -/
  | space
  /-- The assertion `\b`. -/
  | boundary
  /-- Concatenation. -/
  | seq (r s : Regex)
  /-- The quantifier `*`. -/
  | star (r : Regex)
  /-- The negative lookahead `(?!r)`. -/
  | notAhead (r : Regex)
deriving DecidableEq, Repr

/-- The class `\w`: `[A-Za-z0-9_]`. -/
def isWordChar (c : Char) : Bool :=
  c.isAlphanum || c == '_'

namespace Regex

/-- The positions reachable from `frontier` by repeating `step`, added to `seen`. -/
def closure (step : Nat → List Nat) : Nat → List Nat → List Nat → List Nat
  | 0, _, seen => seen
  | fuel + 1, frontier, seen =>
    let next := ((frontier.flatMap step).filter (fun q => !seen.contains q)).eraseDups
    if next.isEmpty then seen else closure step fuel next (seen ++ next)

/-- The positions at which a match of the pattern that starts at position `p` of
`input` can end. A pattern matches somewhere exactly when the backtracking matcher
finds a match, since none of the patterns has a back-reference. -/
def ends (input : List Char) : Regex → Nat → List Nat
  | .empty, p => [p]
  | .char c, p =>
    match input[p]? with
    | some x => if x.toUpper == c.toUpper then [p + 1] else []
    | none => []
  | .notChar c, p =>
    match input[p]? with
    | some x => if x.toUpper == c.toUpper then [] else [p + 1]
    | none => []
  | .word, p =>
    match input[p]? with
    | some x => if isWordChar x then [p + 1] else []
    | none => []
  | .space, p =>
    match input[p]? with
    | some x => if isJsWhitespace x then [p + 1] else []
    | none => []
  | .boundary, p =>
    let before := p != 0 && (input[p - 1]?.map isWordChar).getD false
    let after := (input[p]?.map isWordChar).getD false
    if before != after then [p] else []
  | .seq r s, p => ((ends input r p).flatMap (fun q => ends input s q)).eraseDups
  | .star r, p => closure (fun q => ends input r q) (input.length + 1) [p] [p]
  | .notAhead r, p => if (ends input r p).isEmpty then [p] else []

/-- The method `RegExp.prototype.test` on a fresh pattern: is there a match at some
start position. The patterns have no flag `u`, so the code matches code unit by code
unit where the model matches character by character. The answer is the same: the two
surrogates of a character above the Basic Multilingual Plane are, like the character,
no word character, no white space and none of the characters that the patterns
name, and `[^<]` passes over both as it passes over the character. -/
def test (r : Regex) (s : String) : Bool :=
  (List.range (s.length + 1)).any (fun start => !(r.ends s.data start).isEmpty)

/-- The pattern that matches the characters of `s` one after the other. -/
def text (s : String) : Regex :=
  s.data.foldr (fun c r => .seq (.char c) r) .empty

end Regex

/-- The object returned by `validateMessage`. -/
structure Validation where
  valid : Bool
  error : Option String
deriving DecidableEq, Repr

namespace ChatAPI

/-- The pattern `/<script\b[^<]*(?:(?!<\/script>)<[^<]*)*<\/script>/gi`. -/
def scriptPattern : Regex :=
  .seq (Regex.text "<script") (.seq .boundary (.seq (.star (.notChar '<'))
    (.seq (.star (.seq (.notAhead (Regex.text "</script>"))
      (.seq (.char '<') (.star (.notChar '<')))))
    (Regex.text "</script>"))))

/-- The pattern `/javascript:/gi`. -/
def javascriptPattern : Regex :=
  Regex.text "javascript:"

/-- The pattern `/on\w+\s*=/gi`. -/
def handlerPattern : Regex :=
  .seq (Regex.text "on") (.seq .word (.seq (.star .word) (.seq (.star .space) (.char '='))))

/-- The array `harmfulPatterns`. -/
def harmfulPatterns : List Regex :=
  [scriptPattern, javascriptPattern, handlerPattern]

/-- Method `validateMessage(message)` on a string. -/
def validateMessage (message : String) : Validation :=
  if message == "" then
    { valid := false, error := some "Message must be a non-empty string" }
  else if (jsTrim message).length == 0 then
    { valid := false, error := some "Message cannot be empty" }
  else if (utf16 message).length > 500 then
    { valid := false, error := some "Message too long (max 500 characters)" }
  else if harmfulPatterns.any (fun pattern => pattern.test message) then
    { valid := false, error := some "Message contains invalid content" }
  else { valid := true, error := none }

end ChatAPI

/-! ## Chat controllers (`SteamChatbot`, `FloatingChatbot`) -/

/-- An element of `SteamChatbot.currentConversation`. -/
structure ChatEntry where
  role : String
  content : String
  timestamp : Int
deriving DecidableEq, Repr

/-- A child of the messages container. The text shown in a bubble is `formatMessage`
of `content`; the markup is not part of the model. -/
inductive ChatNode where
  /-- The bubble that `addMessageToChat` or `addMessage` appends. -/
  | message (role content : String)
  /-- The bubble with the tag that `handleBeyondThinkingResponse` appends. -/
  | beyondMessage (content : String)
  /-- The block that `displayDomainContext` appends. -/
  | domainContext (domains : List String)
  /-- The typing indicator. -/
  | typingIndicator
deriving DecidableEq, Repr

/-- What a controller does to the conversation and to the network, in order. -/
inductive ChatEvent where
  /-- A run of `addMessageToChat` (or of `addMessage`) for this role and content. -/
  | added (role content : String)
  /-- A call of `fetch` on the chat endpoint with this message in the body. -/
  | fetch (message : String)
deriving DecidableEq, Repr

/-- The parsed body of a reply of the chat endpoint. `success` and
`is_beyond_application` are the truthiness of the fields; `response` is `none` when
the field is not a string; the list fields are `none` when absent. -/
structure ChatReply where
  success : Bool
  response : Option String := none
  is_beyond_application : Bool := false
  suggested_questions : Option (List String) := none
  suggestions : Option (List String) := none
  related_domains : Option (List String) := none
deriving DecidableEq, Repr

/-- How the `fetch` of a controller and the `response.json()` after it settle. The
controllers do not look at the status. -/
inductive ChatFetch where
  /-- The promise of `fetch` rejects with this error. -/
  | rejected (error : JsError)
  /-- A response with this status arrives; `body` is `none` when `response.json()`
  rejects. -/
  | response (status : Nat) (body : Option ChatReply)
deriving DecidableEq, Repr

/-- The fields of a `SteamChatbot`, the parts of the page that its methods read or
write, and the record of its events. -/
structure SteamChatbot where
  isOpen : Bool
  unreadCount : Nat
  currentConversation : List ChatEntry
  isLoading : Bool
  /-- The value of the input box. -/
  chatInput : String
  sendBtnDisabled : Bool
  messagesContainer : List ChatNode
  suggestionsGrid : List String
  events : List ChatEvent
deriving DecidableEq, Repr

namespace SteamChatbot

/-- The state that the constructor sets up. -/
def init : SteamChatbot :=
  { isOpen := false, unreadCount := 0, currentConversation := [], isLoading := false,
    chatInput := "", sendBtnDisabled := false, messagesContainer := [],
    suggestionsGrid := [], events := [] }

def incrementUnreadCount (self : SteamChatbot) : SteamChatbot :=
  { self with unreadCount := self.unreadCount + 1 }

/-- Method `addMessageToChat(role, content)` for a string `content`; `now` is the
reading of `new Date()`. -/
def addMessageToChat (self : SteamChatbot) (role content : String) (now : Int) :
    SteamChatbot :=
  let self := { self with
    messagesContainer := self.messagesContainer ++ [.message role content]
    currentConversation :=
      self.currentConversation ++ [{ role := role, content := content, timestamp := now }]
    events := self.events ++ [.added role content] }
  if role == "assistant" && !self.isOpen then self.incrementUnreadCount else self

def displayDomainContext (self : SteamChatbot) (domains : List String) : SteamChatbot :=
  { self with messagesContainer := self.messagesContainer ++ [.domainContext domains] }

/-- Method `handleBeyondThinkingResponse(data)` for a string `data.response`. -/
def handleBeyondThinkingResponse (self : SteamChatbot) (response : String)
    (relatedDomains : Option (List String)) : SteamChatbot :=
  let self :=
    match relatedDomains with
    | some domains => if domains.length > 0 then self.displayDomainContext domains else self
    | none => self
  { self with messagesContainer := self.messagesContainer ++ [.beyondMessage response] }

def displaySuggestions (self : SteamChatbot) (suggestions : Option (List String)) :
    SteamChatbot :=
  match suggestions with
  | some list => if list.length == 0 then self else { self with suggestionsGrid := list }
  | none => self

def showTypingIndicator (self : SteamChatbot) : SteamChatbot :=
  { self with
    isLoading := true
    sendBtnDisabled := true
    messagesContainer := self.messagesContainer ++ [.typingIndicator] }

def hideTypingIndicator (self : SteamChatbot) : SteamChatbot :=
  { self with
    isLoading := false
    sendBtnDisabled := false
    messagesContainer := self.messagesContainer.filter (fun node => node != .typingIndicator) }

/-- The message of the `catch` block of `sendMessage`. -/
def connectionMessage : String :=
  "I'm having trouble connecting right now. Please check your internet connection and try again."

/-- The message for a reply whose `success` is false. -/
def apologyMessage : String :=
  "I apologize, but I encountered an error. Please try again."

/-- Method `sendMessage()` up to its `await fetch(...)`: the guard, the user message,
the typing indicator and the call of `fetch`. -/
def sendMessageStart (self : SteamChatbot) (now : Int) : SteamChatbot :=
  let message := jsTrim self.chatInput
  if message == "" || self.isLoading then self
  else
    let self := self.addMessageToChat "user" message now
    let self := { self with chatInput := "" }
    let self := self.showTypingIndicator
    { self with events := self.events ++ [.fetch message] }

/-- The `catch` block of `sendMessage`. -/
def sendMessageCatch (self : SteamChatbot) (now : Int) : SteamChatbot :=
  self.hideTypingIndicator.addMessageToChat "assistant" connectionMessage now

/-- Method `sendMessage()` from the moment its `fetch` settles. A `response` that is
not a string makes `formatMessage` throw before anything is appended, which ends in
the `catch` block. -/
def sendMessageSettle (self : SteamChatbot) (outcome : ChatFetch) (now : Int) :
    SteamChatbot :=
  match outcome with
  | .rejected _ => self.sendMessageCatch now
  | .response _ none => self.sendMessageCatch now
  | .response _ (some data) =>
    let self := self.hideTypingIndicator
    if data.success then
      match data.response with
      | none => self.sendMessageCatch now
      | some response =>
        let self :=
          if data.is_beyond_application then
            self.handleBeyondThinkingResponse response data.related_domains
          else self.addMessageToChat "assistant" response now
        match data.suggested_questions with
        | some list => if list.length > 0 then self.displaySuggestions (some list) else self
        | none => self
    else self.addMessageToChat "assistant" apologyMessage now

/-- A whole run of `sendMessage()` with nothing happening while the reply is awaited:
`sent` is the reading of the clock for the user message, `settled` the one for the
reply. When the guard returns at once there is no `fetch` to settle. -/
def sendMessage (self : SteamChatbot) (outcome : ChatFetch) (sent settled : Int) :
    SteamChatbot :=
  if jsTrim self.chatInput == "" || self.isLoading then self
  else (self.sendMessageStart sent).sendMessageSettle outcome settled

end SteamChatbot

/-- The fields of a `FloatingChatbot`, the parts of the page that its methods read or
write (the elements that `createChatbotHTML` creates are present), and the record of
its events. -/
structure FloatingChatbot where
  sessionId : Option String
  isOpen : Bool
  isMinimized : Bool
  /-- The value of the input box. -/
  chatInput : String
  sendBtnDisabled : Bool
  chatMessages : List ChatNode
  notificationDot : Bool
  suggestionsGrid : List String
  suggestionsShown : Bool
  events : List ChatEvent
deriving DecidableEq, Repr

namespace FloatingChatbot

/-- Method `addMessage(role, content)`; a missing `content` is shown as the empty text. -/
def addMessage (self : FloatingChatbot) (role : String) (content : Option String) :
    FloatingChatbot :=
  let self := { self with
    chatMessages := self.chatMessages ++ [.message role (content.getD "")]
    events := self.events ++ [.added role (content.getD "")] }
  if role == "assistant" && !self.isOpen then { self with notificationDot := true } else self

def showTyping (self : FloatingChatbot) : FloatingChatbot :=
  { self with
    chatMessages := self.chatMessages ++ [.typingIndicator]
    sendBtnDisabled := true }

/-- Method `hideTyping()`: `getElementById` finds the first indicator only. -/
def hideTyping (self : FloatingChatbot) : FloatingChatbot :=
  { self with
    chatMessages := self.chatMessages.erase .typingIndicator
    sendBtnDisabled := false }

def displaySuggestions (self : FloatingChatbot) (suggestions : List String) :
    FloatingChatbot :=
  { self with suggestionsGrid := suggestions, suggestionsShown := true }

def hideSuggestions (self : FloatingChatbot) : FloatingChatbot :=
  { self with suggestionsShown := false }

/-- The message of the `catch` block of `sendMessage`. -/
def connectionMessage : String :=
  "I'm having trouble connecting right now. Please check your connection and try again."

/-- The message for a reply whose `success` is false. -/
def apologyMessage : String :=
  "Sorry, I encountered an error. Please try again."

/-- Whether `!this.sessionId` holds. -/
def sessionMissing (self : FloatingChatbot) : Bool :=
  match self.sessionId with
  | some id => id == ""
  | none => true

/-- Method `sendMessage()` up to its `await fetch(...)`. -/
def sendMessageStart (self : FloatingChatbot) : FloatingChatbot :=
  let message := jsTrim self.chatInput
  if message == "" || self.sessionMissing then self
  else
    let self := self.addMessage "user" (some message)
    let self := { self with chatInput := "" }
    let self := self.hideSuggestions
    let self := self.showTyping
    { self with events := self.events ++ [.fetch message] }

/-- Method `sendMessage()` from the moment its `fetch` settles. -/
def sendMessageSettle (self : FloatingChatbot) (outcome : ChatFetch) : FloatingChatbot :=
  match outcome with
  | .rejected _ => self.hideTyping.addMessage "assistant" (some connectionMessage)
  | .response _ none => self.hideTyping.addMessage "assistant" (some connectionMessage)
  | .response _ (some data) =>
    let self := self.hideTyping
    if data.success then
      let self := self.addMessage "assistant" data.response
      match data.suggestions with
      | some list => if list.length > 0 then self.displaySuggestions list else self
      | none => self
    else self.addMessage "assistant" (some apologyMessage)

/-- The user edits the input box; `value` is what the box then holds. -/
def typeInput (self : FloatingChatbot) (value : String) : FloatingChatbot :=
  { self with chatInput := value }

/-- The newline normalisation of a `textarea`: every CR LF pair and every other CR
becomes LF. -/
def normalizeNewlines : List Char → List Char
  | [] => []
  | '\r' :: '\n' :: rest => '\n' :: normalizeNewlines rest
  | '\r' :: rest => '\n' :: normalizeNewlines rest
  | c :: rest => c :: normalizeNewlines rest

/-- What `input.value` reads after `input.value = value` on a `textarea`. -/
def textareaValue (value : String) : String :=
  String.mk (normalizeNewlines value.data)

/-- The `keydown` listener of `bindEvents` for the Enter key without Shift in the
input box. -/
def pressEnter (self : FloatingChatbot) : FloatingChatbot :=
  self.sendMessageStart

/-- Method `useSuggestion(suggestion)` up to the `await` of its `sendMessage()`. -/
def useSuggestion (self : FloatingChatbot) (suggestion : String) : FloatingChatbot :=
  ({ self with chatInput := textareaValue suggestion } : FloatingChatbot).sendMessageStart

end FloatingChatbot

/-! ## Window state of `SteamChatbot` and session start of `FloatingChatbot` -/

namespace SteamChatbot

/-- Method `resetUnreadCount()`; the badge follows `unreadCount`. -/
def resetUnreadCount (self : SteamChatbot) : SteamChatbot :=
  { self with unreadCount := 0 }

/-- Method `toggleChat()`; the class `active` of the window follows `isOpen`. -/
def toggleChat (self : SteamChatbot) : SteamChatbot :=
  let self := { self with isOpen := !self.isOpen }
  if self.isOpen then self.resetUnreadCount else self

/-- Method `minimizeChat()`. -/
def minimizeChat (self : SteamChatbot) : SteamChatbot :=
  { self with isOpen := false }

/-- Method `closeChat()`; its notification is a line on the console. -/
def closeChat (self : SteamChatbot) : SteamChatbot :=
  { self with isOpen := false }

end SteamChatbot

/-- One call on a `SteamChatbot` among the window actions and message arrivals. -/
inductive SteamOp where
  | toggleChat
  | minimizeChat
  | closeChat
  | addMessageToChat (role content : String) (now : Int)
deriving DecidableEq, Repr

namespace SteamChatbot

def step (self : SteamChatbot) : SteamOp → SteamChatbot
  | .toggleChat => self.toggleChat
  | .minimizeChat => self.minimizeChat
  | .closeChat => self.closeChat
  | .addMessageToChat role content now => self.addMessageToChat role content now

/-- The state after a sequence of calls. -/
def run (self : SteamChatbot) (ops : List SteamOp) : SteamChatbot :=
  ops.foldl step self

end SteamChatbot

namespace SteamChatbot

/-- An open window has nothing unread. -/
def OpenIsRead (self : SteamChatbot) : Prop :=
  self.isOpen = true → self.unreadCount = 0

end SteamChatbot

/-- The parsed body of a reply of the session-start endpoint. `success` is the
truthiness of the field; `session_id` is `none` when the field is absent. -/
structure SessionReply where
  success : Bool
  session_id : Option String := none
deriving DecidableEq, Repr

/-- How the `fetch` of `startSession` and the `response.json()` after it settle. -/
inductive SessionFetch where
  /-- The promise of `fetch` rejects with this error. -/
  | rejected (error : JsError)
  /-- A response with this status arrives; `body` is `none` when `response.json()`
  rejects. -/
  | response (status : Nat) (body : Option SessionReply)
deriving DecidableEq, Repr

namespace FloatingChatbot

/-- The state that the constructor sets up before `init()` runs `startSession()`. -/
def init : FloatingChatbot :=
  { sessionId := none, isOpen := false, isMinimized := false, chatInput := "",
    sendBtnDisabled := false, chatMessages := [], notificationDot := false,
    suggestionsGrid := [], suggestionsShown := false, events := [] }

/-- Method `startSession()` from the moment its `fetch` settles; `now` is the reading
of `Date.now()` in the `catch` block. The second component tells whether
`loadWelcomeMessage()` is called. -/
def startSessionSettle (self : FloatingChatbot) (outcome : SessionFetch) (now : Int) :
    FloatingChatbot × Bool :=
  match outcome with
  | .rejected _ => ({ self with sessionId := some ("local_" ++ toString now) }, true)
  | .response _ none => ({ self with sessionId := some ("local_" ++ toString now) }, true)
  | .response _ (some data) =>
    if data.success then ({ self with sessionId := data.session_id }, true)
    else (self, false)

end FloatingChatbot

/-! ## Conversation store: order, search, cleanup -/

/-- The clock readings that a call takes, in the order it takes them. -/
def Op.readings : Op → List Int
  | .saveMessage _ _ _ env => [env.idNow, env.timestamp, env.createdAt, env.updatedAt]
  | .startNewConversation now _ => [now]
  | .loadConversation _ => []

/-- The clock readings of a sequence of calls, in order. -/
def clockReadings (ops : List Op) : List Int :=
  ops.flatMap Op.readings

namespace ChatHistory

/-- The history array of `saveMessage` after the push and before
`history.splice(maxHistoryLength)`. -/
def pushedHistory (self : ChatHistory) (content : String) (message : Message)
    (env : SaveEnv) : List Conversation :=
  let history := self.getHistory
  let isCurrent := fun (conv : Conversation) => conv.id == self.currentConversationId
  let history :=
    match history.find? isCurrent with
    | some _ => history
    | none =>
      { id := self.currentConversationId
        title := generateConversationTitle content
        createdAt := env.createdAt
        updatedAt := env.createdAt
        messages := [] } :: history
  modifyFirst isCurrent (fun conv => pushMessage conv message env.updatedAt) history

/-- An element of the array that `searchHistory` returns. -/
structure SearchResult where
  conversationId : String
  conversationTitle : Utf16
  message : Message
  context : List Message
deriving DecidableEq, Repr

/-- Method `getMessageContext(messages, messageId, contextSize)`: `findIndex` by id,
then `messages.slice(start, end)`. -/
def getMessageContext (messages : List Message) (messageId : String) (contextSize : Nat) :
    List Message :=
  match messages.findIdx? (fun msg => msg.id == messageId) with
  | none => []
  | some messageIndex =>
    let start := messageIndex - contextSize
    let stop := min messages.length (messageIndex + contextSize + 1)
    (messages.take stop).drop start

/-- Method `searchHistory(query)`: the two nested `forEach` loops that push onto
`results`. `toLowerCase` is the platform's `String.prototype.toLowerCase`, which
`jsToLowerCase` models. -/
def searchHistory (toLowerCase : String → String) (self : ChatHistory) (query : String) :
    List SearchResult :=
  self.getHistory.foldl
    (fun results conversation =>
      conversation.messages.foldl
        (fun results message =>
          if jsIncludes (toLowerCase message.content) (toLowerCase query) then
            results ++
              [{ conversationId := conversation.id
                 conversationTitle := conversation.title
                 message := message
                 context := getMessageContext conversation.messages message.id 2 }]
          else results)
        results)
    []

/-- The largest time value of a `Date`: 8.64e15 ms on either side of the epoch. -/
def maxTimeValue : Int :=
  8640000000000000

/-- The instant that `cutoffDate.setDate(cutoffDate.getDate() - daysToKeep)` leaves in
`cutoffDate`, for a whole number `daysToKeep`: that many days of 86400000 ms before
`now`, moved by `offsetShift`, the change of the local clock's offset between the two
dates (0 when there is none). Beyond the range of time values `setDate` leaves an
Invalid Date, which is `none`. -/
def cutoffDate (now daysToKeep offsetShift : Int) : Option Int :=
  let instant := now - daysToKeep * 86400000 + offsetShift
  if -maxTimeValue ≤ instant ∧ instant ≤ maxTimeValue then some instant else none

/-- The test `new Date(conv.updatedAt) > cutoffDate`; it is false against an Invalid
Date. -/
def laterThan (updatedAt : Int) : Option Int → Bool
  | some instant => decide (instant < updatedAt)
  | none => false

/-- Method `autoCleanup(daysToKeep)`: the returned count and the new state. -/
def autoCleanup (self : ChatHistory) (daysToKeep now offsetShift : Int) (setItemOk : Bool) :
    Nat × ChatHistory :=
  let cutoff := cutoffDate now daysToKeep offsetShift
  let history := self.getHistory
  let filteredHistory := history.filter (fun conv => laterThan conv.updatedAt cutoff)
  if filteredHistory.length < history.length then
    (history.length - filteredHistory.length, self.saveHistory filteredHistory setItemOk)
  else (0, self)

/-- A history in which every conversation was created no earlier than those after it,
each at one of the clock readings `readings`. -/
def CreatedNewestFirst (history : List Conversation) (readings : List Int) : Prop :=
  history.Pairwise (fun a b => b.createdAt ≤ a.createdAt) ∧
    ∀ conv ∈ history, conv.createdAt ∈ readings

end ChatHistory

/-! ## Search, in the words of the specification -/

/-- The text has ASCII characters only. -/
def isAsciiText (s : String) : Bool :=
  s.data.all (fun c => decide (c.toNat < 0x80))

/-- The query occurs in the content as a substring when the two are compared without
regard to the case of the letters `A` to `Z`. -/
def containsIgnoringCase (content query : String) : Bool :=
  decide (query.data.map Char.toLower <:+: content.data.map Char.toLower)

/-! ## Message validation, in the words of the specification -/

/-- The characters of `word` stand at position `i` of `input`, letters compared
without regard to case. -/
def occursAt (word : String) (input : List Char) (i : Nat) : Prop :=
  ((input.drop i).take word.length).map Char.toUpper = word.data.map Char.toUpper

/-- The message is white space from end to end. -/
def whitespaceOnly (message : String) : Prop :=
  ∀ c ∈ message.data, isJsWhitespace c = true

/-- A case-insensitive occurrence of `javascript:`. -/
def mentionsJavascript (message : String) : Prop :=
  ∃ i, occursAt "javascript:" message.data i

/-- A complete script element: `<script` at a position `i` where the tag name ends
(the next character is not a word character), and `</script>` at a position `j`
after it. -/
def hasScriptElement (message : String) : Prop :=
  ∃ i j x, occursAt "<script" message.data i ∧ message.data[i + 7]? = some x ∧
    isWordChar x = false ∧ i + 7 ≤ j ∧ occursAt "</script>" message.data j

/-- An occurrence of `on` at a position `i`, followed by one or more word characters
up to `k`, white space up to `j`, and `=` at `j`. -/
def hasHandler (message : String) : Prop :=
  ∃ i k j, occursAt "on" message.data i ∧ i + 2 < k ∧ k ≤ j ∧
    (∀ t, i + 2 ≤ t → t < k → ∃ x, message.data[t]? = some x ∧ isWordChar x = true) ∧
    (∀ t, k ≤ t → t < j → ∃ x, message.data[t]? = some x ∧ isJsWhitespace x = true) ∧
    message.data[j]? = some '='

/-- What the specification asks of a message that `validateMessage` accepts; its
500 characters are UTF-16 code units, as `length` counts them. -/
def acceptable (message : String) : Prop :=
  message ≠ "" ∧ ¬ whitespaceOnly message ∧ (utf16 message).length ≤ 500 ∧
    ¬ mentionsJavascript message ∧ ¬ hasScriptElement message ∧ ¬ hasHandler message

/-! ## Sample inputs -/

/-- An environment for `saveMessage` in which every clock reading is `t` and the
write succeeds. -/
def sampleEnv (t : Int) : SaveEnv :=
  { idNow := t, idRandom := "r", timestamp := t, createdAt := t, updatedAt := t,
    setItemOk := true }

/-- Two conversations `a` and `b` are started at times 1 and 2, then `a` is loaded
again and receives a second message at time 3. -/
def sampleOps : List Op :=
  [ .loadConversation "a", .saveMessage "user" "hi" {} (sampleEnv 1),
    .loadConversation "b", .saveMessage "user" "yo" {} (sampleEnv 2),
    .loadConversation "a", .saveMessage "user" "again" {} (sampleEnv 3) ]

/-- The store after `sampleOps`: conversation `b` (updated at 2) stands before
conversation `a` (updated at 3). -/
def sampleStore : ChatHistory :=
  (ChatHistory.init 0 "x").run sampleOps

/-- The first conversation of `sampleStore`. -/
def sampleConversation : Conversation :=
  { id := "b", title := utf16 "Chat: yo", createdAt := 2, updatedAt := 2,
    messages := [{ id := "msg_2_r", role := "user", content := "yo", timestamp := 2,
                   conversationId := "b", extra := [] }] }

/-- A conversation as an import file may hold it, with the id of a stored one. -/
def sampleImported : Conversation :=
  { id := "a", title := utf16 "Chat: elsewhere", createdAt := 5, updatedAt := 5, messages := [] }

/-- A conversation as an import file may hold it, with an id that is not stored. -/
def sampleFresh : Conversation :=
  { id := "c", title := utf16 "Chat: elsewhere", createdAt := 5, updatedAt := 5, messages := [] }

/-- An endpoint that answers every attempt with status 500. -/
def sampleFailing : Nat → Attempt Nat :=
  fun _ => .notOk 500 "Internal Server Error"

/-- An endpoint on which every `fetch` rejects the way a browser reports a lost
connection. -/
def sampleOffline : Nat → Attempt Nat :=
  fun _ => .rejected { name := "TypeError", message := "Failed to fetch" }

/-- An endpoint that answers every attempt with status 503. -/
def sampleUnavailable : Nat → Attempt Nat :=
  fun _ => .notOk 503 "Service Unavailable"

/-- An endpoint that answers every attempt with status 404 and a reason phrase that
quotes an upstream code. -/
def sampleNotFound : Nat → Attempt Nat :=
  fun _ => .notOk 404 "Not Found (upstream 500)"

/-- An endpoint that fails once and then answers with the body `7`. -/
def sampleSecondTry : Nat → Attempt Nat :=
  fun k => if k = 2 then .ok 7 else .notOk 502 "Bad Gateway"

/-- A `SteamChatbot` that is closed and idle, with a question typed into the input box. -/
def sampleAsking : SteamChatbot :=
  { SteamChatbot.init with chatInput := "  What does this dashboard show? " }

/-- A `SteamChatbot` that is closed and idle, with a script element typed into the
input box. -/
def sampleUnsafe : SteamChatbot :=
  { SteamChatbot.init with chatInput := "<script>alert(1)</script>" }

/-- A successful reply flagged as going beyond the application. -/
def sampleBeyondReply : ChatReply :=
  { success := true, response := some "Think bigger.", is_beyond_application := true }

/-- A successful plain reply. -/
def samplePlainReply : ChatReply :=
  { success := true, response := some "It shows Steam usage.",
    suggested_questions := some ["More stats?"] }

/-- A `FloatingChatbot` with a session, closed, with a question typed into the input box. -/
def sampleFloating : FloatingChatbot :=
  { sessionId := some "s1", isOpen := false, isMinimized := false,
    chatInput := "first question", sendBtnDisabled := false, chatMessages := [],
    notificationDot := false, suggestionsGrid := [], suggestionsShown := false,
    events := [] }

/-- A `FloatingChatbot` right after construction, with a question typed into the
input box. -/
def sampleUnstarted : FloatingChatbot :=
  { FloatingChatbot.init with chatInput := "What does this dashboard show?" }

/-- A few window actions and message arrivals on a `SteamChatbot`. -/
def sampleWindowOps : List SteamOp :=
  [.addMessageToChat "assistant" "Welcome" 1, .toggleChat,
   .addMessageToChat "assistant" "While open" 2, .minimizeChat,
   .addMessageToChat "assistant" "While closed" 3]

/-- A metadata object that carries the key `role`. -/
def sampleMetadata : Metadata :=
  { role := some "system" }

/-- The platform's `toLowerCase` on texts of ASCII letters. -/
def sampleLower (s : String) : String :=
  String.mk (s.data.map Char.toLower)

/-- An environment for `saveMessage` like `sampleEnv`, with its own random suffix. -/
def sampleEnvWith (t : Int) (random : String) : SaveEnv :=
  { idNow := t, idRandom := random, timestamp := t, createdAt := t, updatedAt := t,
    setItemOk := true }

/-- A conversation of four messages whose first and last are saved with the same id
in the metadata. -/
def sampleRepeatedOps : List Op :=
  [ .loadConversation "a",
    .saveMessage "user" "alpha" { id := some "m" } (sampleEnvWith 1 "p"),
    .saveMessage "assistant" "beta" {} (sampleEnvWith 2 "q"),
    .saveMessage "user" "gamma" {} (sampleEnvWith 3 "r"),
    .saveMessage "assistant" "Needle" { id := some "m" } (sampleEnvWith 4 "s") ]

/-- The store after `sampleRepeatedOps`. -/
def sampleRepeated : ChatHistory :=
  (ChatHistory.init 0 "x").run sampleRepeatedOps

/-- A store whose one conversation was last updated at instant 5. -/
def sampleOld : ChatHistory :=
  { currentConversationId := "c", storage := some [sampleFresh] }

/-- A question that `validateMessage` accepts. -/
def sampleQuestion : String :=
  "Which games sold best?"

/-- A store with one conversation, whose one message is a Greek word in capitals. -/
def sampleGreek : ChatHistory :=
  { currentConversationId := "g",
    storage := some
      [{ id := "g", title := utf16 "Chat: \u0392\u0391\u03a3\u0397", createdAt := 1,
         updatedAt := 1,
         messages :=
           [{ id := "m1", role := "user", content := "\u0392\u0391\u03a3\u0397",
              timestamp := 1, conversationId := "g", extra := [] }] }] }

/-- A message of 251 emoji: 251 characters, 502 UTF-16 code units. -/
def sampleEmoji : String :=
  String.mk (List.replicate 251 (Char.ofNat 0x1f600))

/-! ## Conversation store: caps -/

namespace ChatHistory

theorem length_modifyFirst (p : Conversation → Bool) (f : Conversation → Conversation)
    (l : List Conversation) : (modifyFirst p f l).length = l.length := by
  induction l with
  | nil => rfl
  | cons c cs ih =>
    unfold modifyFirst
    split <;> simp [ih]

theorem mem_modifyFirst {p : Conversation → Bool} {f : Conversation → Conversation}
    {l : List Conversation} {c : Conversation} (h : c ∈ modifyFirst p f l) :
    c ∈ l ∨ ∃ c0 ∈ l, c = f c0 := by
  induction l with
  | nil => simp [modifyFirst] at h
  | cons d ds ih =>
    unfold modifyFirst at h
    split at h
    · rcases List.mem_cons.1 h with h | h
      · exact Or.inr ⟨d, List.mem_cons_self _ _, h⟩
      · exact Or.inl (List.mem_cons_of_mem _ h)
    · rcases List.mem_cons.1 h with h | h
      · exact Or.inl (h ▸ List.mem_cons_self _ _)
      · rcases ih h with h | ⟨c0, hc0, h⟩
        · exact Or.inl (List.mem_cons_of_mem _ h)
        · exact Or.inr ⟨c0, List.mem_cons_of_mem _ hc0, h⟩

theorem find?_modifyFirst (p : Conversation → Bool) (f : Conversation → Conversation)
    (hf : ∀ c, p (f c) = p c) (l : List Conversation) :
    (modifyFirst p f l).find? p = (l.find? p).map f := by
  induction l with
  | nil => rfl
  | cons c cs ih =>
    unfold modifyFirst
    by_cases hc : p c = true
    · simp [hc, hf]
    · simp [hc, ih]

theorem length_pushMessage_messages (conv : Conversation) (message : Message) (now : Int) :
    (pushMessage conv message now).messages.length ≤ maxMessagesPerConversation := by
  unfold pushMessage
  simp only
  split
  · rw [List.length_drop]; omega
  · omega

/-- The messages after a push: the last `min 100 (|M| + 1)` of `M ++ [m]`. -/
theorem pushMessage_messages (conv : Conversation) (message : Message) (now : Int) :
    (pushMessage conv message now).messages =
      (conv.messages ++ [message]).drop
        ((conv.messages ++ [message]).length - min 100 (conv.messages.length + 1)) := by
  unfold pushMessage maxMessagesPerConversation
  simp only
  split
  · rename_i h
    rw [List.length_append, List.length_singleton] at h ⊢
    rw [Nat.min_eq_left (by omega)]
  · rename_i h
    rw [List.length_append, List.length_singleton] at h ⊢
    rw [Nat.min_eq_right (by omega), Nat.sub_self, List.drop_zero]

theorem length_savedHistory (self : ChatHistory) (content : String) (message : Message)
    (env : SaveEnv) : (savedHistory self content message env).length ≤ maxHistoryLength := by
  unfold savedHistory
  simp only
  split
  · rw [List.length_take]; exact Nat.min_le_left _ _
  · omega

theorem savedHistory_messages (self : ChatHistory) (content : String) (message : Message)
    (env : SaveEnv)
    (h : ∀ conv ∈ self.getHistory, conv.messages.length ≤ maxMessagesPerConversation) :
    ∀ conv ∈ savedHistory self content message env,
      conv.messages.length ≤ maxMessagesPerConversation := by
  intro conv hconv
  have key : ∀ l : List Conversation,
      (∀ c ∈ l, c.messages.length ≤ maxMessagesPerConversation) →
      ∀ c ∈ modifyFirst (fun conv => conv.id == self.currentConversationId)
        (fun conv => pushMessage conv message env.updatedAt) l,
        c.messages.length ≤ maxMessagesPerConversation := by
    intro l hl c hc
    rcases mem_modifyFirst hc with hc | ⟨c0, _, rfl⟩
    · exact hl c hc
    · exact length_pushMessage_messages _ _ _
  unfold savedHistory at hconv
  simp only at hconv
  have hmem : conv ∈ modifyFirst (fun conv => conv.id == self.currentConversationId)
      (fun conv => pushMessage conv message env.updatedAt)
      (match self.getHistory.find? (fun conv => conv.id == self.currentConversationId) with
        | some _ => self.getHistory
        | none =>
          { id := self.currentConversationId
            title := generateConversationTitle content
            createdAt := env.createdAt
            updatedAt := env.createdAt
            messages := [] } :: self.getHistory) := by
    split at hconv
    · exact List.mem_of_mem_take hconv
    · exact hconv
  refine key _ ?_ conv hmem
  intro c hc
  split at hc
  · exact h c hc
  · rcases List.mem_cons.1 hc with rfl | hc
    · simp
    · exact h c hc

theorem bounded_init (now : Int) (random : String) : Bounded (init now random) := by
  simp [Bounded, init, getHistory]

theorem bounded_step (self : ChatHistory) (op : Op) (h : Bounded self) :
    Bounded (self.step op) := by
  cases op with
  | saveMessage role content metadata env =>
    simp only [step, saveMessage, saveHistory]
    split
    · exact ⟨length_savedHistory _ _ _ _, savedHistory_messages _ _ _ _ h.2⟩
    · exact h
  | startNewConversation now random => exact h
  | loadConversation conversationId => exact h

theorem bounded_run (ops : List Op) : ∀ self : ChatHistory, Bounded self →
    Bounded (self.run ops) := by
  induction ops with
  | nil => intro self h; exact h
  | cons op ops ih => intro self h; exact ih _ (bounded_step self op h)

/-- C1: starting from an empty store, after any sequence of `saveMessage`,
`startNewConversation` and `loadConversation` calls, every conversation of the
stored history holds at most 100 messages. -/
theorem run_messages_le_cap (now : Int) (random : String) (ops : List Op) :
    ∀ conv ∈ ((init now random).run ops).getHistory,
      conv.messages.length ≤ maxMessagesPerConversation :=
  (bounded_run ops _ (bounded_init now random)).2

/-- C2: starting from an empty store, after any sequence of `saveMessage`,
`startNewConversation` and `loadConversation` calls, the stored history holds at
most 50 conversations. -/
theorem run_history_le_cap (now : Int) (random : String) (ops : List Op) :
    ((init now random).run ops).getHistory.length ≤ maxHistoryLength :=
  (bounded_run ops _ (bounded_init now random)).1

theorem find?_savedHistory (self : ChatHistory) (content : String) (message : Message)
    (env : SaveEnv) (hlen : self.getHistory.length ≤ maxHistoryLength) :
    (savedHistory self content message env).find?
        (fun conv => conv.id == self.currentConversationId) =
      some (pushMessage
        (match self.getHistory.find? (fun conv => conv.id == self.currentConversationId) with
          | some conv => conv
          | none =>
            { id := self.currentConversationId
              title := generateConversationTitle content
              createdAt := env.createdAt
              updatedAt := env.createdAt
              messages := [] }) message env.updatedAt) := by
  have hf : ∀ c : Conversation,
      (fun conv : Conversation => conv.id == self.currentConversationId)
        (pushMessage c message env.updatedAt) =
      (fun conv : Conversation => conv.id == self.currentConversationId) c := by
    intro c; rfl
  unfold savedHistory
  simp only
  cases hfind : self.getHistory.find? (fun conv => conv.id == self.currentConversationId) with
  | some conv =>
    simp only
    rw [if_neg (by rw [length_modifyFirst]; omega), find?_modifyFirst _ _ hf, hfind]
    rfl
  | none =>
    simp only
    have hm : modifyFirst (fun conv => conv.id == self.currentConversationId)
        (fun conv => pushMessage conv message env.updatedAt)
        ({ id := self.currentConversationId
           title := generateConversationTitle content
           createdAt := env.createdAt
           updatedAt := env.createdAt
           messages := [] } :: self.getHistory) =
        pushMessage { id := self.currentConversationId
                      title := generateConversationTitle content
                      createdAt := env.createdAt
                      updatedAt := env.createdAt
                      messages := [] } message env.updatedAt :: self.getHistory := by
      simp [modifyFirst]
    rw [hm]
    split
    · simp [maxHistoryLength, List.take_succ_cons, pushMessage]
    · simp [pushMessage]

/-- C3: a `saveMessage` whose write succeeds leaves, as the messages of the current
conversation, exactly the last `min 100 (|M| + 1)` elements of `M` followed by the
new message `m`, where `M` are the messages the conversation had (none when the
conversation is created by the call); so only the oldest are evicted and `m` is last. -/
theorem saveMessage_messages (self : ChatHistory) (role content : String)
    (metadata : Metadata) (env : SaveEnv)
    (hlen : self.getHistory.length ≤ maxHistoryLength) (hok : env.setItemOk = true) :
    (self.saveMessage role content metadata env).2.currentConversationId =
        self.currentConversationId ∧
      (self.saveMessage role content metadata env).2.getCurrentConversationMessages =
        (self.getCurrentConversationMessages ++ [(self.saveMessage role content metadata env).1]).drop
          ((self.getCurrentConversationMessages ++
              [(self.saveMessage role content metadata env).1]).length -
            min 100 (self.getCurrentConversationMessages.length + 1)) ∧
      (self.saveMessage role content metadata env).2.getCurrentConversationMessages.getLast? =
        some (self.saveMessage role content metadata env).1 := by
  have hcur : (self.saveMessage role content metadata env).2.currentConversationId =
      self.currentConversationId := by
    simp [saveMessage, saveHistory, hok]
  have hhist : (self.saveMessage role content metadata env).2.getHistory =
      savedHistory self content (buildMessage self role content metadata env) env := by
    simp [saveMessage, saveHistory, hok, getHistory]
  have hmsgs : (self.saveMessage role content metadata env).2.getCurrentConversationMessages =
      (self.getCurrentConversationMessages ++ [(self.saveMessage role content metadata env).1]).drop
        ((self.getCurrentConversationMessages ++
            [(self.saveMessage role content metadata env).1]).length -
          min 100 (self.getCurrentConversationMessages.length + 1)) := by
    have h1 : (self.saveMessage role content metadata env).1 =
        buildMessage self role content metadata env := rfl
    rw [h1]
    unfold getCurrentConversationMessages
    rw [hcur, hhist, find?_savedHistory self content _ env hlen]
    simp only
    rw [pushMessage_messages]
    cases self.getHistory.find? (fun conv => conv.id == self.currentConversationId) <;> rfl
  refine ⟨hcur, hmsgs, ?_⟩
  rw [hmsgs, List.getLast?_drop, if_neg (by simp)]
  simp

/-- Witness of C1 on `sampleOps`. -/
theorem run_messages_le_cap_witness :
    sampleConversation ∈ ((init 0 "x").run sampleOps).getHistory ∧
      sampleConversation.messages.length ≤ maxMessagesPerConversation :=
  ⟨by decide, run_messages_le_cap 0 "x" sampleOps sampleConversation (by decide)⟩

/-- Witness of C3: a third message for conversation `a` of `sampleStore`. -/
theorem saveMessage_messages_witness :
    sampleStore.getHistory.length ≤ maxHistoryLength ∧ (sampleEnv 4).setItemOk = true ∧
      (sampleStore.saveMessage "assistant" "ok" {} (sampleEnv 4)).2.getCurrentConversationMessages.getLast? =
        some (sampleStore.saveMessage "assistant" "ok" {} (sampleEnv 4)).1 :=
  ⟨by decide, rfl,
    (saveMessage_messages sampleStore "assistant" "ok" {} (sampleEnv 4) (by decide) rfl).2.2⟩

end ChatHistory

/-! ## Import and export -/

namespace ChatHistory

theorem sortByUpdatedAt_perm (l : List Conversation) : (sortByUpdatedAt l).Perm l :=
  List.perm_insertionSort newerFirst l

theorem sortByUpdatedAt_sorted (l : List Conversation) :
    (sortByUpdatedAt l).Pairwise newerFirst :=
  List.sorted_insertionSort newerFirst l

theorem filter_orderedInsert (t : Int) (a : Conversation) (l : List Conversation) :
    (List.orderedInsert newerFirst a l).filter (fun c => c.updatedAt == t) =
      (a :: l).filter (fun c => c.updatedAt == t) := by
  induction l with
  | nil => rfl
  | cons b l ih =>
    rw [List.orderedInsert]
    split
    · rfl
    · rename_i hab
      rw [List.filter_cons, ih]
      by_cases ha : a.updatedAt = t
      · have hb : ¬ b.updatedAt = t := by
          intro hb
          exact hab (by simp [newerFirst, ha, hb])
        simp [List.filter_cons, ha, hb]
      · by_cases hb : b.updatedAt = t <;> simp [List.filter_cons, ha, hb]

/-- The sort is stable: conversations with the same `updatedAt` keep their order. -/
theorem sortByUpdatedAt_stable (t : Int) (l : List Conversation) :
    (sortByUpdatedAt l).filter (fun c => c.updatedAt == t) =
      l.filter (fun c => c.updatedAt == t) := by
  induction l with
  | nil => rfl
  | cons a l ih =>
    unfold sortByUpdatedAt at ih ⊢
    rw [List.insertionSort, filter_orderedInsert, List.filter_cons, List.filter_cons, ih]

theorem sortByUpdatedAt_eq_self_iff (l : List Conversation) :
    sortByUpdatedAt l = l ↔ l.Pairwise newerFirst :=
  ⟨fun h => h ▸ sortByUpdatedAt_sorted l, fun h => List.Sorted.insertionSort_eq h⟩

theorem length_mergeHistory (imported current : List Conversation) :
    (mergeHistory imported current).length ≤ maxHistoryLength := by
  unfold mergeHistory
  rw [List.length_take]
  exact Nat.min_le_left _ _

theorem mergeHistory_of_le (imported current : List Conversation)
    (h : (imported ++ current).length ≤ maxHistoryLength) :
    mergeHistory imported current = sortByUpdatedAt (imported ++ current) := by
  unfold mergeHistory
  apply List.take_of_length_le
  rw [(sortByUpdatedAt_perm _).length_eq]
  exact h

theorem importHistory_array (self : ChatHistory) (imported : List Conversation) :
    self.importHistory (.array imported) true =
      ({ success := true, count := some (mergeHistory imported self.getHistory).length,
         error := none },
       { self with storage := some (mergeHistory imported self.getHistory) }) := rfl

/-- C4, as stated, fails: `sampleStore` is reached by appends from an empty store and
holds two conversations, yet importing its exported text into an empty store does
not reproduce its history, whether or not the write succeeds: the import puts
conversation `a` (updated last) before conversation `b`. -/
theorem import_export_order_counterexample :
    sampleStore = (init 0 "x").run sampleOps ∧
      sampleStore.getHistory.length ≤ maxHistoryLength ∧
      (init 9 "y").getHistory = [] ∧
      ((init 9 "y").importHistory (parseExported sampleStore.exportHistory) true).2.getHistory ≠
        sampleStore.getHistory ∧
      ((init 9 "y").importHistory (parseExported sampleStore.exportHistory) false).2.getHistory ≠
        sampleStore.getHistory ∧
      (((init 9 "y").importHistory (parseExported sampleStore.exportHistory) true).2.getHistory.map
        (fun conv => conv.id)) = ["a", "b"] ∧
      sampleStore.getHistory.map (fun conv => conv.id) = ["b", "a"] := by
  decide

/-- C4 amended: importing the exported text of a history `H` of at most 50
conversations into an empty store succeeds with count `|H|` and leaves the stored
history equal to `H` stably sorted by `updatedAt` descending: a permutation of `H`
(same conversations, same contents), equal to `H` itself exactly when `H` is already
in descending `updatedAt` order. -/
theorem import_export_sorted (source target : ChatHistory)
    (hlen : source.getHistory.length ≤ maxHistoryLength) (hempty : target.getHistory = []) :
    (target.importHistory (parseExported source.exportHistory) true).1 =
        { success := true, count := some source.getHistory.length, error := none } ∧
      (target.importHistory (parseExported source.exportHistory) true).2.getHistory =
        sortByUpdatedAt source.getHistory ∧
      ((target.importHistory (parseExported source.exportHistory) true).2.getHistory).Perm
        source.getHistory ∧
      ((target.importHistory (parseExported source.exportHistory) true).2.getHistory =
          source.getHistory ↔
        source.getHistory.Pairwise (fun a b => b.updatedAt ≤ a.updatedAt)) := by
  have hm : mergeHistory source.getHistory target.getHistory =
      sortByUpdatedAt source.getHistory := by
    rw [mergeHistory_of_le _ _ (by rw [hempty, List.append_nil]; exact hlen), hempty,
      List.append_nil]
  have hh : (target.importHistory (parseExported source.exportHistory) true).2.getHistory =
      sortByUpdatedAt source.getHistory := by
    simp only [parseExported, exportHistory, importHistory_array, getHistory]
    exact hm
  refine ⟨?_, hh, ?_, ?_⟩
  · simp only [parseExported, exportHistory, importHistory_array]
    rw [hm, (sortByUpdatedAt_perm _).length_eq]
  · rw [hh]; exact sortByUpdatedAt_perm _
  · rw [hh]; exact sortByUpdatedAt_eq_self_iff _

/-- Witness of the amended C4 on `sampleStore`. -/
theorem import_export_sorted_witness :
    sampleStore.getHistory.length ≤ maxHistoryLength ∧ (init 9 "y").getHistory = [] ∧
      ((init 9 "y").importHistory (parseExported sampleStore.exportHistory) true).2.getHistory =
        sortByUpdatedAt sampleStore.getHistory :=
  ⟨by decide, rfl, (import_export_sorted sampleStore (init 9 "y") (by decide) rfl).2.1⟩

/-- C5: when the text is not valid JSON, or parses to a value that is not an array,
`importHistory` returns `success: false` with an error message (the parser's message,
or `Invalid history format`), and the store is what it was before the call. -/
theorem importHistory_malformed (self : ChatHistory) (parsed : JsonParse) (setItemOk : Bool)
    (h : ∀ conversations, parsed ≠ .array conversations) :
    (self.importHistory parsed setItemOk).1.success = false ∧
      (self.importHistory parsed setItemOk).1.count = none ∧
      (self.importHistory parsed setItemOk).1.error =
        (match parsed with
          | .syntaxError message => some message
          | _ => some "Invalid history format") ∧
      (self.importHistory parsed setItemOk).1.error.isSome = true ∧
      (self.importHistory parsed setItemOk).2 = self := by
  cases parsed with
  | syntaxError message => simp [importHistory]
  | nonArray => simp [importHistory]
  | array conversations => exact absurd rfl (h conversations)

/-- Witness of C5: the text `not json` on `sampleStore`. -/
theorem importHistory_malformed_witness :
    (∀ conversations,
        JsonParse.syntaxError "Unexpected token" ≠ JsonParse.array conversations) ∧
      (sampleStore.importHistory (.syntaxError "Unexpected token") true).1.success = false ∧
      (sampleStore.importHistory (.syntaxError "Unexpected token") true).2 = sampleStore :=
  ⟨fun _ h => JsonParse.noConfusion h,
    (importHistory_malformed sampleStore (.syntaxError "Unexpected token") true
      (fun _ h => JsonParse.noConfusion h)).1,
    (importHistory_malformed sampleStore (.syntaxError "Unexpected token") true
      (fun _ h => JsonParse.noConfusion h)).2.2.2.2⟩

theorem mergeHistory_subperm (imported current : List Conversation) :
    (mergeHistory imported current).Subperm (imported ++ current) :=
  ((List.take_sublist _ _).subperm).trans (sortByUpdatedAt_perm _).subperm

/-- C6, as stated, fails: a store holding conversation `a` imports a file holding
another conversation with id `a`; the import succeeds and the stored history then
holds both, the stored copy included. -/
theorem importHistory_duplicate_counterexample :
    sampleImported.id = "a" ∧
      (sampleStore.getHistory.map (fun conv => conv.id)) = ["b", "a"] ∧
      (sampleStore.importHistory (.array [sampleImported]) true).1.success = true ∧
      ((sampleStore.importHistory (.array [sampleImported]) true).2.getHistory.map
        (fun conv => conv.id)) = ["a", "a", "b"] ∧
      ¬ ((sampleStore.importHistory (.array [sampleImported]) true).2.getHistory.map
        (fun conv => conv.id)).Nodup ∧
      ∀ conv ∈ sampleStore.getHistory,
        conv ∈ (sampleStore.importHistory (.array [sampleImported]) true).2.getHistory := by
  decide

/-- C6 amended: `importHistory` does not de-duplicate. After an import that succeeds
and is written, every stored conversation is one of the imported or previously
stored ones, each kept at most as often as it occurs there; when the two lists
together have at most 50 conversations all of them are kept, copies with a shared
id included; and no two stored conversations share an id provided no two
conversations of the two lists together share one. -/
theorem importHistory_ids (self : ChatHistory) (imported : List Conversation) :
    (self.importHistory (.array imported) true).1.success = true ∧
      ((self.importHistory (.array imported) true).2.getHistory).Subperm
        (imported ++ self.getHistory) ∧
      ((imported ++ self.getHistory).length ≤ maxHistoryLength →
        ((self.importHistory (.array imported) true).2.getHistory).Perm
          (imported ++ self.getHistory)) ∧
      (((imported ++ self.getHistory).map (fun conv => conv.id)).Nodup →
        ((self.importHistory (.array imported) true).2.getHistory.map
          (fun conv => conv.id)).Nodup) := by
  have hh : (self.importHistory (.array imported) true).2.getHistory =
      mergeHistory imported self.getHistory := rfl
  refine ⟨rfl, ?_, ?_, ?_⟩
  · rw [hh]; exact mergeHistory_subperm _ _
  · intro hlen
    rw [hh, mergeHistory_of_le _ _ hlen]
    exact sortByUpdatedAt_perm _
  · intro hnodup
    rw [hh]
    exact List.Nodup.sublist
      ((List.take_sublist _ _).map _)
      (((sortByUpdatedAt_perm _).map _).nodup_iff.2 hnodup)

/-- Witness of the amended C6: importing a conversation with a new id into
`sampleStore` leaves three conversations with three different ids. -/
theorem importHistory_ids_witness :
    (([sampleFresh] ++ sampleStore.getHistory).map (fun conv => conv.id)).Nodup ∧
      ((sampleStore.importHistory (.array [sampleFresh]) true).2.getHistory.map
        (fun conv => conv.id)).Nodup :=
  ⟨by decide, (importHistory_ids sampleStore [sampleFresh]).2.2.2 (by decide)⟩

/-- C7, as stated, fails when the write fails: `importHistory` returns
`{success: true, count: 3}` for `sampleStore` and one imported conversation, while
`setItem` throws inside `saveHistory`, which swallows the error. The stored history
is still the one from before: two conversations, the older update first. -/
theorem importHistory_unwritten_counterexample :
    (sampleStore.importHistory (.array [sampleImported]) false).1 =
        { success := true, count := some 3, error := none } ∧
      (sampleStore.importHistory (.array [sampleImported]) false).2 = sampleStore ∧
      sampleStore.getHistory.map (fun conv => conv.updatedAt) = [2, 3] ∧
      ¬ (sampleStore.importHistory (.array [sampleImported]) false).2.getHistory.Pairwise
        (fun a b => b.updatedAt ≤ a.updatedAt) ∧
      (sampleStore.importHistory (.array [sampleImported]) false).1.count ≠
        some (sampleStore.importHistory (.array [sampleImported]) false).2.getHistory.length := by
  decide

/-- C7 amended: after an import that succeeds and is written (`setItem` does not
throw), the stored history is ordered by `updatedAt` descending and has at most 50
conversations; every kept conversation
comes from the imported or the previously stored list; kept and dropped
conversations together are the imported and stored ones, and no dropped one is
strictly newer than a kept one; the returned count is the stored length. -/
theorem importHistory_sorted_capped (self : ChatHistory) (imported : List Conversation)
    (setItemOk : Bool) (hok : setItemOk = true) :
    (self.importHistory (.array imported) setItemOk).1.success = true ∧
      ((self.importHistory (.array imported) setItemOk).2.getHistory).Pairwise
        (fun a b => b.updatedAt ≤ a.updatedAt) ∧
      (self.importHistory (.array imported) setItemOk).2.getHistory.length ≤ maxHistoryLength ∧
      (∀ conv ∈ (self.importHistory (.array imported) setItemOk).2.getHistory,
        conv ∈ imported ∨ conv ∈ self.getHistory) ∧
      (∃ dropped : List Conversation,
        ((self.importHistory (.array imported) setItemOk).2.getHistory ++ dropped).Perm
          (imported ++ self.getHistory) ∧
        ∀ d ∈ dropped, ∀ kept ∈ (self.importHistory (.array imported) setItemOk).2.getHistory,
          d.updatedAt ≤ kept.updatedAt) ∧
      (self.importHistory (.array imported) setItemOk).1.count =
        some (self.importHistory (.array imported) setItemOk).2.getHistory.length := by
  subst hok
  have hh : (self.importHistory (.array imported) true).2.getHistory =
      mergeHistory imported self.getHistory := rfl
  have hsorted := sortByUpdatedAt_sorted (imported ++ self.getHistory)
  refine ⟨rfl, ?_, ?_, ?_, ?_, ?_⟩
  · rw [hh]
    exact hsorted.sublist (List.take_sublist _ _)
  · rw [hh]; exact length_mergeHistory _ _
  · intro conv hconv
    rw [hh] at hconv
    exact List.mem_append.1 ((mergeHistory_subperm _ _).subset hconv)
  · refine ⟨(sortByUpdatedAt (imported ++ self.getHistory)).drop maxHistoryLength, ?_, ?_⟩
    · rw [hh, mergeHistory, List.take_append_drop]
      exact sortByUpdatedAt_perm _
    · intro d hd kept hkept
      rw [hh, mergeHistory] at hkept
      have h := hsorted
      rw [← List.take_append_drop maxHistoryLength (sortByUpdatedAt (imported ++ self.getHistory)),
        List.pairwise_append] at h
      exact h.2.2 kept hkept d hd
  · rw [hh]; rfl

/-- Witness of the amended C7: `sampleStore` imports one conversation. -/
theorem importHistory_sorted_capped_witness :
    true = true ∧
      ((sampleStore.importHistory (.array [sampleImported]) true).2.getHistory).Pairwise
        (fun a b => b.updatedAt ≤ a.updatedAt) ∧
      (sampleStore.importHistory (.array [sampleImported]) true).1.count = some 3 :=
  ⟨rfl, (importHistory_sorted_capped sampleStore [sampleImported] true rfl).2.1,
    (importHistory_sorted_capped sampleStore [sampleImported] true rfl).2.2.2.2.2⟩

end ChatHistory

/-! ## Rate limiter -/

namespace RateLimiter

/-- On a non-decreasing array the `while` loop removes exactly the entries that are
`<= bound`. -/
theorem dropWhile_le_eq_filter (bound : Int) (l : List Int) (h : l.Pairwise (· ≤ ·)) :
    l.dropWhile (fun t => decide (t ≤ bound)) = l.filter (fun t => decide (bound < t)) := by
  induction l with
  | nil => rfl
  | cons a l ih =>
    rw [List.pairwise_cons] at h
    by_cases ha : a ≤ bound
    · rw [List.dropWhile_cons_of_pos (by simpa using ha), ih h.2,
        List.filter_cons_of_neg (by simpa using ha)]
    · rw [List.dropWhile_cons_of_neg (by simpa using ha),
        List.filter_cons_of_pos (by simpa using ha)]
      congr 1
      symm
      rw [List.filter_eq_self]
      intro b hb
      have := h.1 b hb
      simp only [decide_eq_true_eq]
      omega

theorem call_of_sorted (self : RateLimiter) (now : Int)
    (h : (self.calls ++ [now]).Pairwise (· ≤ ·)) :
    self.call now =
      (decide ((((self.calls ++ [now]).filter
          (fun t => decide (now - self.interval < t))).length : Int) ≤ self.limit),
        { self with
          calls := (self.calls ++ [now]).filter (fun t => decide (now - self.interval < t)) }) := by
  unfold call
  simp only
  rw [dropWhile_le_eq_filter _ _ h]

theorem filter_window_filter (interval earlier now : Int) (h : earlier ≤ now) (l : List Int) :
    (l.filter (fun t => decide (earlier - interval < t))).filter
        (fun t => decide (now - interval < t)) =
      l.filter (fun t => decide (now - interval < t)) := by
  rw [List.filter_filter]
  apply List.filter_congr
  intro t _
  by_cases ht : now - interval < t
  · have : earlier - interval < t := by omega
    simp [ht, this]
  · simp [ht]

theorem call_limit (self : RateLimiter) (now : Int) : (self.call now).2.limit = self.limit :=
  rfl

theorem call_interval (self : RateLimiter) (now : Int) :
    (self.call now).2.interval = self.interval :=
  rfl

theorem call_calls_of_sorted (self : RateLimiter) (now : Int)
    (h : (self.calls ++ [now]).Pairwise (· ≤ ·)) :
    (self.call now).2.calls =
      (self.calls ++ [now]).filter (fun t => decide (now - self.interval < t)) := by
  rw [call_of_sorted self now h]

theorem callAll_limit (ts : List Int) : ∀ self : RateLimiter,
    (self.callAll ts).2.limit = self.limit ∧ (self.callAll ts).2.interval = self.interval := by
  induction ts with
  | nil => intro self; exact ⟨rfl, rfl⟩
  | cons t ts ih =>
    intro self
    have := ih (self.call t).2
    simpa [callAll, call_limit, call_interval] using this

/-- After calls at non-decreasing times, the last at `now`, the array holds every
earlier time and `now` itself, except those that are `<= now - interval`; the last
answer compares the length of that array with `limit`. -/
theorem callAll_concat (ts : List Int) (now : Int) : ∀ self : RateLimiter,
    (self.calls ++ (ts ++ [now])).Pairwise (· ≤ ·) →
    (self.callAll (ts ++ [now])).2.calls =
        (self.calls ++ (ts ++ [now])).filter (fun t => decide (now - self.interval < t)) ∧
      (self.callAll (ts ++ [now])).1.getLast? =
        some (decide ((((self.calls ++ (ts ++ [now])).filter
          (fun t => decide (now - self.interval < t))).length : Int) ≤ self.limit)) := by
  induction ts with
  | nil =>
    intro self h
    rw [List.nil_append] at h ⊢
    have hc := call_of_sorted self now h
    refine ⟨?_, ?_⟩
    · show (self.call now).2.calls = _
      rw [hc]
    · show [(self.call now).1].getLast? = _
      rw [hc]
      rfl
  | cons t ts ih =>
    intro self h
    have hfirst : (self.calls ++ [t]).Pairwise (· ≤ ·) := by
      refine h.sublist ?_
      rw [List.cons_append]
      exact List.Sublist.append_left (List.Sublist.cons₂ t (List.nil_sublist _)) _
    have htnow : t ≤ now := by
      have h2 := (List.pairwise_append.1 h).2.1
      rw [List.cons_append, List.pairwise_cons] at h2
      exact h2.1 now (by simp)
    have hcalls := call_calls_of_sorted self t hfirst
    have hrest : ((self.call t).2.calls ++ (ts ++ [now])).Pairwise (· ≤ ·) := by
      rw [hcalls]
      refine h.sublist ?_
      have hs : ((self.calls ++ [t]).filter (fun u => decide (t - self.interval < u))).Sublist
          (self.calls ++ [t]) := List.filter_sublist _
      have := hs.append (List.Sublist.refl (ts ++ [now]))
      simpa using this
    have hih := ih (self.call t).2 hrest
    have hfilter : ((self.call t).2.calls ++ (ts ++ [now])).filter
          (fun u => decide (now - (self.call t).2.interval < u)) =
        (self.calls ++ (t :: ts ++ [now])).filter
          (fun u => decide (now - self.interval < u)) := by
      rw [hcalls, call_interval, List.filter_append, filter_window_filter _ _ _ htnow,
        ← List.filter_append]
      simp
    rw [hfilter, call_limit] at hih
    refine ⟨?_, ?_⟩
    · show ((self.call t).2.callAll (ts ++ [now])).2.calls = _
      exact hih.1
    · show ((self.call t).1 :: ((self.call t).2.callAll (ts ++ [now])).1).getLast? = _
      rw [List.getLast?_cons, hih.2]
      rfl

theorem head_le_of_pairwise (l : List Int) (h : l.Pairwise (· ≤ ·)) :
    ∀ first ∈ l.head?, ∀ t ∈ l, first ≤ t := by
  cases l with
  | nil => simp
  | cons a l =>
    intro first hfirst t ht
    simp only [List.head?_cons, Option.mem_def, Option.some.injEq] at hfirst
    subst hfirst
    rcases List.mem_cons.1 ht with rfl | ht
    · exact Int.le_refl _
    · exact (List.pairwise_cons.1 h).1 t ht

/-- C8, as stated, fails for `limit = 0`: the one call at time 0 is answered `false`,
and so is the further call made a full interval later (and any later one), because
the call's own timestamp always counts. -/
theorem rateLimiter_zero_limit_counterexample :
    (([0] : List Int).length : Int) = 0 + 1 ∧
      ((createRateLimiter 0 1000).callAll [0]).1 = [false] ∧
      (((createRateLimiter 0 1000).callAll [0]).2.call (0 + 1000)).1 = false ∧
      (((createRateLimiter 0 1000).callAll [0]).2.call 5000).1 = false := by
  decide

/-- C8 amended: for every `limit >= 1` and every interval, when a fresh limiter is
called `limit + 1` times at non-decreasing times whose last is less than `interval`
after the first, the last of those calls is answered `false`; and a further call at
least `interval` after the last of them is answered `true`. -/
theorem rateLimiter_burst (limit interval : Int) (times : List Int) (later : Int)
    (hlimit : 1 ≤ limit) (hcount : (times.length : Int) = limit + 1)
    (hsorted : times.Pairwise (· ≤ ·))
    (hwindow : ∀ first ∈ times.head?, ∀ last ∈ times.getLast?, last - first < interval)
    (hlater : ∀ last ∈ times.getLast?, last + interval ≤ later) :
    ((createRateLimiter limit interval).callAll times).1.getLast? = some false ∧
      (((createRateLimiter limit interval).callAll times).2.call later).1 = true := by
  rcases List.eq_nil_or_concat times with rfl | ⟨ts, last, rfl⟩
  · simp at hcount; omega
  rw [List.concat_eq_append] at hcount hsorted hwindow hlater ⊢
  have hlast : (ts ++ [last]).getLast? = some last := List.getLast?_concat _
  obtain ⟨first, hfirst⟩ : ∃ first, (ts ++ [last]).head? = some first := by
    cases ts <;> simp
  have hw := hwindow first hfirst last hlast
  have hl := hlater last hlast
  have hge : ∀ t ∈ ts ++ [last], first ≤ t := head_le_of_pairwise _ hsorted first hfirst
  have hle : ∀ t ∈ ts ++ [last], t ≤ last := by
    intro t ht
    rcases List.mem_append.1 ht with ht | ht
    · exact (List.pairwise_append.1 hsorted).2.2 t ht last (by simp)
    · simp at ht; omega
  have hpos : 0 < interval := by
    have := hge last (by simp)
    omega
  have hall : (ts ++ [last]).filter (fun t => decide (last - interval < t)) = ts ++ [last] := by
    rw [List.filter_eq_self]
    intro t ht
    have := hge t ht
    simp only [decide_eq_true_eq]
    omega
  have hc := callAll_concat ts last (createRateLimiter limit interval)
    (by simpa [createRateLimiter] using hsorted)
  simp only [createRateLimiter, List.nil_append] at hc
  simp only [createRateLimiter]
  have hc1 := hc.1.trans hall
  refine ⟨?_, ?_⟩
  · rw [hc.2]
    simp only [hall, Option.some.injEq, decide_eq_false_iff_not]
    omega
  · have hlim := callAll_limit (ts ++ [last]) ({ limit := limit, interval := interval, calls := [] })
    have hs : (((RateLimiter.mk limit interval []).callAll (ts ++ [last])).2.calls ++
        [later]).Pairwise (· ≤ ·) := by
      rw [hc1, List.pairwise_append]
      refine ⟨hsorted, List.pairwise_singleton _ _, ?_⟩
      intro a ha b hb
      have := hle a ha
      simp at hb
      omega
    rw [call_of_sorted _ _ hs]
    simp only [hlim.1, hlim.2, hc1]
    have hnone : (ts ++ [last]).filter (fun t => decide (later - interval < t)) = [] := by
      rw [List.filter_eq_nil_iff]
      intro a ha
      have := hle a ha
      simp only [decide_eq_true_eq]
      omega
    rw [List.filter_append, hnone]
    have hself : decide (later - interval < later) = true := by
      simp only [decide_eq_true_eq]; omega
    simp only [List.nil_append, List.filter_cons, hself, if_true, List.filter_nil,
      List.length_singleton, decide_eq_true_eq]
    omega

/-- Witness of the amended C8: limit 2, interval 1000, calls at 0, 10, 20 and then at 1020. -/
theorem rateLimiter_burst_witness :
    (1 : Int) ≤ 2 ∧ (([0, 10, 20] : List Int).length : Int) = 2 + 1 ∧
      ([0, 10, 20] : List Int).Pairwise (· ≤ ·) ∧
      ((createRateLimiter 2 1000).callAll [0, 10, 20]).1.getLast? = some false ∧
      (((createRateLimiter 2 1000).callAll [0, 10, 20]).2.call 1020).1 = true :=
  ⟨by decide, by decide, by decide,
    rateLimiter_burst 2 1000 [0, 10, 20] 1020 (by decide) (by decide) (by decide)
      (by decide) (by decide)⟩

/-- C9, as stated, fails on the boundary: with limit 1 and interval 10, calls at
times 0 and 10 are both answered `true`, because the second call drops the
timestamp 0, which is exactly `now - interval` and not older than it; under the
stated rule the timestamp 0 stays and the second call is answered `false`. For the
same reason a limiter with interval 0 drops the timestamp of the call itself, so the
call is not among the remaining ones. -/
theorem rateLimiter_boundary_counterexample :
    ((createRateLimiter 1 10).callAll [0, 10]).1 = [true, true] ∧
      ((createRateLimiter 1 10).callAll [0, 10]).2.calls = [10] ∧
      ¬ ((0 : Int) < 10 - 10) ∧
      (((createRateLimiter 1 10).call 0).2.admitBySpec 10).1 = false ∧
      (((createRateLimiter 1 10).call 0).2.admitBySpec 10).2.calls = [0, 10] ∧
      ((createRateLimiter 0 0).call 5).1 = true ∧
      ((createRateLimiter 0 0).call 5).2.calls = [] ∧
      ((createRateLimiter 0 0).admitBySpec 5).1 = false := by
  decide

/-- C9 amended: for calls at non-decreasing times, the call at `now` appends `now`
to the recorded timestamps and drops exactly those that are `<= now - interval`
(a timestamp exactly `interval` old is dropped too); what remains are all earlier
call times, of admitted and denied calls alike, that are later than
`now - interval`, and `now` itself when `interval > 0`; the answer is `true` exactly
when the number of remaining timestamps is at most `limit`. -/
theorem rateLimiter_call_spec (limit interval : Int) (times : List Int) (now : Int)
    (hsorted : (times ++ [now]).Pairwise (· ≤ ·)) :
    ((((createRateLimiter limit interval).callAll times).2.call now).2.calls =
        (((createRateLimiter limit interval).callAll times).2.calls ++ [now]).filter
          (fun t => decide (now - interval < t))) ∧
      ((((createRateLimiter limit interval).callAll times).2.call now).2.calls =
        (times ++ [now]).filter (fun t => decide (now - interval < t))) ∧
      ((((createRateLimiter limit interval).callAll times).2.call now).1 = true ↔
        (((((createRateLimiter limit interval).callAll times).2.call now).2.calls.length : Int) ≤
          limit)) ∧
      (0 < interval →
        (((createRateLimiter limit interval).callAll times).2.call now).2.calls.getLast? =
          some now) := by
  have hlim := callAll_limit times (createRateLimiter limit interval)
  have hbefore : ∃ earlier, earlier ≤ now ∧
      ((createRateLimiter limit interval).callAll times).2.calls =
        times.filter (fun t => decide (earlier - interval < t)) := by
    rcases List.eq_nil_or_concat times with rfl | ⟨ts, last, rfl⟩
    · exact ⟨now, Int.le_refl _, rfl⟩
    · rw [List.concat_eq_append] at hsorted ⊢
      refine ⟨last, ?_, ?_⟩
      · exact (List.pairwise_append.1 hsorted).2.2 last (by simp) now (by simp)
      · have hc := callAll_concat ts last (createRateLimiter limit interval)
          (by simpa [createRateLimiter] using (List.pairwise_append.1 hsorted).1)
        simpa [createRateLimiter] using hc.1
  obtain ⟨earlier, hle, hcalls⟩ := hbefore
  have hs : (((createRateLimiter limit interval).callAll times).2.calls ++ [now]).Pairwise
      (· ≤ ·) := by
    rw [hcalls]
    refine hsorted.sublist ?_
    exact (List.filter_sublist _).append (List.Sublist.refl [now])
  have h1 := call_calls_of_sorted _ now hs
  rw [hlim.2] at h1
  simp only [createRateLimiter] at h1 hlim hcalls ⊢
  have h2 : (({ limit := limit, interval := interval, calls := [] } : RateLimiter).callAll
        times).2.call now |>.2.calls =
      (times ++ [now]).filter (fun t => decide (now - interval < t)) := by
    rw [h1, hcalls, List.filter_append, filter_window_filter _ _ _ hle, ← List.filter_append]
  refine ⟨h1, h2, ?_, ?_⟩
  · have h3 : ((({ limit := limit, interval := interval, calls := [] } : RateLimiter).callAll
          times).2.call now).1 =
        decide ((((({ limit := limit, interval := interval, calls := [] } : RateLimiter).callAll
          times).2.call now).2.calls.length : Int) ≤
            (({ limit := limit, interval := interval, calls := [] } : RateLimiter).callAll
              times).2.limit) := rfl
    rw [h3, hlim.1, decide_eq_true_eq]
  · intro hpos
    have hself : decide (now - interval < now) = true := by
      simp only [decide_eq_true_eq]; omega
    have hone : [now].filter (fun t => decide (now - interval < t)) = [now] := by
      rw [List.filter_cons, hself, if_pos rfl, List.filter_nil]
    rw [h2, List.filter_append, hone, List.getLast?_concat]

/-- Witness of the amended C9: limit 2, interval 10, calls at 0, 1, 2, 3 and then at 12. -/
theorem rateLimiter_call_spec_witness :
    (([0, 1, 2, 3] : List Int) ++ [12]).Pairwise (· ≤ ·) ∧
      ((((createRateLimiter 2 10).callAll [0, 1, 2, 3]).2.call 12).2.calls =
        (([0, 1, 2, 3] : List Int) ++ [12]).filter (fun t => decide (12 - 10 < t))) :=
  ⟨by decide, (rateLimiter_call_spec 2 10 [0, 1, 2, 3] 12 (by decide)).2.1⟩

end RateLimiter

/-! ## Request with retries -/

namespace ChatAPI

/-- A failed attempt runs the `catch` block. -/
theorem requestLoop_succ_of_fail {β : Type} (self : ChatAPI) (outcome : Nat → Attempt β)
    (remaining : Nat) (hfail : ∀ data, outcome (self.retryAttempts - remaining) ≠ .ok data) :
    ∃ error, requestLoop self outcome (remaining + 1) =
      catchBlock self (self.retryAttempts - remaining) error
        (requestLoop self outcome remaining) := by
  cases h : outcome (self.retryAttempts - remaining) with
  | ok data => exact absurd h (hfail data)
  | rejected error => exact ⟨error, by rw [requestLoop]; simp only [h]⟩
  | notOk status statusText =>
    exact ⟨{ name := "Error", message := "HTTP " ++ toString status ++ ": " ++ statusText },
      by rw [requestLoop]; simp only [h]⟩
  | badBody error => exact ⟨error, by rw [requestLoop]; simp only [h]⟩

theorem requestLoop_all_fail {β : Type} (self : ChatAPI) (outcome : Nat → Attempt β)
    (hfail : ∀ k data, outcome k ≠ .ok data) :
    ∀ remaining, 1 ≤ remaining → remaining ≤ self.retryAttempts →
      (requestLoop self outcome remaining).1 =
          (List.range (remaining - 1)).flatMap
            (fun i => [Effect.fetch,
              Effect.delay (self.retryDelay * (self.retryAttempts - remaining + 1 + i))]) ++
            [Effect.fetch] ∧
        (requestLoop self outcome remaining).1.count Effect.fetch = remaining ∧
        ∃ cause : JsError, (requestLoop self outcome remaining).2 =
          .error { name := "Error"
                   message := "API request failed after " ++ toString self.retryAttempts ++
                     " attempts: " ++ cause.message } := by
  intro remaining
  induction remaining with
  | zero => intro h; omega
  | succ r ih =>
    intro _ hle
    obtain ⟨error, hstep⟩ := requestLoop_succ_of_fail self outcome r (hfail _)
    rw [hstep]
    unfold catchBlock
    by_cases hr : r = 0
    · subst hr
      simp only [Nat.sub_zero, if_true]
      exact ⟨rfl, rfl, error, rfl⟩
    · have hne : self.retryAttempts - r ≠ self.retryAttempts := by omega
      obtain ⟨htrace, hcount, cause, hresult⟩ := ih (by omega) (by omega)
      simp only [if_neg hne]
      refine ⟨?_, ?_, cause, hresult⟩
      · obtain ⟨q, rfl⟩ : ∃ q, r = q + 1 := ⟨r - 1, by omega⟩
        rw [htrace, Nat.add_sub_cancel, Nat.add_sub_cancel, List.range_succ_eq_map,
          List.flatMap_cons, List.flatMap_map]
        have e1 : self.retryAttempts - (q + 1 + 1) + 1 = self.retryAttempts - (q + 1) := by
          omega
        have e2 : (fun a => [Effect.fetch, Effect.delay
              (self.retryDelay * (self.retryAttempts - (q + 1) + Nat.succ a))]) =
            (fun i => [Effect.fetch, Effect.delay
              (self.retryDelay * (self.retryAttempts - (q + 1) + 1 + i))]) := by
          funext a
          have h : self.retryAttempts - (q + 1) + Nat.succ a =
              self.retryAttempts - (q + 1) + 1 + a := by omega
          rw [h]
        rw [e1, e2]
        rfl
      · rw [List.count_cons_self, List.count_cons_of_ne (by simp), hcount]

/-- C10: for `retryAttempts >= 1`, when no attempt succeeds, `request` performs
exactly `retryAttempts` fetch calls, waits `retryDelay * k` after the failed attempt
`k` for `k = 1 .. retryAttempts - 1`, performs nothing after the last fetch, and
throws an `Error` instead of returning a value. -/
theorem request_all_fail {β : Type} (self : ChatAPI) (outcome : Nat → Attempt β)
    (hattempts : 1 ≤ self.retryAttempts) (hfail : ∀ k data, outcome k ≠ .ok data) :
    (self.request outcome).1 =
        (List.range (self.retryAttempts - 1)).flatMap
          (fun i => [Effect.fetch, Effect.delay (self.retryDelay * (i + 1))]) ++
          [Effect.fetch] ∧
      (self.request outcome).1.count Effect.fetch = self.retryAttempts ∧
      ∃ cause : JsError, (self.request outcome).2 =
        .error { name := "Error"
                 message := "API request failed after " ++ toString self.retryAttempts ++
                   " attempts: " ++ cause.message } := by
  have h := requestLoop_all_fail self outcome hfail self.retryAttempts hattempts (Nat.le_refl _)
  simp only [Nat.sub_self, Nat.zero_add] at h
  have hfun : (fun i => [Effect.fetch, Effect.delay (self.retryDelay * (1 + i))]) =
      (fun i => [Effect.fetch, Effect.delay (self.retryDelay * (i + 1))]) := by
    funext i; rw [Nat.add_comm]
  rw [hfun] at h
  exact h

/-- Witness of C10: the default configuration (3 attempts, 1000 ms) against an
endpoint that always answers 500. -/
theorem request_all_fail_witness :
    1 ≤ ({} : ChatAPI).retryAttempts ∧
      (({} : ChatAPI).request sampleFailing).1 =
        [Effect.fetch, Effect.delay 1000, Effect.fetch, Effect.delay 2000, Effect.fetch] ∧
      (({} : ChatAPI).request sampleFailing).1.count Effect.fetch = 3 :=
  ⟨by decide, by decide,
    (request_all_fail ({} : ChatAPI) sampleFailing (by decide)
      (fun _ _ h => Attempt.noConfusion h)).2.1⟩

end ChatAPI

/-! ## Request: number of calls and first success -/

namespace ChatAPI

theorem requestLoop_succ_of_caught {β : Type} (self : ChatAPI) (outcome : Nat → Attempt β)
    (remaining : Nat) (error : JsError)
    (h : caught (outcome (self.retryAttempts - remaining)) = some error) :
    requestLoop self outcome (remaining + 1) =
      catchBlock self (self.retryAttempts - remaining) error
        (requestLoop self outcome remaining) := by
  rw [requestLoop]
  cases ho : outcome (self.retryAttempts - remaining) with
  | ok data => rw [ho] at h; simp [caught] at h
  | rejected e =>
    rw [ho] at h; simp only [caught, Option.some.injEq] at h; subst h; rfl
  | notOk status statusText =>
    rw [ho] at h; simp only [caught, Option.some.injEq] at h; subst h; rfl
  | badBody e =>
    rw [ho] at h; simp only [caught, Option.some.injEq] at h; subst h; rfl

theorem requestLoop_succ_of_ok {β : Type} (self : ChatAPI) (outcome : Nat → Attempt β)
    (remaining : Nat) (data : β)
    (h : outcome (self.retryAttempts - remaining) = .ok data) :
    requestLoop self outcome (remaining + 1) = ([Effect.fetch], .ok (some data)) := by
  rw [requestLoop]
  simp only [h]

theorem caught_isSome_of_ne_ok {β : Type} (a : Attempt β) (h : ∀ data, a ≠ .ok data) :
    ∃ error, caught a = some error := by
  cases a with
  | ok data => exact absurd rfl (h data)
  | rejected e => exact ⟨_, rfl⟩
  | notOk status statusText => exact ⟨_, rfl⟩
  | badBody e => exact ⟨_, rfl⟩

theorem count_fetch_requestLoop {β : Type} (self : ChatAPI) (outcome : Nat → Attempt β) :
    ∀ remaining, (requestLoop self outcome remaining).1.count Effect.fetch ≤ remaining := by
  intro remaining
  induction remaining with
  | zero => simp [requestLoop]
  | succ r ih =>
    cases ho : outcome (self.retryAttempts - r) with
    | ok data => rw [requestLoop_succ_of_ok self outcome r data ho]; simp
    | rejected e =>
      rw [requestLoop_succ_of_caught self outcome r e (by rw [ho]; rfl)]
      unfold catchBlock
      split
      · simp
      · rw [List.count_cons_self, List.count_cons_of_ne (by simp)]; omega
    | notOk status statusText =>
      rw [requestLoop_succ_of_caught self outcome r _ (by rw [ho]; rfl)]
      unfold catchBlock
      split
      · simp
      · rw [List.count_cons_self, List.count_cons_of_ne (by simp)]; omega
    | badBody e =>
      rw [requestLoop_succ_of_caught self outcome r e (by rw [ho]; rfl)]
      unfold catchBlock
      split
      · simp
      · rw [List.count_cons_self, List.count_cons_of_ne (by simp)]; omega

/-- The loop entered at attempt `retryAttempts - remaining + 1` when the first
success from there on is attempt `k`. -/
theorem requestLoop_first_success {β : Type} (self : ChatAPI) (outcome : Nat → Attempt β)
    (k : Nat) (data : β) (hok : outcome k = .ok data) :
    ∀ remaining, remaining ≤ self.retryAttempts →
      self.retryAttempts - remaining + 1 ≤ k → k ≤ self.retryAttempts →
      (∀ j, self.retryAttempts - remaining + 1 ≤ j → j < k → ∀ d, outcome j ≠ .ok d) →
      (requestLoop self outcome remaining).1 =
          (List.range (k - (self.retryAttempts - remaining + 1))).flatMap
            (fun i => [Effect.fetch,
              Effect.delay (self.retryDelay * (self.retryAttempts - remaining + 1 + i))]) ++
            [Effect.fetch] ∧
        (requestLoop self outcome remaining).1.count Effect.fetch =
          k - (self.retryAttempts - remaining + 1) + 1 ∧
        (requestLoop self outcome remaining).2 = .ok (some data) := by
  intro remaining
  induction remaining with
  | zero => intro _ h1 h2 _; omega
  | succ r ih =>
    intro hr hlow hk hbefore
    have hattempt : self.retryAttempts - (r + 1) + 1 = self.retryAttempts - r := by omega
    rw [hattempt] at hlow hbefore ⊢
    by_cases hkeq : k = self.retryAttempts - r
    · rw [requestLoop_succ_of_ok self outcome r data (hkeq ▸ hok), hkeq, Nat.sub_self]
      exact ⟨rfl, rfl, rfl⟩
    · obtain ⟨error, herror⟩ := caught_isSome_of_ne_ok (outcome (self.retryAttempts - r))
        (hbefore _ (Nat.le_refl _) (by omega))
      rw [requestLoop_succ_of_caught self outcome r error herror]
      have hne : self.retryAttempts - r ≠ self.retryAttempts := by omega
      unfold catchBlock
      simp only [if_neg hne]
      obtain ⟨htrace, hcount, hresult⟩ := ih (by omega) (by omega) hk
        (fun j hj hjk => hbefore j (by omega) hjk)
      refine ⟨?_, ?_, hresult⟩
      · rw [htrace]
        obtain ⟨m, hm⟩ : ∃ m, k - (self.retryAttempts - r) = m + 1 :=
          ⟨k - (self.retryAttempts - r) - 1, by omega⟩
        have hm2 : k - (self.retryAttempts - r + 1) = m := by omega
        rw [hm, hm2, List.range_succ_eq_map, List.flatMap_cons, List.flatMap_map]
        have e2 : (fun a => [Effect.fetch, Effect.delay
              (self.retryDelay * (self.retryAttempts - r + Nat.succ a))]) =
            (fun i => [Effect.fetch, Effect.delay
              (self.retryDelay * (self.retryAttempts - r + 1 + i))]) := by
          funext a
          have h : self.retryAttempts - r + Nat.succ a = self.retryAttempts - r + 1 + a := by
            omega
          rw [h]
        rw [e2]
        rfl
      · rw [List.count_cons_self, List.count_cons_of_ne (by simp), hcount]
        omega

/-- C11: whatever the attempts meet, `request` makes at most `retryAttempts` fetch
calls; and when the first attempt that succeeds (ok response, body parsed) is attempt
`k <= retryAttempts`, it makes exactly `k` calls, the last effect being the fetch of
attempt `k`, and returns the body of attempt `k`. -/
theorem request_fetch_calls {β : Type} (self : ChatAPI) (outcome : Nat → Attempt β) :
    (self.request outcome).1.count Effect.fetch ≤ self.retryAttempts ∧
      ∀ k data, 1 ≤ k → k ≤ self.retryAttempts → outcome k = .ok data →
        (∀ j, 1 ≤ j → j < k → ∀ d, outcome j ≠ .ok d) →
        (self.request outcome).1 =
            (List.range (k - 1)).flatMap
              (fun i => [Effect.fetch, Effect.delay (self.retryDelay * (i + 1))]) ++
              [Effect.fetch] ∧
          (self.request outcome).1.count Effect.fetch = k ∧
          (self.request outcome).2 = .ok (some data) := by
  refine ⟨count_fetch_requestLoop self outcome _, ?_⟩
  intro k data hk1 hk hok hbefore
  have h := requestLoop_first_success self outcome k data hok self.retryAttempts
    (Nat.le_refl _) (by omega) hk (fun j hj hjk => hbefore j (by omega) hjk)
  simp only [Nat.sub_self, Nat.zero_add] at h
  have hfun : (fun i => [Effect.fetch, Effect.delay (self.retryDelay * (1 + i))]) =
      (fun i => [Effect.fetch, Effect.delay (self.retryDelay * (i + 1))]) := by
    funext i; rw [Nat.add_comm]
  rw [hfun] at h
  refine ⟨h.1, ?_, h.2.2⟩
  rw [request, h.2.1]
  omega

/-- Witness of C11: the default configuration against an endpoint that fails once and
then answers. -/
theorem request_fetch_calls_witness :
    (1 ≤ 2 ∧ 2 ≤ ({} : ChatAPI).retryAttempts ∧ sampleSecondTry 2 = .ok 7) ∧
      (({} : ChatAPI).request sampleSecondTry).1 =
        [Effect.fetch, Effect.delay 1000, Effect.fetch] ∧
      (({} : ChatAPI).request sampleSecondTry).2 = .ok (some 7) :=
  ⟨by decide, by decide,
    ((request_fetch_calls ({} : ChatAPI) sampleSecondTry).2 2 7 (by decide) (by decide)
      (by decide) (by intro j h1 h2 d; have : j = 1 := by omega
                      subst this; simp [sampleSecondTry])).2.2⟩

end ChatAPI

/-! ## Error classification -/

namespace ChatAPI

/-- Every error that `request` throws is the wrapper built in its `catch` block. -/
theorem requestLoop_error_shape {β : Type} (self : ChatAPI) (outcome : Nat → Attempt β) :
    ∀ remaining error, (requestLoop self outcome remaining).2 = .error error →
      ∃ cause : JsError, error =
        { name := "Error"
          message := "API request failed after " ++ toString self.retryAttempts ++
            " attempts: " ++ cause.message } := by
  intro remaining
  induction remaining with
  | zero => intro error h; simp [requestLoop] at h
  | succ r ih =>
    intro error h
    cases ho : outcome (self.retryAttempts - r) with
    | ok data => rw [requestLoop_succ_of_ok self outcome r data ho] at h; simp at h
    | rejected e =>
      rw [requestLoop_succ_of_caught self outcome r e (by rw [ho]; rfl)] at h
      unfold catchBlock at h
      split at h
      · exact ⟨e, by simpa using h.symm⟩
      · exact ih error h
    | notOk status statusText =>
      rw [requestLoop_succ_of_caught self outcome r _ (by rw [ho]; rfl)] at h
      unfold catchBlock at h
      split at h
      · exact ⟨{ name := "Error",
                 message := "HTTP " ++ toString status ++ ": " ++ statusText },
          by simpa using h.symm⟩
      · exact ih error h
    | badBody e =>
      rw [requestLoop_succ_of_caught self outcome r e (by rw [ho]; rfl)] at h
      unfold catchBlock at h
      split at h
      · exact ⟨e, by simpa using h.symm⟩
      · exact ih error h

/-- When no attempt before the last succeeds and the last one fails, `request` throws
the wrapper around the error of the last attempt. -/
theorem requestLoop_error_of_caught {β : Type} (self : ChatAPI) (outcome : Nat → Attempt β)
    (cause : JsError) (hlast : caught (outcome self.retryAttempts) = some cause)
    (hfail : ∀ k d, outcome k ≠ .ok d) :
    ∀ remaining, 1 ≤ remaining → remaining ≤ self.retryAttempts →
      (requestLoop self outcome remaining).2 =
        .error { name := "Error"
                 message := "API request failed after " ++ toString self.retryAttempts ++
                   " attempts: " ++ cause.message } := by
  intro remaining
  induction remaining with
  | zero => intro h; omega
  | succ r ih =>
    intro _ hle
    by_cases hr : r = 0
    · subst hr
      rw [requestLoop_succ_of_caught self outcome 0 cause (by simpa using hlast)]
      simp [catchBlock]
    · obtain ⟨error, herror⟩ := caught_isSome_of_ne_ok (outcome (self.retryAttempts - r))
        (hfail _)
      rw [requestLoop_succ_of_caught self outcome r error herror]
      have hne : self.retryAttempts - r ≠ self.retryAttempts := by omega
      unfold catchBlock
      simp only [if_neg hne]
      exact ih (by omega) (by omega)

theorem sendMessage_of_error {β : Type} (self : ChatAPI) (outcome : Nat → Attempt β)
    (error : JsError) (h : (self.request outcome).2 = .error error) :
    (self.sendMessage outcome).2 =
      { success := false, data := none, error := some (formatErrorMessage error) } := by
  unfold sendMessage
  split
  · rename_i heq; rw [heq] at h; simp at h
  · rename_i heq; rw [heq] at h
    simp only [Except.error.injEq] at h
    rw [h]

theorem sendMessage_of_ok {β : Type} (self : ChatAPI) (outcome : Nat → Attempt β)
    (data : Option β) (h : (self.request outcome).2 = .ok data) :
    (self.sendMessage outcome).2 = { success := true, data := data, error := none } := by
  unfold sendMessage
  split
  · rename_i heq; rw [heq] at h
    simp only [Except.ok.injEq] at h
    rw [h]
  · rename_i heq; rw [heq] at h; simp at h

set_option maxRecDepth 10000 in
/-- The network branch of `formatErrorMessage` is out of reach of `sendMessage`:
whatever the configuration and whatever the attempts meet, the returned error is
never the network classification. -/
theorem sendMessage_error_ne_network {β : Type} (self : ChatAPI) (outcome : Nat → Attempt β) :
    (self.sendMessage outcome).2.error ≠
      some "Network error. Please check your internet connection." := by
  cases h : (self.request outcome).2 with
  | ok data => rw [sendMessage_of_ok self outcome data h]; simp
  | error error =>
    rw [sendMessage_of_error self outcome error h]
    obtain ⟨cause, rfl⟩ := requestLoop_error_shape self outcome _ error h
    have hname : (("Error" : String) == "TypeError") = false := by decide
    have hne : "API request failed after " ++ toString self.retryAttempts ++ " attempts: " ++
        cause.message ≠ "Network error. Please check your internet connection." := by
      intro h
      have := congrArg (fun s => s.data.head?) h
      simp [String.data_append] at this
    unfold formatErrorMessage
    simp only [hname, Bool.false_and, Bool.false_eq_true, if_false, ne_eq, Option.some.injEq]
    split
    · decide
    · split
      · decide
      · split
        · decide
        · exact hne

set_option maxRecDepth 10000 in
/-- C12 at its failing input: with the default configuration and every `fetch`
rejecting with `TypeError: Failed to fetch`, `sendMessage` answers `success: false`
with the wrapper message of `request`, not with the network classification: the
error that reaches `formatErrorMessage` is the `Error` that `request` builds, whose
name is not `TypeError`. -/
theorem sendMessage_network_failure :
    (sampleOffline 1 = .rejected { name := "TypeError", message := "Failed to fetch" } ∧
      jsIncludes "Failed to fetch" "fetch" = true) ∧
      (({} : ChatAPI).sendMessage sampleOffline).2 =
        { success := false, data := none,
          error := some "API request failed after 3 attempts: Failed to fetch" } ∧
      (({} : ChatAPI).sendMessage sampleOffline).2.error ≠
        some "Network error. Please check your internet connection." ∧
      formatErrorMessage { name := "TypeError", message := "Failed to fetch" } =
        "Network error. Please check your internet connection." := by
  decide

end ChatAPI

namespace ChatAPI

/-- A word that holds a character absent from `a` and does not hold the last element
of `a` cannot start inside `a`: when it occurs in `a ++ b` it occurs in `b`. -/
theorem infix_of_infix_append {w a b : List Char} {c : Char} (hcw : c ∈ w)
    (hca : c ∉ a) (hlast : ∀ x ∈ a.getLast?, x ∉ w) (h : w <:+: a ++ b) : w <:+: b := by
  induction a with
  | nil => simpa using h
  | cons x a ih =>
    rw [List.cons_append, List.infix_cons_iff] at h
    rcases h with h | h
    · exfalso
      have hpre : x :: a <+: x :: (a ++ b) := by
        rw [← List.cons_append]; exact List.prefix_append _ _
      rcases List.prefix_or_prefix_of_prefix h hpre with h1 | h1
      · exact hca (h1.subset hcw)
      · obtain ⟨y, hy⟩ : ∃ y, (x :: a).getLast? = some y := by
          rw [List.getLast?_cons]; exact ⟨_, rfl⟩
        have hmem : y ∈ x :: a := List.mem_of_getLast?_eq_some hy
        exact hlast y hy (h1.subset hmem)
    · refine ih (fun hc => hca (List.mem_cons_of_mem _ hc)) ?_ h
      intro y hy
      cases a with
      | nil => simp at hy
      | cons z a => exact hlast y (by rw [List.getLast?_cons_cons]; exact hy)

theorem mem_toDigitsCore (fuel : Nat) : ∀ (n : Nat) (acc : List Char) (c : Char),
    c ∈ Nat.toDigitsCore 10 fuel n acc → c ∈ acc ∨ ∃ d, d < 10 ∧ c = Nat.digitChar d := by
  induction fuel with
  | zero => intro n acc c h; exact Or.inl (by simpa [Nat.toDigitsCore] using h)
  | succ fuel ih =>
    intro n acc c h
    rw [Nat.toDigitsCore] at h
    split at h
    · rcases List.mem_cons.1 h with h | h
      · exact Or.inr ⟨n % 10, Nat.mod_lt _ (by decide), h⟩
      · exact Or.inl h
    · rcases ih _ _ c h with h | h
      · rcases List.mem_cons.1 h with h | h
        · exact Or.inr ⟨n % 10, Nat.mod_lt _ (by decide), h⟩
        · exact Or.inl h
      · exact Or.inr h

/-- The decimal rendering of a number holds no letter `o`. -/
theorem not_mem_toString (n : Nat) : 'o' ∉ (toString n).data := by
  intro h
  have h2 : 'o' ∈ Nat.toDigitsCore 10 (n + 1) n [] := h
  rcases mem_toDigitsCore _ _ _ _ h2 with h3 | ⟨d, hd, h3⟩
  · simp at h3
  · have key : ∀ d < 10, Nat.digitChar d ≠ 'o' := by decide
    exact key d hd h3.symm

/-- The text that `request` puts before the reason phrase of a failed response holds
no occurrence of `timeout` that the reason phrase does not hold. -/
theorem jsIncludes_timeout_wrapper (attempts status : Nat) (statusText : String)
    (h : jsIncludes statusText "timeout" = false) :
    jsIncludes ("API request failed after " ++ toString attempts ++ " attempts: " ++
      ("HTTP " ++ toString status ++ ": " ++ statusText)) "timeout" = false := by
  unfold jsIncludes at h ⊢
  rw [decide_eq_false_iff_not] at h ⊢
  intro hin
  apply h
  have hdata : ("API request failed after " ++ toString attempts ++ " attempts: " ++
        ("HTTP " ++ toString status ++ ": " ++ statusText)).data =
      ("API request failed after ".data ++ (toString attempts).data ++ " attempts: ".data ++
        "HTTP ".data ++ (toString status).data ++ ": ".data) ++ statusText.data := by
    simp only [String.data_append, List.append_assoc]
  rw [hdata] at hin
  refine infix_of_infix_append (c := 'o') (by decide) ?_ ?_ hin
  · simp only [List.mem_append, not_or]
    exact ⟨⟨⟨⟨⟨by decide, not_mem_toString attempts⟩, by decide⟩, by decide⟩,
      not_mem_toString status⟩, by decide⟩
  · intro x hx
    have hsp : ("API request failed after ".data ++ (toString attempts).data ++
        " attempts: ".data ++ "HTTP ".data ++ (toString status).data ++ ": ".data).getLast? =
          some ' ' := by
      rw [List.getLast?_append]; rfl
    rw [hsp] at hx
    simp only [Option.mem_def, Option.some.injEq] at hx
    subst hx
    decide

theorem jsIncludes_500_wrapper (attempts : Nat) (statusText : String) :
    jsIncludes ("API request failed after " ++ toString attempts ++ " attempts: " ++
      ("HTTP " ++ toString 500 ++ ": " ++ statusText)) "500" = true := by
  unfold jsIncludes
  rw [decide_eq_true_eq]
  have hdata : ("API request failed after " ++ toString attempts ++ " attempts: " ++
        ("HTTP " ++ toString 500 ++ ": " ++ statusText)).data =
      ("API request failed after ".data ++ (toString attempts).data ++ " attempts: ".data ++
        "HTTP ".data) ++ ("500".data ++ (": ".data ++ statusText.data)) := by
    have h500 : (toString 500 : String) = "500" := by decide
    simp only [String.data_append, List.append_assoc, h500]
  rw [hdata]
  exact List.infix_append' _ _ _

/-- What `formatErrorMessage` makes of an error thrown by `request`. -/
theorem formatErrorMessage_wrapper (attempts : Nat) (cause : String) :
    formatErrorMessage
        { name := "Error"
          message := "API request failed after " ++ toString attempts ++ " attempts: " ++ cause } =
      if jsIncludes ("API request failed after " ++ toString attempts ++ " attempts: " ++ cause)
          "timeout" then "Request timeout. Please try again."
      else if jsIncludes
          ("API request failed after " ++ toString attempts ++ " attempts: " ++ cause) "500" then
        "Server error. Please try again later."
      else "API request failed after " ++ toString attempts ++ " attempts: " ++ cause := by
  have hname : (("Error" : String) == "TypeError") = false := by decide
  have hne : (("API request failed after " ++ toString attempts ++ " attempts: " ++ cause) == "") =
      false := by
    rw [beq_eq_false_iff_ne]
    intro h
    have := congrArg (fun s => s.data.head?) h
    simp [String.data_append] at this
  unfold formatErrorMessage
  simp only [hname, Bool.false_and, hne]
  rfl

theorem wrapper_ne_server (attempts : Nat) (cause : String) :
    "API request failed after " ++ toString attempts ++ " attempts: " ++ cause ≠
      "Server error. Please try again later." := by
  intro h
  have := congrArg (fun s => s.data.head?) h
  simp [String.data_append] at this

end ChatAPI

namespace ChatAPI

set_option maxRecDepth 10000 in
/-- C13, as stated, fails in both directions. With the default configuration, an
endpoint that answers every attempt `503 Service Unavailable` ends in the wrapper
message of `request`, not in the server classification; and an endpoint answering
404 with a reason phrase that holds the text `500` ends in the server classification. -/
theorem sendMessage_server_counterexample :
    (sampleUnavailable 3 = .notOk 503 "Service Unavailable" ∧
      jsIncludes "Service Unavailable" "timeout" = false) ∧
      (({} : ChatAPI).sendMessage sampleUnavailable).2 =
        { success := false, data := none,
          error := some "API request failed after 3 attempts: HTTP 503: Service Unavailable" } ∧
      sampleNotFound 3 = .notOk 404 "Not Found (upstream 500)" ∧
      (({} : ChatAPI).sendMessage sampleNotFound).2.error =
        some "Server error. Please try again later." := by
  decide

/-- C13 amended: when every attempt fails, `sendMessage` answers `success: false`, and
its error is the server classification exactly when the message of the error thrown
by `request` holds the text `500` and does not hold the text `timeout`. This is so for
status 500 on the last attempt with a reason phrase that does not hold `timeout`; a
status from 501 to 599 is classified as a server error only when the message happens
to hold `500`. -/
theorem sendMessage_server_classification {β : Type} (self : ChatAPI)
    (outcome : Nat → Attempt β) (cause : JsError)
    (hattempts : 1 ≤ self.retryAttempts) (hfail : ∀ k d, outcome k ≠ .ok d)
    (hlast : caught (outcome self.retryAttempts) = some cause) :
    (self.sendMessage outcome).2.success = false ∧
      ((self.sendMessage outcome).2.error = some "Server error. Please try again later." ↔
        jsIncludes ("API request failed after " ++ toString self.retryAttempts ++
            " attempts: " ++ cause.message) "500" = true ∧
          jsIncludes ("API request failed after " ++ toString self.retryAttempts ++
            " attempts: " ++ cause.message) "timeout" = false) ∧
      (∀ statusText, outcome self.retryAttempts = .notOk 500 statusText →
        jsIncludes statusText "timeout" = false →
        (self.sendMessage outcome).2.error = some "Server error. Please try again later.") := by
  have hreq := requestLoop_error_of_caught self outcome cause hlast hfail self.retryAttempts
    hattempts (Nat.le_refl _)
  have hsend := sendMessage_of_error self outcome _ hreq
  have hiff : (self.sendMessage outcome).2.error = some "Server error. Please try again later." ↔
      jsIncludes ("API request failed after " ++ toString self.retryAttempts ++
          " attempts: " ++ cause.message) "500" = true ∧
        jsIncludes ("API request failed after " ++ toString self.retryAttempts ++
          " attempts: " ++ cause.message) "timeout" = false := by
    rw [hsend, formatErrorMessage_wrapper]
    simp only [Option.some.injEq]
    cases ht : jsIncludes ("API request failed after " ++ toString self.retryAttempts ++
        " attempts: " ++ cause.message) "timeout" <;>
      cases h5 : jsIncludes ("API request failed after " ++ toString self.retryAttempts ++
        " attempts: " ++ cause.message) "500"
    · simpa using wrapper_ne_server self.retryAttempts cause.message
    · simp
    · simp only [if_true, Bool.false_eq_true, false_and, iff_false]; decide
    · simp only [if_true, and_false, iff_false, Bool.true_eq_false]; decide
  refine ⟨by rw [hsend], hiff, ?_⟩
  intro statusText hstatus htext
  rw [hstatus] at hlast
  simp only [caught, Option.some.injEq] at hlast
  subst hlast
  rw [hiff]
  exact ⟨jsIncludes_500_wrapper _ _, jsIncludes_timeout_wrapper _ _ _ htext⟩

set_option maxRecDepth 10000 in
/-- Witness of the amended C13: the default configuration against an endpoint that
answers every attempt `500 Internal Server Error`. -/
theorem sendMessage_server_classification_witness :
    (1 ≤ ({} : ChatAPI).retryAttempts ∧
      sampleFailing 3 = .notOk 500 "Internal Server Error" ∧
      jsIncludes "Internal Server Error" "timeout" = false) ∧
      (({} : ChatAPI).sendMessage sampleFailing).2.error =
        some "Server error. Please try again later." :=
  ⟨by decide,
    (sendMessage_server_classification ({} : ChatAPI) sampleFailing
      { name := "Error", message := "HTTP 500: Internal Server Error" } (by decide)
      (fun _ _ h => Attempt.noConfusion h) (by decide)).2.2
      "Internal Server Error" rfl (by decide)⟩

end ChatAPI

/-! ## Chat controllers -/

namespace SteamChatbot

theorem sendMessageStart_of_guard (self : SteamChatbot) (now : Int)
    (h : jsTrim self.chatInput = "" ∨ self.isLoading = true) :
    self.sendMessageStart now = self := by
  unfold sendMessageStart
  rcases h with h | h
  · simp [h]
  · simp [h]

theorem sendMessageStart_of_pass (self : SteamChatbot) (now : Int)
    (htext : jsTrim self.chatInput ≠ "") (hidle : self.isLoading = false) :
    self.sendMessageStart now =
      { isOpen := self.isOpen
        unreadCount := self.unreadCount
        currentConversation := self.currentConversation ++
          [{ role := "user", content := jsTrim self.chatInput, timestamp := now }]
        isLoading := true
        chatInput := ""
        sendBtnDisabled := true
        messagesContainer := self.messagesContainer ++
          [.message "user" (jsTrim self.chatInput), .typingIndicator]
        suggestionsGrid := self.suggestionsGrid
        events := self.events ++
          [.added "user" (jsTrim self.chatInput), .fetch (jsTrim self.chatInput)] } := by
  have hrole : (("user" : String) == "assistant") = false := by decide
  unfold sendMessageStart
  simp [htext, hidle, addMessageToChat, showTypingIndicator, hrole]

set_option maxRecDepth 100000 in
/-- C14, as stated, fails: `validateMessage` rejects the text of `sampleUnsafe` for
its content, and `sendMessage`, called while idle, appends it as a user message and
calls `fetch` with it. -/
theorem sendMessage_unvalidated_counterexample :
    ChatAPI.validateMessage sampleUnsafe.chatInput =
        { valid := false, error := some "Message contains invalid content" } ∧
      sampleUnsafe.isLoading = false ∧
      (sampleUnsafe.sendMessageStart 1).events =
        [.added "user" "<script>alert(1)</script>", .fetch "<script>alert(1)</script>"] := by
  decide

/-- C14 amended: `SteamChatbot.sendMessage` does not consult `validateMessage`. For
every input text that `validateMessage` rejects for its content, submitted while the
controller is idle, it appends the trimmed text as a user message and then issues
exactly one network request. -/
theorem sendMessageStart_ignores_validation (self : SteamChatbot) (now : Int)
    (hidle : self.isLoading = false)
    (hreject : (ChatAPI.validateMessage self.chatInput).error =
      some "Message contains invalid content") :
    (self.sendMessageStart now).events =
      self.events ++
        [.added "user" (jsTrim self.chatInput), .fetch (jsTrim self.chatInput)] := by
  have htext : jsTrim self.chatInput ≠ "" := by
    intro h
    unfold ChatAPI.validateMessage at hreject
    rw [h] at hreject
    split at hreject
    · simp at hreject
    · simp at hreject
  rw [sendMessageStart_of_pass self now htext hidle]

set_option maxRecDepth 100000 in
/-- Witness of the amended C14 on `sampleUnsafe`. -/
theorem sendMessageStart_ignores_validation_witness :
    (sampleUnsafe.isLoading = false ∧
      (ChatAPI.validateMessage sampleUnsafe.chatInput).error =
        some "Message contains invalid content") ∧
      (sampleUnsafe.sendMessageStart 1).events =
        sampleUnsafe.events ++
          [.added "user" (jsTrim sampleUnsafe.chatInput),
            .fetch (jsTrim sampleUnsafe.chatInput)] :=
  ⟨by decide, sendMessageStart_ignores_validation sampleUnsafe 1 (by decide) (by decide)⟩

/-- C15: for every input whose trimmed text is not empty, submitted while the
controller is idle, `sendMessage` appends exactly one entry to the conversation, a
user message carrying the trimmed text, and the append stands before the `fetch` in
the order of events. -/
theorem sendMessageStart_appends_user (self : SteamChatbot) (now : Int)
    (htext : jsTrim self.chatInput ≠ "") (hidle : self.isLoading = false) :
    (self.sendMessageStart now).currentConversation =
        self.currentConversation ++
          [{ role := "user", content := jsTrim self.chatInput, timestamp := now }] ∧
      (self.sendMessageStart now).events =
        self.events ++
          [.added "user" (jsTrim self.chatInput), .fetch (jsTrim self.chatInput)] ∧
      (self.sendMessageStart now).isLoading = true := by
  rw [sendMessageStart_of_pass self now htext hidle]
  exact ⟨rfl, rfl, rfl⟩

/-- Witness of C15 on `sampleAsking`. -/
theorem sendMessageStart_appends_user_witness :
    (jsTrim sampleAsking.chatInput ≠ "" ∧ sampleAsking.isLoading = false) ∧
      (sampleAsking.sendMessageStart 1).currentConversation =
        sampleAsking.currentConversation ++
          [{ role := "user", content := jsTrim sampleAsking.chatInput, timestamp := 1 }] :=
  ⟨by decide, (sendMessageStart_appends_user sampleAsking 1 (by decide) (by decide)).1⟩

end SteamChatbot

namespace SteamChatbot

theorem addMessageToChat_isLoading (self : SteamChatbot) (role content : String) (now : Int) :
    (self.addMessageToChat role content now).isLoading = self.isLoading := by
  unfold addMessageToChat incrementUnreadCount
  simp only
  split <;> rfl

theorem addMessageToChat_events (self : SteamChatbot) (role content : String) (now : Int) :
    (self.addMessageToChat role content now).events = self.events ++ [.added role content] := by
  unfold addMessageToChat incrementUnreadCount
  simp only
  split <;> rfl

theorem addMessageToChat_currentConversation (self : SteamChatbot) (role content : String)
    (now : Int) :
    (self.addMessageToChat role content now).currentConversation =
      self.currentConversation ++ [{ role := role, content := content, timestamp := now }] := by
  unfold addMessageToChat incrementUnreadCount
  simp only
  split <;> rfl

theorem sendMessageCatch_isLoading (self : SteamChatbot) (now : Int) :
    (self.sendMessageCatch now).isLoading = false := by
  rw [sendMessageCatch, addMessageToChat_isLoading]
  rfl

theorem sendMessageSettle_isLoading (self : SteamChatbot) (outcome : ChatFetch) (now : Int) :
    (self.sendMessageSettle outcome now).isLoading = false := by
  unfold sendMessageSettle
  split
  · exact sendMessageCatch_isLoading _ _
  · exact sendMessageCatch_isLoading _ _
  · rename_i data
    simp only
    split
    · split
      · exact sendMessageCatch_isLoading _ _
      · rename_i response _
        have h1 : (if data.is_beyond_application = true then
              self.hideTypingIndicator.handleBeyondThinkingResponse response data.related_domains
            else self.hideTypingIndicator.addMessageToChat "assistant" response now).isLoading =
            false := by
          split
          · unfold handleBeyondThinkingResponse displayDomainContext
            simp only
            split
            · split <;> rfl
            · rfl
          · rw [addMessageToChat_isLoading]; rfl
        split
        · split
          · unfold displaySuggestions
            simp only
            split <;> exact h1
          · exact h1
        · exact h1
    · rw [addMessageToChat_isLoading]; rfl

set_option maxRecDepth 100000 in
/-- C16 at its failing input: the controller is closed and idle, a question is sent,
and the reply has `success: true` and `is_beyond_application: true`. The reply is
shown in a bubble, but no assistant entry is added to the conversation and
`unreadCount` stays 0; the same run with a plain successful reply adds the assistant
entry and raises `unreadCount` to 1. -/
theorem sendMessage_beyond_reply :
    (sampleBeyondReply.success = true ∧ sampleAsking.isOpen = false ∧
      sampleAsking.unreadCount = 0) ∧
      (sampleAsking.sendMessage (.response 200 (some sampleBeyondReply)) 1 2).currentConversation =
        [{ role := "user", content := "What does this dashboard show?", timestamp := 1 }] ∧
      (sampleAsking.sendMessage (.response 200 (some sampleBeyondReply)) 1 2).unreadCount = 0 ∧
      (sampleAsking.sendMessage (.response 200 (some sampleBeyondReply)) 1 2).isOpen = false ∧
      (sampleAsking.sendMessage (.response 200 (some sampleBeyondReply)) 1 2).messagesContainer =
        [.message "user" "What does this dashboard show?", .beyondMessage "Think bigger."] ∧
      (sampleAsking.sendMessage (.response 200 (some samplePlainReply)) 1 2).currentConversation =
        [{ role := "user", content := "What does this dashboard show?", timestamp := 1 },
         { role := "assistant", content := "It shows Steam usage.", timestamp := 2 }] ∧
      (sampleAsking.sendMessage (.response 200 (some samplePlainReply)) 1 2).unreadCount = 1 := by
  decide

theorem displaySuggestions_frame (self : SteamChatbot) (suggestions : Option (List String)) :
    (self.displaySuggestions suggestions).currentConversation = self.currentConversation ∧
      (self.displaySuggestions suggestions).unreadCount = self.unreadCount := by
  unfold displaySuggestions
  split
  · split <;> exact ⟨rfl, rfl⟩
  · exact ⟨rfl, rfl⟩

theorem addMessageToChat_assistant_unreadCount (self : SteamChatbot) (content : String)
    (now : Int) :
    (self.addMessageToChat "assistant" content now).unreadCount =
      (if self.isOpen then self.unreadCount else self.unreadCount + 1) := by
  have hrole : (("assistant" : String) == "assistant") = true := by decide
  unfold addMessageToChat incrementUnreadCount
  cases hopen : self.isOpen <;> simp [hrole, hopen]

/-- A successful reply that is not flagged: one assistant entry, and `unreadCount`
goes up by one exactly when the window is closed at that moment. -/
theorem sendMessageSettle_plain_reply (self : SteamChatbot) (status : Nat) (data : ChatReply)
    (response : String) (now : Int) (hsuccess : data.success = true)
    (hplain : data.is_beyond_application = false) (hresponse : data.response = some response) :
    (self.sendMessageSettle (.response status (some data)) now).currentConversation =
        self.currentConversation ++
          [{ role := "assistant", content := response, timestamp := now }] ∧
      (self.sendMessageSettle (.response status (some data)) now).unreadCount =
        (if self.isOpen then self.unreadCount else self.unreadCount + 1) := by
  have hbase : (self.hideTypingIndicator.addMessageToChat "assistant" response
        now).currentConversation =
        self.currentConversation ++
          [{ role := "assistant", content := response, timestamp := now }] ∧
      (self.hideTypingIndicator.addMessageToChat "assistant" response now).unreadCount =
        (if self.isOpen then self.unreadCount else self.unreadCount + 1) :=
    ⟨addMessageToChat_currentConversation _ _ _ _,
      addMessageToChat_assistant_unreadCount _ _ _⟩
  unfold sendMessageSettle
  simp only [hsuccess, hplain, hresponse, if_true, Bool.false_eq_true, if_false]
  split
  · split
    · rw [(displaySuggestions_frame _ _).1, (displaySuggestions_frame _ _).2]
      exact hbase
    · exact hbase
  · exact hbase

/-- C17: for every outcome of the chat request, when `sendMessage` completes the
controller is idle again, from whatever state the reply finds it in; and when the
fetch is rejected, the body cannot be parsed, or the reply has `success: false`, the
conversation has grown by the user message followed by exactly one assistant message
that explains the failure. -/
theorem sendMessage_returns_to_idle (self : SteamChatbot) (outcome : ChatFetch)
    (sent settled : Int) (htext : jsTrim self.chatInput ≠ "") (hidle : self.isLoading = false) :
    (self.sendMessage outcome sent settled).isLoading = false ∧
      (∀ later : SteamChatbot, (later.sendMessageSettle outcome settled).isLoading = false) ∧
      (∀ error, outcome = .rejected error →
        (self.sendMessage outcome sent settled).currentConversation =
          self.currentConversation ++
            [{ role := "user", content := jsTrim self.chatInput, timestamp := sent },
             { role := "assistant", content := connectionMessage, timestamp := settled }]) ∧
      (∀ status, outcome = .response status none →
        (self.sendMessage outcome sent settled).currentConversation =
          self.currentConversation ++
            [{ role := "user", content := jsTrim self.chatInput, timestamp := sent },
             { role := "assistant", content := connectionMessage, timestamp := settled }]) ∧
      (∀ status data, outcome = .response status (some data) → data.success = false →
        (self.sendMessage outcome sent settled).currentConversation =
          self.currentConversation ++
            [{ role := "user", content := jsTrim self.chatInput, timestamp := sent },
             { role := "assistant", content := apologyMessage, timestamp := settled }]) := by
  have hguard : (jsTrim self.chatInput == "" || self.isLoading) = false := by
    simp [htext, hidle]
  have hsend : self.sendMessage outcome sent settled =
      (self.sendMessageStart sent).sendMessageSettle outcome settled := by
    unfold sendMessage
    simp [hguard]
  have hconv : (self.sendMessageStart sent).hideTypingIndicator.currentConversation =
      self.currentConversation ++
        [{ role := "user", content := jsTrim self.chatInput, timestamp := sent }] := by
    rw [sendMessageStart_of_pass self sent htext hidle]; rfl
  refine ⟨?_, fun later => sendMessageSettle_isLoading later outcome settled, ?_, ?_, ?_⟩
  · rw [hsend]; exact sendMessageSettle_isLoading _ _ _
  · intro error he
    rw [hsend, he]
    simp only [sendMessageSettle, sendMessageCatch]
    rw [addMessageToChat_currentConversation, hconv, List.append_assoc]
    rfl
  · intro status he
    rw [hsend, he]
    simp only [sendMessageSettle, sendMessageCatch]
    rw [addMessageToChat_currentConversation, hconv, List.append_assoc]
    rfl
  · intro status data he hfalse
    rw [hsend, he]
    simp only [sendMessageSettle, hfalse, Bool.false_eq_true, if_false]
    rw [addMessageToChat_currentConversation, hconv, List.append_assoc]
    rfl

/-- Witness of C17: `sampleAsking` sends its question and the fetch is rejected. -/
theorem sendMessage_returns_to_idle_witness :
    (jsTrim sampleAsking.chatInput ≠ "" ∧ sampleAsking.isLoading = false) ∧
      (sampleAsking.sendMessage
        (.rejected { name := "TypeError", message := "Failed to fetch" }) 1 2).isLoading =
        false :=
  ⟨by decide,
    (sendMessage_returns_to_idle sampleAsking
      (.rejected { name := "TypeError", message := "Failed to fetch" }) 1 2
      (by decide) (by decide)).1⟩

/-- C19: when the trimmed input text is empty or the controller is awaiting a reply,
`sendMessage` changes nothing: no message is appended, `unreadCount`, `isOpen` and
`isLoading` keep their values, and no `fetch` is recorded. -/
theorem sendMessage_guard_noop (self : SteamChatbot) (outcome : ChatFetch)
    (sent settled : Int) (h : jsTrim self.chatInput = "" ∨ self.isLoading = true) :
    self.sendMessageStart sent = self ∧
      self.sendMessage outcome sent settled = self ∧
      (self.sendMessage outcome sent settled).currentConversation = self.currentConversation ∧
      (self.sendMessage outcome sent settled).messagesContainer = self.messagesContainer ∧
      (self.sendMessage outcome sent settled).unreadCount = self.unreadCount ∧
      (self.sendMessage outcome sent settled).isOpen = self.isOpen ∧
      (self.sendMessage outcome sent settled).isLoading = self.isLoading ∧
      (self.sendMessage outcome sent settled).events = self.events := by
  have hsend : self.sendMessage outcome sent settled = self := by
    unfold sendMessage
    rcases h with h | h
    · simp [h]
    · simp [h]
  refine ⟨sendMessageStart_of_guard self sent h, hsend, ?_, ?_, ?_, ?_, ?_, ?_⟩ <;> rw [hsend]

/-- Witness of C19: a second submit while `sampleAsking` awaits its reply. -/
theorem sendMessage_guard_noop_witness :
    (jsTrim (sampleAsking.sendMessageStart 1).chatInput = "" ∨
        (sampleAsking.sendMessageStart 1).isLoading = true) ∧
      (sampleAsking.sendMessageStart 1).sendMessageStart 2 = sampleAsking.sendMessageStart 1 :=
  ⟨by decide,
    (sendMessage_guard_noop (sampleAsking.sendMessageStart 1)
      (.rejected { name := "TypeError", message := "Failed to fetch" }) 2 3
      (by decide)).1⟩

end SteamChatbot

namespace FloatingChatbot

theorem addMessage_events (self : FloatingChatbot) (role : String) (content : Option String) :
    (self.addMessage role content).events =
      self.events ++ [.added role (content.getD "")] := by
  unfold addMessage
  simp only
  split <;> rfl

end FloatingChatbot

set_option maxRecDepth 100000 in
/-- C18, as stated, fails: after a network failure (`fetch` rejects with
`TypeError: Failed to fetch`), after a timeout (`fetch` rejects with a
`TimeoutError`) and after a server failure (status 503 with a body that is not
JSON), `SteamChatbot` leaves the same conversation, so the three appended messages
are one and the same text; so does `FloatingChatbot`. -/
theorem failure_message_counterexample :
    ((sampleAsking.sendMessageStart 1).sendMessageSettle
          (.rejected { name := "TypeError", message := "Failed to fetch" }) 2).currentConversation =
        ((sampleAsking.sendMessageStart 1).sendMessageSettle
          (.rejected { name := "TimeoutError", message := "The operation timed out." })
          2).currentConversation ∧
      ((sampleAsking.sendMessageStart 1).sendMessageSettle
          (.rejected { name := "TimeoutError", message := "The operation timed out." })
          2).currentConversation =
        ((sampleAsking.sendMessageStart 1).sendMessageSettle
          (.response 503 none) 2).currentConversation ∧
      ((sampleAsking.sendMessageStart 1).sendMessageSettle
          (.response 503 none) 2).currentConversation =
        [{ role := "user", content := "What does this dashboard show?", timestamp := 1 },
         { role := "assistant", content := SteamChatbot.connectionMessage, timestamp := 2 }] ∧
      (sampleFloating.sendMessageStart.sendMessageSettle
          (.rejected { name := "TypeError", message := "Failed to fetch" })).chatMessages =
        (sampleFloating.sendMessageStart.sendMessageSettle
          (.rejected { name := "TimeoutError", message := "The operation timed out." })).chatMessages ∧
      (sampleFloating.sendMessageStart.sendMessageSettle
          (.rejected { name := "TimeoutError", message := "The operation timed out." })).chatMessages =
        (sampleFloating.sendMessageStart.sendMessageSettle (.response 503 none)).chatMessages := by
  decide

/-- C18 amended: the message that a controller appends on a failure does not depend
on the class of the failure. Whenever the `fetch` is rejected or the body cannot be
parsed, whatever the error and the status, the appended assistant message is the one
fixed connection message of the controller; whenever the reply parses with
`success: false`, whatever the status, it is the one fixed apology message; these
two differ. -/
theorem failure_message_fixed (steam : SteamChatbot) (floating : FloatingChatbot)
    (now : Int) :
    (∀ error, (steam.sendMessageSettle (.rejected error) now).events =
        steam.events ++ [.added "assistant" SteamChatbot.connectionMessage]) ∧
      (∀ status, (steam.sendMessageSettle (.response status none) now).events =
        steam.events ++ [.added "assistant" SteamChatbot.connectionMessage]) ∧
      (∀ status data, data.success = false →
        (steam.sendMessageSettle (.response status (some data)) now).events =
          steam.events ++ [.added "assistant" SteamChatbot.apologyMessage]) ∧
      (∀ error, (floating.sendMessageSettle (.rejected error)).events =
        floating.events ++ [.added "assistant" FloatingChatbot.connectionMessage]) ∧
      (∀ status, (floating.sendMessageSettle (.response status none)).events =
        floating.events ++ [.added "assistant" FloatingChatbot.connectionMessage]) ∧
      (∀ status data, data.success = false →
        (floating.sendMessageSettle (.response status (some data))).events =
          floating.events ++ [.added "assistant" FloatingChatbot.apologyMessage]) ∧
      SteamChatbot.connectionMessage ≠ SteamChatbot.apologyMessage ∧
      FloatingChatbot.connectionMessage ≠ FloatingChatbot.apologyMessage := by
  refine ⟨?_, ?_, ?_, ?_, ?_, ?_, by decide, by decide⟩
  · intro error
    simp only [SteamChatbot.sendMessageSettle, SteamChatbot.sendMessageCatch]
    rw [SteamChatbot.addMessageToChat_events]; rfl
  · intro status
    simp only [SteamChatbot.sendMessageSettle, SteamChatbot.sendMessageCatch]
    rw [SteamChatbot.addMessageToChat_events]; rfl
  · intro status data hfalse
    simp only [SteamChatbot.sendMessageSettle, hfalse, Bool.false_eq_true, if_false]
    rw [SteamChatbot.addMessageToChat_events]; rfl
  · intro error
    simp only [FloatingChatbot.sendMessageSettle]
    rw [FloatingChatbot.addMessage_events]; rfl
  · intro status
    simp only [FloatingChatbot.sendMessageSettle]
    rw [FloatingChatbot.addMessage_events]; rfl
  · intro status data hfalse
    simp only [FloatingChatbot.sendMessageSettle, hfalse, Bool.false_eq_true, if_false]
    rw [FloatingChatbot.addMessage_events]; rfl

/-- Witness of the amended C18: `sampleAsking` awaits its reply and receives a reply
with `success: false` and status 500. -/
theorem failure_message_fixed_witness :
    ({ success := false } : ChatReply).success = false ∧
      ((sampleAsking.sendMessageStart 1).sendMessageSettle
        (.response 500 (some { success := false })) 2).events =
        (sampleAsking.sendMessageStart 1).events ++
          [.added "assistant" SteamChatbot.apologyMessage] :=
  ⟨rfl, (failure_message_fixed (sampleAsking.sendMessageStart 1) sampleFloating 2).2.2.1
    500 { success := false } rfl⟩

set_option maxRecDepth 100000 in
/-- C20 at its failing input: `sampleFloating` has sent its first question and the
request is pending (the send button is disabled, the typing indicator is shown).
The user types a second question and presses Enter, or picks a suggestion: each time
`sendMessage` adds a second user message and calls `fetch` a second time, before the
first request has settled. -/
theorem floating_second_send :
    (sampleFloating.sendMessageStart.events =
        [.added "user" "first question", .fetch "first question"] ∧
      sampleFloating.sendMessageStart.sendBtnDisabled = true) ∧
      ((sampleFloating.sendMessageStart.typeInput "second question").pressEnter).events =
        [.added "user" "first question", .fetch "first question",
         .added "user" "second question", .fetch "second question"] ∧
      (sampleFloating.sendMessageStart.useSuggestion "Explain the key metrics").events =
        [.added "user" "first question", .fetch "first question",
         .added "user" "Explain the key metrics", .fetch "Explain the key metrics"] ∧
      ((sampleFloating.sendMessageStart.typeInput "second question").pressEnter).chatMessages =
        [.message "user" "first question", .typingIndicator,
         .message "user" "second question", .typingIndicator] := by
  decide

/-! ## Window state and unread count -/

namespace SteamChatbot

/-- C22: `toggleChat` negates `isOpen`; when the result is open `unreadCount` is 0,
when the result is closed `unreadCount` is unchanged; toggling twice restores
`isOpen`. -/
theorem toggleChat_spec (self : SteamChatbot) :
    self.toggleChat.isOpen = !self.isOpen ∧
      (self.toggleChat.isOpen = true → self.toggleChat.unreadCount = 0) ∧
      (self.toggleChat.isOpen = false → self.toggleChat.unreadCount = self.unreadCount) ∧
      self.toggleChat.toggleChat.isOpen = self.isOpen := by
  unfold toggleChat resetUnreadCount
  cases h : self.isOpen <;> simp [h]

/-- Witness of C22: a closed controller with one unread message is opened. -/
theorem toggleChat_spec_witness :
    ((init.addMessageToChat "assistant" "Welcome" 1).toggleChat.isOpen = true ∧
      (init.addMessageToChat "assistant" "Welcome" 1).unreadCount = 1) ∧
      (init.addMessageToChat "assistant" "Welcome" 1).toggleChat.unreadCount = 0 :=
  ⟨by decide,
    (toggleChat_spec (init.addMessageToChat "assistant" "Welcome" 1)).2.1 (by decide)⟩

theorem addMessageToChat_isOpen (self : SteamChatbot) (role content : String) (now : Int) :
    (self.addMessageToChat role content now).isOpen = self.isOpen := by
  unfold addMessageToChat incrementUnreadCount
  simp only
  split <;> rfl

theorem addMessageToChat_unreadCount (self : SteamChatbot) (role content : String)
    (now : Int) :
    (self.addMessageToChat role content now).unreadCount =
      (if role == "assistant" && !self.isOpen then self.unreadCount + 1
       else self.unreadCount) := by
  unfold addMessageToChat incrementUnreadCount
  simp only
  split <;> rfl

end SteamChatbot

namespace SteamChatbot

theorem openIsRead_step (self : SteamChatbot) (op : SteamOp) (h : OpenIsRead self) :
    OpenIsRead (self.step op) := by
  cases op with
  | toggleChat =>
    intro hopen
    exact (toggleChat_spec self).2.1 hopen
  | minimizeChat => intro hopen; simp [step, minimizeChat] at hopen
  | closeChat => intro hopen; simp [step, closeChat] at hopen
  | addMessageToChat role content now =>
    intro hopen
    simp only [step] at hopen ⊢
    rw [addMessageToChat_isOpen] at hopen
    rw [addMessageToChat_unreadCount, hopen]
    simpa using h hopen

theorem openIsRead_run (ops : List SteamOp) : ∀ self : SteamChatbot, OpenIsRead self →
    OpenIsRead (self.run ops) := by
  induction ops with
  | nil => intro self h; exact h
  | cons op ops ih => intro self h; exact ih _ (openIsRead_step self op h)

/-- C30: in every state reached from the initial state by `toggleChat`,
`minimizeChat`, `closeChat` and `addMessageToChat`, an open window has
`unreadCount = 0`; and a further call never lowers `unreadCount`, except a
`toggleChat` that opens the window, which sets it to 0. -/
theorem run_unread_invariant (ops : List SteamOp) :
    ((init.run ops).isOpen = true → (init.run ops).unreadCount = 0) ∧
      ∀ op : SteamOp,
        (init.run ops).unreadCount ≤ ((init.run ops).step op).unreadCount ∨
          (op = .toggleChat ∧ (init.run ops).isOpen = false ∧
            ((init.run ops).step op).isOpen = true ∧
            ((init.run ops).step op).unreadCount = 0) := by
  refine ⟨openIsRead_run ops init (by intro h; simp [init] at h), ?_⟩
  intro op
  cases op with
  | toggleChat =>
    cases hopen : (init.run ops).isOpen
    · right
      have h := toggleChat_spec (init.run ops)
      rw [hopen] at h
      exact ⟨rfl, rfl, h.1, h.2.1 h.1⟩
    · left
      have h := toggleChat_spec (init.run ops)
      rw [hopen] at h
      exact Nat.le_of_eq (h.2.2.1 h.1).symm
  | minimizeChat => left; exact Nat.le_refl _
  | closeChat => left; exact Nat.le_refl _
  | addMessageToChat role content now =>
    left
    simp only [step]
    rw [addMessageToChat_unreadCount]
    split <;> omega

set_option maxRecDepth 100000 in
/-- Witness of C30 on `sampleWindowOps`, which ends closed with one unread message;
the window is then opened. -/
theorem run_unread_invariant_witness :
    ((init.run sampleWindowOps).isOpen = false ∧ (init.run sampleWindowOps).unreadCount = 1 ∧
      ((init.run sampleWindowOps).step .toggleChat).isOpen = true) ∧
      ((init.run (sampleWindowOps ++ [.toggleChat])).isOpen = true →
        (init.run (sampleWindowOps ++ [.toggleChat])).unreadCount = 0) :=
  ⟨by decide, (run_unread_invariant (sampleWindowOps ++ [.toggleChat])).1⟩

end SteamChatbot

/-! ## Session start -/

namespace FloatingChatbot

set_option maxRecDepth 100000 in
/-- C21 at its failing input: the session-start request is answered with a body that
parses and has `success: false`. `startSession` only logs: `sessionId` stays `null`,
no welcome message is requested, and every later `sendMessage` returns at its guard.
When the `fetch` is rejected the local id is made, and a reply with `success: true`
gives the id of the server. -/
theorem startSession_refused :
    (sampleUnstarted.startSessionSettle (.response 200 (some { success := false })) 1700).1.sessionId =
        none ∧
      (sampleUnstarted.startSessionSettle (.response 200 (some { success := false })) 1700).2 =
        false ∧
      (sampleUnstarted.startSessionSettle
        (.response 200 (some { success := false })) 1700).1.sendMessageStart =
        (sampleUnstarted.startSessionSettle (.response 200 (some { success := false })) 1700).1 ∧
      (sampleUnstarted.startSessionSettle
        (.response 200 (some { success := false })) 1700).1.sendMessageStart.events = [] ∧
      (sampleUnstarted.startSessionSettle
        (.rejected { name := "TypeError", message := "Failed to fetch" }) 1700).1.sessionId =
        some "local_1700" ∧
      (sampleUnstarted.startSessionSettle
        (.response 200 (some { success := true, session_id := some "abc" })) 1700).1.sessionId =
        some "abc" := by
  decide

/-- The two branches of `startSession` that set an id: the local id whenever the
`fetch` is rejected or the body cannot be parsed, the id of the reply whenever the
reply has `success: true`. -/
theorem startSessionSettle_sets_id (self : FloatingChatbot) (now : Int) :
    (∀ error, (self.startSessionSettle (.rejected error) now).1.sessionId =
        some ("local_" ++ toString now)) ∧
      (∀ status, (self.startSessionSettle (.response status none) now).1.sessionId =
        some ("local_" ++ toString now)) ∧
      (∀ status data, data.success = true →
        (self.startSessionSettle (.response status (some data)) now).1.sessionId =
          data.session_id) ∧
      (∀ status data, data.success = false →
        (self.startSessionSettle (.response status (some data)) now).1 = self) := by
  refine ⟨fun _ => rfl, fun _ => rfl, ?_, ?_⟩
  · intro status data h; simp [startSessionSettle, h]
  · intro status data h; simp [startSessionSettle, h]

end FloatingChatbot

/-! ## Conversation store: returned message, title, order -/

namespace ChatHistory

/-- C26, as stated, fails: a metadata object with the key `role` replaces the role of
the message, since the metadata is spread after the named fields. -/
theorem saveMessage_metadata_counterexample :
    (sampleStore.saveMessage "user" "hi" sampleMetadata (sampleEnv 4)).1.role = "system" ∧
      (sampleStore.saveMessage "user" "hi" sampleMetadata (sampleEnv 4)).1.role ≠ "user" ∧
      (sampleStore.saveMessage "user" "hi" { content := some "other" } (sampleEnv 4)).1.content =
        "other" ∧
      (sampleStore.saveMessage "user" "hi" { conversationId := some "z" }
        (sampleEnv 4)).1.conversationId = "z" := by
  decide

theorem saveMessage_getLast? (self : ChatHistory) (role content : String)
    (metadata : Metadata) (env : SaveEnv)
    (hlen : self.getHistory.length ≤ maxHistoryLength) (hok : env.setItemOk = true) :
    (self.saveMessage role content metadata env).2.getCurrentConversationMessages.getLast? =
      some (self.saveMessage role content metadata env).1 := by
  have hcur : (self.saveMessage role content metadata env).2.currentConversationId =
      self.currentConversationId := by
    simp [saveMessage, saveHistory, hok]
  have hhist : (self.saveMessage role content metadata env).2.getHistory =
      savedHistory self content (buildMessage self role content metadata env) env := by
    simp [saveMessage, saveHistory, hok, getHistory]
  unfold getCurrentConversationMessages
  rw [hcur, hhist, find?_savedHistory self content _ env hlen]
  simp only
  rw [pushMessage_messages, List.getLast?_drop, if_neg (by simp)]
  simp [saveMessage]

/-- C26 amended: the message returned by `saveMessage` takes each of `role`,
`content` and `conversationId` from the metadata when the metadata has that key, and
otherwise from the given role, the given content and the current conversation id; so
for a metadata object with none of these three keys it has the given role, the given
content and the current conversation id. When the write succeeds it is the last
message of the current conversation. -/
theorem saveMessage_returned (self : ChatHistory) (role content : String)
    (metadata : Metadata) (env : SaveEnv)
    (hlen : self.getHistory.length ≤ maxHistoryLength) (hok : env.setItemOk = true) :
    (self.saveMessage role content metadata env).1.role = metadata.role.getD role ∧
      (self.saveMessage role content metadata env).1.content = metadata.content.getD content ∧
      (self.saveMessage role content metadata env).1.conversationId =
        metadata.conversationId.getD self.currentConversationId ∧
      (metadata.role = none → metadata.content = none → metadata.conversationId = none →
        (self.saveMessage role content metadata env).1.role = role ∧
          (self.saveMessage role content metadata env).1.content = content ∧
          (self.saveMessage role content metadata env).1.conversationId =
            self.currentConversationId) ∧
      (self.saveMessage role content metadata env).2.getCurrentConversationMessages.getLast? =
        some (self.saveMessage role content metadata env).1 := by
  refine ⟨rfl, rfl, rfl, ?_, saveMessage_getLast? self role content metadata env hlen hok⟩
  intro h1 h2 h3
  simp [saveMessage, buildMessage, h1, h2, h3]

/-- Witness of the amended C26: a message with empty metadata for `sampleStore`. -/
theorem saveMessage_returned_witness :
    (sampleStore.getHistory.length ≤ maxHistoryLength ∧ (sampleEnv 4).setItemOk = true) ∧
      (sampleStore.saveMessage "user" "hi" {} (sampleEnv 4)).1.role = "user" ∧
      (sampleStore.saveMessage "user" "hi" {} (sampleEnv 4)).1.content = "hi" ∧
      (sampleStore.saveMessage "user" "hi" {} (sampleEnv 4)).1.conversationId =
        sampleStore.currentConversationId :=
  ⟨by decide,
    (saveMessage_returned sampleStore "user" "hi" {} (sampleEnv 4) (by decide) rfl).2.2.2.1
      rfl rfl rfl⟩

end ChatHistory

namespace ChatHistory

theorem pushMessage_title (conv : Conversation) (message : Message) (now : Int) :
    (pushMessage conv message now).title = conv.title :=
  rfl

theorem pushMessage_createdAt (conv : Conversation) (message : Message) (now : Int) :
    (pushMessage conv message now).createdAt = conv.createdAt :=
  rfl

/-- The title of a conversation is set by the call of `saveMessage` that creates it,
from the content argument `c` of that call: it is `Chat: ` followed by `c` when `c` has
at most 50 UTF-16 code units, and otherwise by the first 47 code units of `c` and
`...`, 50 code units in all; a later `saveMessage` on the conversation leaves the
title as it is. -/
theorem saveMessage_title (self : ChatHistory) (role content : String)
    (metadata : Metadata) (env : SaveEnv)
    (hlen : self.getHistory.length ≤ maxHistoryLength) (hok : env.setItemOk = true) :
    (self.getHistory.find? (fun conv => conv.id == self.currentConversationId) = none →
        ∃ created,
          (self.saveMessage role content metadata env).2.getHistory.find?
              (fun conv => conv.id == self.currentConversationId) = some created ∧
            created.title =
              utf16 "Chat: " ++ (if (utf16 content).length ≤ 50 then utf16 content
                else (utf16 content).take 47 ++ utf16 "...")) ∧
      (50 < (utf16 content).length → ((utf16 content).take 47 ++ utf16 "...").length = 50) ∧
      (∀ stored,
        self.getHistory.find? (fun conv => conv.id == self.currentConversationId) =
          some stored →
        ∃ updated,
          (self.saveMessage role content metadata env).2.getHistory.find?
              (fun conv => conv.id == self.currentConversationId) = some updated ∧
            updated.title = stored.title) := by
  have hhist : (self.saveMessage role content metadata env).2.getHistory =
      savedHistory self content (buildMessage self role content metadata env) env := by
    simp [saveMessage, saveHistory, hok, getHistory]
  refine ⟨?_, ?_, ?_⟩
  · intro hnone
    refine ⟨_, by rw [hhist, find?_savedHistory self content _ env hlen], ?_⟩
    rw [pushMessage_title, hnone]
    simp only [generateConversationTitle]
    by_cases hc : (utf16 content).length ≤ 50
    · rw [if_pos hc, if_neg (by omega)]
    · rw [if_neg hc, if_pos (by omega)]
  · intro hc
    have h3 : (utf16 "...").length = 3 := by decide
    rw [List.length_append, List.length_take, h3]
    omega
  · intro stored hsome
    refine ⟨_, by rw [hhist, find?_savedHistory self content _ env hlen], ?_⟩
    rw [pushMessage_title, hsome]

set_option maxRecDepth 100000 in
/-- C27 at its failing input: `saveMessage('user', 'hi', {content: 'other'})` while the
current conversation `c` is not in the store. The conversation that the call creates
has the title `Chat: hi`, made from the content argument, and its first message has
the content `other`, which the metadata puts in the place of the argument. So the
title is not derived from the first message, as the comment on
`generateConversationTitle` and the name of its parameter, `firstMessage`, say. -/
theorem saveMessage_title_not_of_first_message :
    (((sampleStore.loadConversation "c").2.saveMessage "user" "hi" { content := some "other" }
        (sampleEnv 4)).2.getHistory.head?.map
          (fun conv => (conv.id, conv.title, conv.messages.map (fun message => message.content)))) =
        some ("c", utf16 "Chat: hi", ["other"]) ∧
      generateConversationTitle "other" = utf16 "Chat: other" ∧
      utf16 "Chat: hi" ≠ utf16 "Chat: other" := by
  decide

end ChatHistory

namespace ChatHistory

theorem savedHistory_eq_take (self : ChatHistory) (content : String) (message : Message)
    (env : SaveEnv) :
    savedHistory self content message env =
      (pushedHistory self content message env).take maxHistoryLength := by
  unfold savedHistory pushedHistory
  simp only
  split
  · rfl
  · rename_i h
    exact (List.take_of_length_le (Nat.le_of_not_lt h)).symm

theorem map_createdAt_modifyFirst (p : Conversation → Bool) (f : Conversation → Conversation)
    (hf : ∀ conv, (f conv).createdAt = conv.createdAt) (l : List Conversation) :
    (modifyFirst p f l).map (fun conv => conv.createdAt) =
      l.map (fun conv => conv.createdAt) := by
  induction l with
  | nil => rfl
  | cons c cs ih =>
    unfold modifyFirst
    split
    · simp [hf]
    · simp [ih]

theorem pairwise_createdAt_iff (l : List Conversation) :
    l.Pairwise (fun a b => b.createdAt ≤ a.createdAt) ↔
      (l.map (fun conv => conv.createdAt)).Pairwise (fun x y => y ≤ x) := by
  rw [List.pairwise_map]

/-- The array before the cap keeps the order by creation, when the clock reading for
`createdAt` is not before any reading made so far. -/
theorem createdNewestFirst_pushedHistory (self : ChatHistory) (content : String)
    (message : Message) (env : SaveEnv) (readings : List Int)
    (h : CreatedNewestFirst self.getHistory readings)
    (hclock : ∀ r ∈ readings, r ≤ env.createdAt) :
    CreatedNewestFirst (pushedHistory self content message env)
      (readings ++ [env.idNow, env.timestamp, env.createdAt, env.updatedAt]) := by
  have hbase : CreatedNewestFirst
      (match self.getHistory.find? (fun conv => conv.id == self.currentConversationId) with
        | some _ => self.getHistory
        | none =>
          { id := self.currentConversationId
            title := generateConversationTitle content
            createdAt := env.createdAt
            updatedAt := env.createdAt
            messages := [] } :: self.getHistory)
      (readings ++ [env.idNow, env.timestamp, env.createdAt, env.updatedAt]) := by
    split
    · exact ⟨h.1, fun conv hconv => List.mem_append_left _ (h.2 conv hconv)⟩
    · refine ⟨List.pairwise_cons.2 ⟨fun conv hconv => hclock _ (h.2 conv hconv), h.1⟩, ?_⟩
      intro conv hconv
      rcases List.mem_cons.1 hconv with rfl | hconv
      · simp
      · exact List.mem_append_left _ (h.2 conv hconv)
  unfold pushedHistory
  simp only
  refine ⟨?_, ?_⟩
  · rw [pairwise_createdAt_iff,
      map_createdAt_modifyFirst _ _ (fun conv => pushMessage_createdAt conv _ _),
      ← pairwise_createdAt_iff]
    exact hbase.1
  · intro conv hconv
    rcases mem_modifyFirst hconv with hconv | ⟨c0, hc0, rfl⟩
    · exact hbase.2 conv hconv
    · rw [pushMessage_createdAt]; exact hbase.2 c0 hc0

theorem createdNewestFirst_step (self : ChatHistory) (op : Op) (readings : List Int)
    (h : CreatedNewestFirst self.getHistory readings)
    (hclock : (readings ++ op.readings).Pairwise (· ≤ ·)) :
    CreatedNewestFirst (self.step op).getHistory (readings ++ op.readings) := by
  cases op with
  | saveMessage role content metadata env =>
    have hpushed := createdNewestFirst_pushedHistory self content
      (buildMessage self role content metadata env) env readings h
      (fun r hr => (List.pairwise_append.1 hclock).2.2 r hr env.createdAt (by simp [Op.readings]))
    simp only [step, saveMessage, saveHistory, Op.readings]
    split
    · simp only [getHistory]
      rw [savedHistory_eq_take]
      exact ⟨hpushed.1.sublist (List.take_sublist _ _),
        fun conv hconv => hpushed.2 conv (List.mem_of_mem_take hconv)⟩
    · exact ⟨h.1, fun conv hconv => List.mem_append_left _ (h.2 conv hconv)⟩
  | startNewConversation now random =>
    exact ⟨h.1, fun conv hconv => List.mem_append_left _ (h.2 conv hconv)⟩
  | loadConversation conversationId =>
    exact ⟨h.1, fun conv hconv => List.mem_append_left _ (h.2 conv hconv)⟩

theorem createdNewestFirst_run (ops : List Op) : ∀ (self : ChatHistory) (readings : List Int),
    CreatedNewestFirst self.getHistory readings →
    (readings ++ clockReadings ops).Pairwise (· ≤ ·) →
    CreatedNewestFirst (self.run ops).getHistory (readings ++ clockReadings ops) := by
  induction ops with
  | nil =>
    intro self readings h _
    simpa [clockReadings, run] using h
  | cons op ops ih =>
    intro self readings h hclock
    have hsplit : readings ++ clockReadings (op :: ops) =
        (readings ++ op.readings) ++ clockReadings ops := by
      simp [clockReadings]
    rw [hsplit] at hclock ⊢
    exact ih (self.step op) (readings ++ op.readings)
      (createdNewestFirst_step self op readings h (List.pairwise_append.1 hclock).1) hclock

set_option maxRecDepth 100000 in
/-- C25, as stated, fails: on `sampleOps` the clock readings are 1, 2 and 3, and
`sampleStore` holds conversation `b`, last updated at 2, before conversation `a`,
last updated at 3. -/
theorem run_updatedAt_counterexample :
    (clockReadings sampleOps).Pairwise (· ≤ ·) ∧
      ((init 0 "x").run sampleOps).getHistory.map (fun conv => (conv.id, conv.updatedAt)) =
        [("b", 2), ("a", 3)] ∧
      ¬ ((init 0 "x").run sampleOps).getHistory.Pairwise
        (fun a b => b.updatedAt ≤ a.updatedAt) := by
  decide

/-- C25 amended: starting from an empty store, after any sequence of `saveMessage`,
`startNewConversation` and `loadConversation` calls with a non-decreasing clock, the
stored history is ordered newest-first by creation: the `createdAt` of each
conversation is at least that of every conversation after it. A further
`saveMessage` stores the first 50 conversations of its array, so what the cap
evicts was created no later than any conversation it keeps. -/
theorem run_createdAt_sorted (now : Int) (random : String) (ops : List Op)
    (hclock : (clockReadings ops).Pairwise (· ≤ ·)) :
    ((init now random).run ops).getHistory.Pairwise (fun a b => b.createdAt ≤ a.createdAt) ∧
      ∀ (content : String) (message : Message) (env : SaveEnv),
        (∀ r ∈ clockReadings ops, r ≤ env.createdAt) →
        savedHistory ((init now random).run ops) content message env =
            (pushedHistory ((init now random).run ops) content message env).take
              maxHistoryLength ∧
          ∀ evicted ∈ (pushedHistory ((init now random).run ops) content message env).drop
              maxHistoryLength,
            ∀ kept ∈ savedHistory ((init now random).run ops) content message env,
              evicted.createdAt ≤ kept.createdAt := by
  have hinv := createdNewestFirst_run ops (init now random) []
    ⟨by simp [init, getHistory], by simp [init, getHistory]⟩ (by simpa using hclock)
  rw [List.nil_append] at hinv
  refine ⟨hinv.1, ?_⟩
  intro content message env henv
  refine ⟨savedHistory_eq_take _ _ _ _, ?_⟩
  intro evicted hevicted kept hkept
  rw [savedHistory_eq_take] at hkept
  have hp := (createdNewestFirst_pushedHistory ((init now random).run ops) content message env
    (clockReadings ops) hinv henv).1
  rw [← List.take_append_drop maxHistoryLength
    (pushedHistory ((init now random).run ops) content message env), List.pairwise_append] at hp
  exact hp.2.2 kept hkept evicted hevicted

set_option maxRecDepth 100000 in
/-- Witness of the amended C25 on `sampleOps`. -/
theorem run_createdAt_sorted_witness :
    (clockReadings sampleOps).Pairwise (· ≤ ·) ∧
      ((init 0 "x").run sampleOps).getHistory.Pairwise
        (fun a b => b.createdAt ≤ a.createdAt) :=
  ⟨by decide, (run_createdAt_sorted 0 "x" sampleOps (by decide)).1⟩

end ChatHistory

/-! ## Conversation store: search and cleanup -/

namespace ChatHistory

theorem foldl_push_filter {α β : Type} (p : α → Bool) (g : α → β) (l : List α) :
    ∀ acc : List β,
      l.foldl (fun results x => if p x then results ++ [g x] else results) acc =
        acc ++ (l.filter p).map g := by
  induction l with
  | nil => intro acc; simp
  | cons a l ih =>
    intro acc
    rw [List.foldl_cons, ih]
    by_cases ha : p a = true
    · simp [ha]
    · simp [ha]

theorem foldl_flatMap {α β : Type} (f : α → List β) (l : List α) :
    ∀ acc : List β, l.foldl (fun results x => results ++ f x) acc = acc ++ l.flatMap f := by
  induction l with
  | nil => intro acc; simp
  | cons a l ih =>
    intro acc
    rw [List.foldl_cons, ih, List.flatMap_cons, List.append_assoc]

/-- The two loops of `searchHistory` as one expression. -/
theorem searchHistory_eq (toLowerCase : String → String) (self : ChatHistory)
    (query : String) :
    searchHistory toLowerCase self query =
      self.getHistory.flatMap (fun conversation =>
        (conversation.messages.filter
          (fun message => jsIncludes (toLowerCase message.content) (toLowerCase query))).map
          (fun message =>
            { conversationId := conversation.id
              conversationTitle := conversation.title
              message := message
              context := getMessageContext conversation.messages message.id 2 })) := by
  unfold searchHistory
  have hinner : (fun (results : List SearchResult) (conversation : Conversation) =>
      conversation.messages.foldl
        (fun results message =>
          if jsIncludes (toLowerCase message.content) (toLowerCase query) then
            results ++
              [{ conversationId := conversation.id
                 conversationTitle := conversation.title
                 message := message
                 context := getMessageContext conversation.messages message.id 2 }]
          else results)
        results) =
      (fun results conversation => results ++
        (conversation.messages.filter
          (fun message => jsIncludes (toLowerCase message.content) (toLowerCase query))).map
          (fun message =>
            { conversationId := conversation.id
              conversationTitle := conversation.title
              message := message
              context := getMessageContext conversation.messages message.id 2 })) := by
    funext results conversation
    exact foldl_push_filter _ _ _ _
  rw [hinner, foldl_flatMap, List.nil_append]

theorem lowerFrom_ascii :
    ∀ (before l : List Char), (∀ c ∈ l, c.toNat < 0x80) →
      lowerFrom before l = l.map Char.toLower
  | _, [], _ => rfl
  | before, c :: rest, h => by
    have hc : c.toNat < 0x80 := h c (List.mem_cons_self c rest)
    have h1 : (c.toNat == 0x3a3) = false := by
      simp only [beq_eq_false_iff_ne, ne_eq]
      omega
    have h2 : lowerChar c = c.toLower := by
      unfold lowerChar
      rw [if_neg (by omega)]
    rw [lowerFrom, h1, Bool.false_and, List.map_cons, h2,
      lowerFrom_ascii (c :: before) rest (fun d hd => h d (List.mem_cons_of_mem c hd))]
    rfl

/-- On a text of ASCII characters `toLowerCase` puts `A` to `Z` in lower case and
leaves every other character. -/
theorem jsToLowerCase_ascii (platform : String → String) (s : String)
    (h : isAsciiText s = true) :
    jsToLowerCase platform s = String.mk (s.data.map Char.toLower) := by
  have hall : ∀ c ∈ s.data, c.toNat < 0x80 := by
    simpa [isAsciiText] using h
  have hdata : s.data.all hasCaseData = true := by
    rw [List.all_eq_true]
    intro c hc
    simp [hasCaseData, hall c hc]
  rw [jsToLowerCase, if_pos hdata, lowerFrom_ascii [] s.data hall]

set_option maxRecDepth 100000 in
/-- C23, as stated, fails: the one message of `sampleGreek` is the word ΒΑΣΗ and the
query is ΑΣ, which the word holds as it is. `toLowerCase` makes βαση of the word and
ας of the query, whose sigma ends a word, so `includes` is false and `searchHistory`
returns nothing. The strings have case data, so the function of the platform for
other strings plays no part. -/
theorem searchHistory_sigma_counterexample :
    sampleGreek.getHistory.map
        (fun conv => conv.messages.map (fun message => message.content)) =
        [["\u0392\u0391\u03a3\u0397"]] ∧
      jsIncludes "\u0392\u0391\u03a3\u0397" "\u0391\u03a3" = true ∧
      jsToLowerCase id "\u0392\u0391\u03a3\u0397" = "\u03b2\u03b1\u03c3\u03b7" ∧
      jsToLowerCase id "\u0391\u03a3" = "\u03b1\u03c2" ∧
      searchHistory (jsToLowerCase id) sampleGreek "\u0391\u03a3" = [] := by
  decide

/-- C23 amended: for every history and every query, `searchHistory` returns one
result for each message whose content, put in lower case by `toLowerCase`, holds the
query put in lower case as a contiguous run, and no other result; the results follow
the order of the history and, within a conversation, the order of its messages; each
carries the id and the title of the conversation that holds the message. When the
query and the contents are ASCII texts, these are the messages that contain the
query without regard to the case of the letters. -/
theorem searchHistory_results (platform : String → String) (self : ChatHistory)
    (query : String) :
    (searchHistory (jsToLowerCase platform) self query).map
        (fun result => (result.conversationId, result.conversationTitle, result.message)) =
      self.getHistory.flatMap (fun conversation =>
        (conversation.messages.filter
          (fun message => decide ((jsToLowerCase platform query).data <:+:
            (jsToLowerCase platform message.content).data))).map
          (fun message => (conversation.id, conversation.title, message))) ∧
      (isAsciiText query = true →
        (∀ conversation ∈ self.getHistory, ∀ message ∈ conversation.messages,
          isAsciiText message.content = true) →
        (searchHistory (jsToLowerCase platform) self query).map
            (fun result => (result.conversationId, result.conversationTitle, result.message)) =
          self.getHistory.flatMap (fun conversation =>
            (conversation.messages.filter
              (fun message => containsIgnoringCase message.content query)).map
              (fun message => (conversation.id, conversation.title, message)))) := by
  have hmain : (searchHistory (jsToLowerCase platform) self query).map
        (fun result => (result.conversationId, result.conversationTitle, result.message)) =
      self.getHistory.flatMap (fun conversation =>
        (conversation.messages.filter
          (fun message => decide ((jsToLowerCase platform query).data <:+:
            (jsToLowerCase platform message.content).data))).map
          (fun message => (conversation.id, conversation.title, message))) := by
    rw [searchHistory_eq, List.map_flatMap]
    congr 1
    funext conversation
    rw [List.map_map]
    rfl
  refine ⟨hmain, fun hq hall => ?_⟩
  rw [hmain]
  apply List.flatMap_congr
  intro conversation hconv
  congr 1
  apply List.filter_congr
  intro message hmessage
  rw [jsToLowerCase_ascii platform query hq,
    jsToLowerCase_ascii platform message.content (hall conversation hconv message hmessage)]
  rfl

set_option maxRecDepth 100000 in
/-- Witness of the amended C23: the query `NEEDLE` on `sampleRepeated`, whose fourth
message is `Needle`. -/
theorem searchHistory_results_witness :
    (isAsciiText "NEEDLE" = true ∧
      ∀ conversation ∈ sampleRepeated.getHistory, ∀ message ∈ conversation.messages,
        isAsciiText message.content = true) ∧
      (searchHistory (jsToLowerCase id) sampleRepeated "NEEDLE").map
          (fun result => (result.conversationId, result.conversationTitle, result.message)) =
        sampleRepeated.getHistory.flatMap (fun conversation =>
          (conversation.messages.filter
            (fun message => containsIgnoringCase message.content "NEEDLE")).map
            (fun message => (conversation.id, conversation.title, message))) ∧
      (searchHistory (jsToLowerCase id) sampleRepeated "NEEDLE").map
          (fun result => result.message.content) = ["Needle"] :=
  ⟨by decide,
    (searchHistory_results id sampleRepeated "NEEDLE").2 (by decide) (by decide),
    by decide⟩

end ChatHistory

namespace ChatHistory

set_option maxRecDepth 100000 in
/-- C24, as stated, fails: in `sampleRepeated` the fourth message of the conversation
has the id of the first one. A search for `needle` hits the fourth message, and the
context of the hit is the first three messages: it is taken around the first message
with that id and does not hold the hit. -/
theorem getMessageContext_counterexample :
    sampleRepeated.getHistory.map
        (fun conv => conv.messages.map (fun message => (message.id, message.content))) =
        [[("m", "alpha"), ("msg_2_q", "beta"), ("msg_3_r", "gamma"), ("m", "Needle")]] ∧
      (searchHistory sampleLower sampleRepeated "needle").map
        (fun result => (result.message.content,
          result.context.map (fun message => message.content))) =
        [("Needle", ["alpha", "beta", "gamma"])] ∧
      (∀ result ∈ searchHistory sampleLower sampleRepeated "needle",
        result.message ∉ result.context) := by
  decide

theorem findIdx?_of_first (messages : List Message) (i : Nat) (hit : Message)
    (hi : messages[i]? = some hit)
    (hfirst : ∀ j earlier, j < i → messages[j]? = some earlier → earlier.id ≠ hit.id) :
    messages.findIdx? (fun msg => msg.id == hit.id) = some i := by
  obtain ⟨hlt, hget⟩ := List.getElem?_eq_some_iff.1 hi
  rw [List.findIdx?_eq_some_iff_getElem]
  refine ⟨hlt, by simp [hget], ?_⟩
  intro j hj
  have hjlt : j < messages.length := Nat.lt_trans hj hlt
  have := hfirst j messages[j] hj (List.getElem?_eq_getElem hjlt)
  simpa using this

/-- C24 amended: for a hit at position `i` of a conversation with `n` messages such
that no message before position `i` has the id of the hit, the context is exactly
the messages at positions `max(0, i-2) .. min(n-1, i+2)`, in order; it holds the hit
and has at most 5 messages. The context of every search result is taken by
`getMessageContext` from the messages of its conversation and the id of the hit. -/
theorem getMessageContext_centred (messages : List Message) (i : Nat) (hit : Message)
    (hi : messages[i]? = some hit)
    (hfirst : ∀ j earlier, j < i → messages[j]? = some earlier → earlier.id ≠ hit.id) :
    getMessageContext messages hit.id 2 =
        (messages.take (min messages.length (i + 3))).drop (i - 2) ∧
      (∀ k, (getMessageContext messages hit.id 2)[k]? =
        if i - 2 + k ≤ i + 2 then messages[i - 2 + k]? else none) ∧
      hit ∈ getMessageContext messages hit.id 2 ∧
      (getMessageContext messages hit.id 2).length ≤ 5 ∧
      ∀ (toLowerCase : String → String) (self : ChatHistory) (query : String),
        ∀ result ∈ searchHistory toLowerCase self query,
          ∃ conversation ∈ self.getHistory,
            result.message ∈ conversation.messages ∧
              result.context = getMessageContext conversation.messages result.message.id 2 := by
  obtain ⟨hlt, hget⟩ := List.getElem?_eq_some_iff.1 hi
  have hctx : getMessageContext messages hit.id 2 =
      (messages.take (min messages.length (i + 3))).drop (i - 2) := by
    unfold getMessageContext
    rw [findIdx?_of_first messages i hit hi hfirst]
  have hk : ∀ k, (getMessageContext messages hit.id 2)[k]? =
      if i - 2 + k ≤ i + 2 then messages[i - 2 + k]? else none := by
    intro k
    rw [hctx, List.getElem?_drop, List.getElem?_take]
    by_cases h1 : i - 2 + k ≤ i + 2
    · rw [if_pos h1]
      by_cases h2 : i - 2 + k < messages.length
      · rw [if_pos (by omega)]
      · rw [if_neg (by omega)]
        exact (List.getElem?_eq_none (by omega)).symm
    · rw [if_neg h1, if_neg (by omega)]
  refine ⟨hctx, hk, ?_, ?_, ?_⟩
  · rw [List.mem_iff_getElem?]
    refine ⟨i - (i - 2), ?_⟩
    rw [hk, if_pos (by omega)]
    have : i - 2 + (i - (i - 2)) = i := by omega
    rw [this]; exact hi
  · rw [hctx, List.length_drop, List.length_take]
    omega
  · intro toLowerCase self query result hresult
    rw [searchHistory_eq, List.mem_flatMap] at hresult
    obtain ⟨conversation, hconv, hmem⟩ := hresult
    rw [List.mem_map] at hmem
    obtain ⟨message, hmessage, rfl⟩ := hmem
    exact ⟨conversation, hconv, (List.mem_filter.1 hmessage).1, rfl⟩

set_option maxRecDepth 100000 in
/-- Witness of the amended C24: the third message of the conversation of
`sampleRepeated`. -/
theorem getMessageContext_centred_witness :
    (sampleRepeated.getCurrentConversationMessages[2]? =
        some { id := "msg_3_r", role := "user", content := "gamma", timestamp := 3,
               conversationId := "a", extra := [] }) ∧
      (getMessageContext sampleRepeated.getCurrentConversationMessages "msg_3_r" 2).length ≤ 5 :=
  ⟨by decide,
    (getMessageContext_centred sampleRepeated.getCurrentConversationMessages 2
      { id := "msg_3_r", role := "user", content := "gamma", timestamp := 3,
        conversationId := "a", extra := [] } (by decide)
      (by
        intro j earlier hj hget
        have hcases : j = 0 ∨ j = 1 := by omega
        rcases hcases with rfl | rfl
        · have h0 : sampleRepeated.getCurrentConversationMessages[0]? =
              some { id := "m", role := "user", content := "alpha", timestamp := 1,
                     conversationId := "a", extra := [] } := by decide
          rw [h0] at hget
          simp only [Option.some.injEq] at hget
          subst hget
          decide
        · have h1 : sampleRepeated.getCurrentConversationMessages[1]? =
              some { id := "msg_2_q", role := "assistant", content := "beta", timestamp := 2,
                     conversationId := "a", extra := [] } := by decide
          rw [h1] at hget
          simp only [Option.some.injEq] at hget
          subst hget
          decide)).2.2.2.1⟩

end ChatHistory

namespace ChatHistory

/-- C28 at its failing input: the conversation of `sampleOld` was last updated at the
very instant of the cutoff, 30 days before the call to the millisecond, so it is not
older than 30 days; `autoCleanup(30)` removes it and returns 1, where the comment on
the call says that conversations older than 30 days are cleaned. One millisecond
earlier on the clock it is kept. With `daysToKeep` so large that the cutoff is an
Invalid Date, a conversation updated at the instant of the call is removed too. -/
theorem autoCleanup_boundary :
    (sampleOld.getHistory.map (fun conv => conv.updatedAt) = [5] ∧
      cutoffDate (30 * 86400000 + 5) 30 0 = some 5 ∧ ¬ ((5 : Int) < 5)) ∧
      autoCleanup sampleOld 30 (30 * 86400000 + 5) 0 true =
        (1, { currentConversationId := "c", storage := some [] }) ∧
      autoCleanup sampleOld 30 (30 * 86400000 + 4) 0 true = (0, sampleOld) ∧
      cutoffDate 5 200000000 0 = none ∧
      autoCleanup sampleOld 200000000 5 0 true =
        (1, { currentConversationId := "c", storage := some [] }) := by
  decide

/-- What `autoCleanup` does in general: it removes exactly the conversations that the
test `new Date(conv.updatedAt) > cutoffDate` fails (with a valid cutoff those whose
`updatedAt` is not later than the cutoff, the instant of the cutoff included; with
an Invalid Date all of them), keeps the others in their order when the write
succeeds, and returns the number of conversations removed; when that number is 0
the state is untouched. -/
theorem autoCleanup_spec (self : ChatHistory) (daysToKeep now offsetShift : Int)
    (setItemOk : Bool) (hok : setItemOk = true) :
    (autoCleanup self daysToKeep now offsetShift setItemOk).2.getHistory =
        self.getHistory.filter
          (fun conv => laterThan conv.updatedAt (cutoffDate now daysToKeep offsetShift)) ∧
      (autoCleanup self daysToKeep now offsetShift setItemOk).1 =
        (self.getHistory.filter
          (fun conv => !laterThan conv.updatedAt (cutoffDate now daysToKeep offsetShift))).length ∧
      ((autoCleanup self daysToKeep now offsetShift setItemOk).1 = 0 →
        (autoCleanup self daysToKeep now offsetShift setItemOk).2 = self) ∧
      (autoCleanup self daysToKeep now offsetShift setItemOk).2.currentConversationId =
        self.currentConversationId ∧
      (∀ cutoff updatedAt, laterThan updatedAt (some cutoff) = decide (cutoff < updatedAt)) ∧
      (∀ updatedAt, laterThan updatedAt none = false) := by
  subst hok
  have hsplit := List.length_eq_length_filter_add (l := self.getHistory)
    (fun conv => laterThan conv.updatedAt (cutoffDate now daysToKeep offsetShift))
  unfold autoCleanup
  simp only
  split
  · rename_i hlt
    refine ⟨rfl, by simp only; omega, ?_, rfl, fun _ _ => rfl, fun _ => rfl⟩
    intro h0
    simp only at h0
    omega
  · rename_i hge
    have hle := List.length_filter_le
      (fun conv => laterThan conv.updatedAt (cutoffDate now daysToKeep offsetShift))
      self.getHistory
    have heq : (self.getHistory.filter
        (fun conv => laterThan conv.updatedAt (cutoffDate now daysToKeep offsetShift))).length =
        self.getHistory.length := by omega
    refine ⟨?_, by simp only; omega, fun _ => rfl, rfl, fun _ _ => rfl, fun _ => rfl⟩
    exact (List.filter_eq_self.2 (List.filter_length_eq_length.1 heq)).symm

end ChatHistory

/-! ## Message validation: the patterns -/

theorem mem_eraseDups_loop {α : Type} [BEq α] [LawfulBEq α] (x : α) :
    ∀ (as bs : List α), x ∈ List.eraseDups.loop as bs ↔ x ∈ as ∨ x ∈ bs
  | [], bs => by simp [List.eraseDups.loop]
  | a :: as, bs => by
    rw [List.eraseDups.loop]
    cases h : bs.elem a
    · simp only [mem_eraseDups_loop x as (a :: bs), List.mem_cons]
      tauto
    · simp only [mem_eraseDups_loop x as bs, List.mem_cons]
      have ha : a ∈ bs := by simpa using h
      constructor
      · tauto
      · rintro ((rfl | h1) | h2)
        · exact Or.inr ha
        · exact Or.inl h1
        · exact Or.inr h2

theorem mem_eraseDups {α : Type} [BEq α] [LawfulBEq α] (x : α) (as : List α) :
    x ∈ as.eraseDups ↔ x ∈ as := by
  simp [List.eraseDups, mem_eraseDups_loop]

theorem nodup_eraseDups_loop {α : Type} [BEq α] [LawfulBEq α] :
    ∀ (as bs : List α), bs.Nodup → (List.eraseDups.loop as bs).Nodup
  | [], bs, h => by simpa [List.eraseDups.loop] using h
  | a :: as, bs, h => by
    rw [List.eraseDups.loop]
    cases h1 : bs.elem a
    · have ha : a ∉ bs := by simpa using h1
      exact nodup_eraseDups_loop as (a :: bs) (List.nodup_cons.2 ⟨ha, h⟩)
    · exact nodup_eraseDups_loop as bs h

theorem nodup_eraseDups {α : Type} [BEq α] [LawfulBEq α] (as : List α) :
    as.eraseDups.Nodup :=
  nodup_eraseDups_loop as [] List.nodup_nil

theorem length_le_of_nodup_of_le {l : List Nat} {n : Nat} (hd : l.Nodup)
    (hb : ∀ a ∈ l, a ≤ n) : l.length ≤ n + 1 := by
  have hsub : l ⊆ List.range (n + 1) := fun a ha =>
    List.mem_range.2 (Nat.lt_succ_of_le (hb a ha))
  simpa using (hd.subperm hsub).length_le

namespace Regex

/-- With fuel for every position up to `n`, `closure` keeps what it has seen, is
closed under `step` and stays within `n`. -/
theorem closure_spec (step : Nat → List Nat) (n : Nat)
    (hstep : ∀ a, a ≤ n → ∀ b ∈ step a, b ≤ n) :
    ∀ (fuel : Nat) (frontier seen : List Nat), seen.Nodup → (∀ a ∈ seen, a ≤ n) →
      (∀ a ∈ frontier, a ∈ seen) →
      (∀ a ∈ seen, a ∉ frontier → ∀ b ∈ step a, b ∈ seen) →
      n + 2 ≤ fuel + seen.length →
      (∀ a ∈ seen, a ∈ closure step fuel frontier seen) ∧
      (∀ a ∈ closure step fuel frontier seen, ∀ b ∈ step a,
        b ∈ closure step fuel frontier seen) ∧
      (∀ a ∈ closure step fuel frontier seen, a ≤ n)
  | 0, frontier, seen, hd, hb, _, _, hfuel => by
    have := length_le_of_nodup_of_le hd hb
    omega
  | fuel + 1, frontier, seen, hd, hb, hfs, hclosed, hfuel => by
    rw [closure]
    have hnext : ∀ q, q ∈ ((frontier.flatMap step).filter
        (fun q => !seen.contains q)).eraseDups ↔
        (∃ a ∈ frontier, q ∈ step a) ∧ q ∉ seen := by
      intro q
      simp [mem_eraseDups, List.mem_filter, List.mem_flatMap]
    have hnodup := nodup_eraseDups ((frontier.flatMap step).filter
        (fun q => !seen.contains q))
    generalize ((frontier.flatMap step).filter
        (fun q => !seen.contains q)).eraseDups = next at hnext hnodup
    by_cases he : next.isEmpty = true
    · simp only [he, if_true]
      have hnil : next = [] := List.isEmpty_iff.1 he
      refine ⟨fun a ha => ha, ?_, hb⟩
      intro a ha b hbm
      by_cases haf : a ∈ frontier
      · by_contra hbs
        have : b ∈ next := (hnext b).2 ⟨⟨a, haf, hbm⟩, hbs⟩
        simp [hnil] at this
      · exact hclosed a ha haf b hbm
    · simp only [he]
      have hne : next ≠ [] := fun h => he (List.isEmpty_iff.2 h)
      have hlen : 0 < next.length := List.length_pos.2 hne
      have hd2 : (seen ++ next).Nodup :=
        List.nodup_append.2 ⟨hd, hnodup, fun a ha hn => ((hnext a).1 hn).2 ha⟩
      have hb2 : ∀ a ∈ seen ++ next, a ≤ n := by
        intro a ha
        rcases List.mem_append.1 ha with h | h
        · exact hb a h
        · obtain ⟨⟨c, hc, hac⟩, _⟩ := (hnext a).1 h
          exact hstep c (hb c (hfs c hc)) a hac
      have hfs2 : ∀ a ∈ next, a ∈ seen ++ next := fun a ha =>
        List.mem_append.2 (Or.inr ha)
      have hclosed2 : ∀ a ∈ seen ++ next, a ∉ next → ∀ b ∈ step a, b ∈ seen ++ next := by
        intro a ha han b hbm
        rcases List.mem_append.1 ha with h | h
        · by_cases haf : a ∈ frontier
          · by_cases hbs : b ∈ seen
            · exact List.mem_append.2 (Or.inl hbs)
            · exact List.mem_append.2 (Or.inr ((hnext b).2 ⟨⟨a, haf, hbm⟩, hbs⟩))
          · exact List.mem_append.2 (Or.inl (hclosed a h haf b hbm))
        · exact absurd h han
      have hfuel2 : n + 2 ≤ fuel + (seen ++ next).length := by
        rw [List.length_append]
        omega
      obtain ⟨h1, h2, h3⟩ :=
        closure_spec step n hstep fuel next (seen ++ next) hd2 hb2 hfs2 hclosed2 hfuel2
      exact ⟨fun a ha => h1 a (List.mem_append.2 (Or.inl ha)), h2, h3⟩

end Regex

namespace Regex

theorem mem_ends_seq (input : List Char) (r s : Regex) (p q : Nat) :
    q ∈ ends input (.seq r s) p ↔ ∃ m ∈ ends input r p, q ∈ ends input s m := by
  simp [ends, mem_eraseDups, List.mem_flatMap]

theorem mem_ends_char (input : List Char) (c : Char) (p q : Nat) :
    q ∈ ends input (.char c) p ↔
      ∃ x, input[p]? = some x ∧ x.toUpper = c.toUpper ∧ q = p + 1 := by
  rw [ends]
  cases h : input[p]? with
  | none => simp
  | some x =>
    by_cases hx : x.toUpper = c.toUpper
    · simp [hx]
    · simp [hx]

theorem mem_ends_notChar (input : List Char) (c : Char) (p q : Nat) :
    q ∈ ends input (.notChar c) p ↔
      ∃ x, input[p]? = some x ∧ x.toUpper ≠ c.toUpper ∧ q = p + 1 := by
  rw [ends]
  cases h : input[p]? with
  | none => simp
  | some x =>
    by_cases hx : x.toUpper = c.toUpper
    · simp [hx]
    · simp [hx]

theorem mem_ends_word (input : List Char) (p q : Nat) :
    q ∈ ends input .word p ↔
      ∃ x, input[p]? = some x ∧ isWordChar x = true ∧ q = p + 1 := by
  rw [ends]
  cases h : input[p]? with
  | none => simp
  | some x =>
    cases hx : isWordChar x
    · simp
    · simp

theorem mem_ends_space (input : List Char) (p q : Nat) :
    q ∈ ends input .space p ↔
      ∃ x, input[p]? = some x ∧ isJsWhitespace x = true ∧ q = p + 1 := by
  rw [ends]
  cases h : input[p]? with
  | none => simp
  | some x =>
    cases hx : isJsWhitespace x
    · simp
    · simp

theorem succ_le_of_getElem? {input : List Char} {p : Nat} {x : Char}
    (h : input[p]? = some x) : p + 1 ≤ input.length := by
  obtain ⟨hlt, _⟩ := List.getElem?_eq_some_iff.1 h
  exact hlt

/-- A match that starts within the input ends within the input. -/
theorem ends_le (input : List Char) :
    ∀ (r : Regex) (p : Nat), p ≤ input.length → ∀ q ∈ ends input r p, q ≤ input.length
  | .empty, p, hp, q, hq => by
    simp [ends] at hq
    omega
  | .char c, p, _, q, hq => by
    obtain ⟨x, hx, _, rfl⟩ := (mem_ends_char input c p q).1 hq
    exact succ_le_of_getElem? hx
  | .notChar c, p, _, q, hq => by
    obtain ⟨x, hx, _, rfl⟩ := (mem_ends_notChar input c p q).1 hq
    exact succ_le_of_getElem? hx
  | .word, p, _, q, hq => by
    obtain ⟨x, hx, _, rfl⟩ := (mem_ends_word input p q).1 hq
    exact succ_le_of_getElem? hx
  | .space, p, _, q, hq => by
    obtain ⟨x, hx, _, rfl⟩ := (mem_ends_space input p q).1 hq
    exact succ_le_of_getElem? hx
  | .boundary, p, hp, q, hq => by
    rw [ends] at hq
    split at hq
    · simp at hq
      omega
    · simp at hq
  | .seq r s, p, hp, q, hq => by
    obtain ⟨m, hm, hq2⟩ := (mem_ends_seq input r s p q).1 hq
    exact ends_le input s m (ends_le input r p hp m hm) q hq2
  | .star r, p, hp, q, hq => by
    rw [ends] at hq
    exact (closure_spec (fun a => ends input r a) input.length
      (fun a ha b hb => ends_le input r a ha b hb) (input.length + 1) [p] [p]
      (List.nodup_singleton p) (by simpa using hp) (fun a ha => ha)
      (fun a ha hn => absurd ha hn) (by simp)).2.2 q hq
  | .notAhead r, p, hp, q, hq => by
    rw [ends] at hq
    split at hq
    · simp at hq
      omega
    · simp at hq

theorem star_spec (input : List Char) (r : Regex) (p : Nat) (hp : p ≤ input.length) :
    p ∈ ends input (.star r) p ∧
      ∀ a ∈ ends input (.star r) p, ∀ b ∈ ends input r a, b ∈ ends input (.star r) p := by
  have h := closure_spec (fun a => ends input r a) input.length
    (fun a ha b hb => ends_le input r a ha b hb) (input.length + 1) [p] [p]
    (List.nodup_singleton p) (by simpa using hp) (fun a ha => ha)
    (fun a ha hn => absurd ha hn) (by simp)
  rw [ends]
  exact ⟨h.1 p (List.mem_singleton_self p), h.2.1⟩

/-- A run of positions, each of which `r` takes one further, is matched by `r*`. -/
theorem mem_ends_star_run (input : List Char) (r : Regex) (p : Nat)
    (hp : p ≤ input.length) :
    ∀ (d : Nat), (∀ t, p ≤ t → t < p + d → t + 1 ∈ ends input r t) →
      p + d ∈ ends input (.star r) p
  | 0, _ => (star_spec input r p hp).1
  | d + 1, h =>
    (star_spec input r p hp).2 (p + d)
      (mem_ends_star_run input r p hp d (fun t h1 h2 => h t h1 (by omega)))
      (p + d + 1) (h (p + d) (by omega) (by omega))

end Regex


namespace Regex

theorem mem_ends_chars (input : List Char) :
    ∀ (cs : List Char) (p q : Nat),
      q ∈ ends input (cs.foldr (fun c r => Regex.seq (.char c) r) .empty) p ↔
        ((input.drop p).take cs.length).map Char.toUpper = cs.map Char.toUpper ∧
          q = p + cs.length
  | [], p, q => by simp [ends]
  | c :: cs, p, q => by
    rw [List.foldr_cons, mem_ends_seq]
    simp only [mem_ends_char, mem_ends_chars input cs]
    cases h : input[p]? with
    | none =>
      have hlen : input.length ≤ p := List.getElem?_eq_none_iff.1 h
      simp [List.drop_eq_nil_of_le hlen]
    | some x =>
      obtain ⟨hlt, hx⟩ := List.getElem?_eq_some_iff.1 h
      rw [List.drop_eq_getElem_cons hlt, hx]
      simp only [List.length_cons, List.take_succ_cons, List.map_cons, List.cons.injEq,
        Option.some.injEq]
      constructor
      · rintro ⟨m, ⟨y, rfl, hy, rfl⟩, h1, rfl⟩
        exact ⟨⟨hy, h1⟩, by omega⟩
      · rintro ⟨⟨hy, h1⟩, rfl⟩
        exact ⟨p + 1, ⟨x, rfl, hy, rfl⟩, h1, by omega⟩

theorem mem_ends_text (input : List Char) (word : String) (p q : Nat) :
    q ∈ ends input (text word) p ↔ occursAt word input p ∧ q = p + word.length :=
  mem_ends_chars input word.data p q

theorem test_of_mem_ends {r : Regex} {s : String} {p q : Nat} (hp : p ≤ s.length)
    (hq : q ∈ ends s.data r p) : r.test s = true := by
  rw [test, List.any_eq_true]
  refine ⟨p, List.mem_range.2 (by omega), ?_⟩
  cases h : ends s.data r p with
  | nil => simp [h] at hq
  | cons a l => rfl

end Regex

theorem getElem?_of_occursAt {word : String} {input : List Char} {i : Nat}
    (h : occursAt word input i) (k : Nat) (c : Char) (hk : word.data[k]? = some c) :
    ∃ x, input[i + k]? = some x ∧ x.toUpper = c.toUpper := by
  have h1 := congrArg (fun l => l[k]?) h
  simp only [List.getElem?_map, List.getElem?_take, List.getElem?_drop, hk] at h1
  obtain ⟨hlt, _⟩ := List.getElem?_eq_some_iff.1 hk
  have hlt2 : k < word.length := hlt
  simp only [hlt2, if_true, Option.map_some'] at h1
  cases hx : input[i + k]? with
  | none => simp [hx] at h1
  | some x =>
    simp only [hx, Option.map_some', Option.some.injEq] at h1
    exact ⟨x, rfl, h1⟩

theorem isWordChar_of_toUpper (x : Char) (h : x.toUpper.isUpper = true) :
    isWordChar x = true := by
  unfold Char.toUpper at h
  simp only at h
  split at h
  · rename_i hr
    have : x.isLower = true := by
      simp only [Char.isLower, Bool.and_eq_true, decide_eq_true_eq]
      exact hr
    simp [isWordChar, Char.isAlphanum, Char.isAlpha, this]
  · simp [isWordChar, Char.isAlphanum, Char.isAlpha, h]

namespace ChatAPI

theorem javascriptPattern_test (message : String) (h : mentionsJavascript message) :
    javascriptPattern.test message = true := by
  obtain ⟨i, hi⟩ := h
  obtain ⟨x, hx, _⟩ := getElem?_of_occursAt hi 0 'j' rfl
  have hlt := Regex.succ_le_of_getElem? hx
  exact Regex.test_of_mem_ends (p := i) (by show i ≤ message.data.length; omega)
    ((Regex.mem_ends_text message.data "javascript:" i _).2 ⟨hi, rfl⟩)

theorem handlerPattern_test (message : String) (h : hasHandler message) :
    handlerPattern.test message = true := by
  obtain ⟨i, k, j, hon, hik, hkj, hword, hspace, heq⟩ := h
  have hj := Regex.succ_le_of_getElem? heq
  have h1 : i + 2 ∈ Regex.ends message.data (Regex.text "on") i :=
    (Regex.mem_ends_text message.data "on" i _).2 ⟨hon, rfl⟩
  have h2 : i + 3 ∈ Regex.ends message.data .word (i + 2) := by
    obtain ⟨x, hx, hw⟩ := hword (i + 2) (by omega) hik
    exact (Regex.mem_ends_word _ _ _).2 ⟨x, hx, hw, rfl⟩
  have h3 : k ∈ Regex.ends message.data (.star .word) (i + 3) := by
    have := Regex.mem_ends_star_run message.data .word (i + 3) (by omega) (k - (i + 3))
      (fun t ht1 ht2 => by
        obtain ⟨x, hx, hw⟩ := hword t (by omega) (by omega)
        exact (Regex.mem_ends_word _ _ _).2 ⟨x, hx, hw, rfl⟩)
    have e : i + 3 + (k - (i + 3)) = k := by omega
    rwa [e] at this
  have h4 : j ∈ Regex.ends message.data (.star .space) k := by
    have := Regex.mem_ends_star_run message.data .space k (by omega) (j - k)
      (fun t ht1 ht2 => by
        obtain ⟨x, hx, hw⟩ := hspace t ht1 (by omega)
        exact (Regex.mem_ends_space _ _ _).2 ⟨x, hx, hw, rfl⟩)
    have e : k + (j - k) = j := by omega
    rwa [e] at this
  have h5 : j + 1 ∈ Regex.ends message.data (.char '=') j :=
    (Regex.mem_ends_char _ _ _ _).2 ⟨'=', heq, rfl, rfl⟩
  refine Regex.test_of_mem_ends (p := i) (q := j + 1)
    (by show i ≤ message.data.length; omega) ?_
  unfold handlerPattern
  exact (Regex.mem_ends_seq _ _ _ _ _).2 ⟨i + 2, h1, (Regex.mem_ends_seq _ _ _ _ _).2
    ⟨i + 3, h2, (Regex.mem_ends_seq _ _ _ _ _).2 ⟨k, h3, (Regex.mem_ends_seq _ _ _ _ _).2
      ⟨j, h4, h5⟩⟩⟩⟩

end ChatAPI


/-- Below a position that satisfies `P` there is a last one that does. -/
theorem exists_last_below (P : Nat → Prop) (a : Nat) :
    ∀ (b : Nat), (∃ t, a ≤ t ∧ t < b ∧ P t) →
      ∃ c, a ≤ c ∧ c < b ∧ P c ∧ ∀ t, c < t → t < b → ¬ P t
  | 0, h => by
    obtain ⟨t, _, h2, _⟩ := h
    omega
  | b + 1, h => by
    by_cases hb : a ≤ b ∧ P b
    · exact ⟨b, hb.1, by omega, hb.2, fun t h1 h2 => by omega⟩
    · obtain ⟨t, h1, h2, h3⟩ := h
      have htb : t ≠ b := fun e => hb ⟨e ▸ h1, e ▸ h3⟩
      obtain ⟨c, hc1, hc2, hc3, hc4⟩ := exists_last_below P a b ⟨t, h1, by omega, h3⟩
      refine ⟨c, hc1, by omega, hc3, fun u hu1 hu2 => ?_⟩
      by_cases hub : u = b
      · subst hub
        exact fun hp => hb ⟨by omega, hp⟩
      · exact hc4 u hu1 (by omega)

/-- From a position that satisfies `Q` on, there is a first one that does. -/
theorem exists_first_from (Q : Nat → Prop) (a : Nat) :
    ∀ (d : Nat), Q (a + d) →
      ∃ j, a ≤ j ∧ Q j ∧ ∀ t, a ≤ t → t < j → ¬ Q t
  | 0, h => ⟨a, Nat.le_refl a, h, fun t h1 h2 => by omega⟩
  | d + 1, h => by
    by_cases hq : ∃ t, a ≤ t ∧ t < a + (d + 1) ∧ Q t
    · obtain ⟨t, h1, h2, h3⟩ := hq
      have e : a + (t - a) = t := by omega
      have hlt : t - a < d + 1 := by omega
      exact exists_first_from Q a (t - a) (by rw [e]; exact h3)
    · exact ⟨a + (d + 1), by omega, h, fun t h1 h2 hqt => hq ⟨t, h1, h2, hqt⟩⟩
termination_by d => d

namespace ChatAPI

theorem notOpen_run (input : List Char) (p b : Nat) (hpb : p ≤ b)
    (hb : b ≤ input.length)
    (h : ∀ t, p ≤ t → t < b → ¬ ∃ x, input[t]? = some x ∧ x.toUpper = '<'.toUpper) :
    b ∈ Regex.ends input (.star (.notChar '<')) p := by
  have := Regex.mem_ends_star_run input (.notChar '<') p (by omega) (b - p)
    (fun t ht1 ht2 => by
      have hlt : t < input.length := by omega
      refine (Regex.mem_ends_notChar _ _ _ _).2 ⟨input[t], List.getElem?_eq_getElem hlt,
        fun hx => h t ht1 (by omega) ⟨input[t], List.getElem?_eq_getElem hlt, hx⟩, rfl⟩)
  have e : p + (b - p) = b := by omega
  rwa [e] at this

/-- The part `[^<]*(?:(?!<\/script>)<[^<]*)*` of the script pattern reaches every
position before which the closing tag does not occur. -/
theorem scriptBody_reaches (input : List Char) (a : Nat) (ha : a ≤ input.length) :
    ∀ (n b : Nat), b ≤ n → a ≤ b → b ≤ input.length →
      (∀ t, a ≤ t → t < b → ¬ occursAt "</script>" input t) →
      ∃ m ∈ Regex.ends input (.star (.notChar '<')) a,
        b ∈ Regex.ends input (.star (.seq (.notAhead (Regex.text "</script>"))
          (.seq (.char '<') (.star (.notChar '<'))))) m
  | 0, b, hn, hab, _, _ => by
    have e : b = a := by omega
    subst e
    exact ⟨b, (Regex.star_spec input _ b ha).1, (Regex.star_spec input _ b ha).1⟩
  | n + 1, b, hn, hab, hb, hclose => by
    by_cases hlt : ∃ t, a ≤ t ∧ t < b ∧ ∃ x, input[t]? = some x ∧ x.toUpper = '<'.toUpper
    · obtain ⟨c, hc1, hc2, ⟨x, hx, hxu⟩, hc4⟩ := exists_last_below _ a b hlt
      obtain ⟨m, hm1, hm2⟩ := scriptBody_reaches input a ha n c (by omega) hc1 (by omega)
        (fun t h1 h2 => hclose t h1 (by omega))
      have hm : m ≤ input.length := Regex.ends_le input _ a ha m hm1
      have hg1 : c ∈ Regex.ends input (.notAhead (Regex.text "</script>")) c := by
        have hempty : Regex.ends input (Regex.text "</script>") c = [] := by
          apply List.eq_nil_iff_forall_not_mem.2
          intro q hq
          exact hclose c hc1 hc2 ((Regex.mem_ends_text _ _ _ _).1 hq).1
        rw [Regex.ends, hempty]
        simp
      have hg2 : c + 1 ∈ Regex.ends input (.char '<') c :=
        (Regex.mem_ends_char _ _ _ _).2 ⟨x, hx, hxu, rfl⟩
      have hg3 : b ∈ Regex.ends input (.star (.notChar '<')) (c + 1) :=
        notOpen_run input (c + 1) b (by omega) hb (fun t h1 h2 => hc4 t (by omega) h2)
      have hg : b ∈ Regex.ends input (.seq (.notAhead (Regex.text "</script>"))
          (.seq (.char '<') (.star (.notChar '<')))) c :=
        (Regex.mem_ends_seq _ _ _ _ _).2 ⟨c, hg1, (Regex.mem_ends_seq _ _ _ _ _).2
          ⟨c + 1, hg2, hg3⟩⟩
      exact ⟨m, hm1, (Regex.star_spec input _ m hm).2 c hm2 b hg⟩
    · exact ⟨b, notOpen_run input a b hab hb
        (fun t h1 h2 hx => hlt ⟨t, h1, h2, hx⟩), (Regex.star_spec input _ b hb).1⟩

theorem scriptPattern_test (message : String) (h : hasScriptElement message) :
    scriptPattern.test message = true := by
  obtain ⟨i, j, x, hopen, hx, hxw, hij, hclose⟩ := h
  have e : i + 7 + (j - (i + 7)) = j := by omega
  obtain ⟨j0, hj1, hj2, hj3⟩ := exists_first_from
    (fun t => occursAt "</script>" message.data t) (i + 7) (j - (i + 7)) (by rw [e]; exact hclose)
  obtain ⟨y, hy, _⟩ := getElem?_of_occursAt hj2 0 '<' rfl
  have hj0 := Regex.succ_le_of_getElem? hy
  have hi7 := Regex.succ_le_of_getElem? hx
  have h1 : i + 7 ∈ Regex.ends message.data (Regex.text "<script") i :=
    (Regex.mem_ends_text message.data "<script" i _).2 ⟨hopen, rfl⟩
  have h2 : i + 7 ∈ Regex.ends message.data .boundary (i + 7) := by
    obtain ⟨z, hz, hzu⟩ := getElem?_of_occursAt hopen 6 't' rfl
    have hzw : isWordChar z = true :=
      isWordChar_of_toUpper z (by rw [hzu]; decide)
    have e6 : i + 7 - 1 = i + 6 := by omega
    simp [Regex.ends, e6, hz, hx, hzw, hxw]
  obtain ⟨m, h3, h4⟩ := scriptBody_reaches message.data (i + 7) (by omega) j0 j0
    (Nat.le_refl j0) hj1 (by omega) hj3
  have h5 : j0 + 9 ∈ Regex.ends message.data (Regex.text "</script>") j0 :=
    (Regex.mem_ends_text message.data "</script>" j0 _).2 ⟨hj2, rfl⟩
  refine Regex.test_of_mem_ends (p := i) (q := j0 + 9)
    (by show i ≤ message.data.length; omega) ?_
  unfold scriptPattern
  exact (Regex.mem_ends_seq _ _ _ _ _).2 ⟨i + 7, h1, (Regex.mem_ends_seq _ _ _ _ _).2
    ⟨i + 7, h2, (Regex.mem_ends_seq _ _ _ _ _).2 ⟨m, h3, (Regex.mem_ends_seq _ _ _ _ _).2
      ⟨j0, h4, h5⟩⟩⟩⟩

end ChatAPI

theorem jsTrim_of_whitespaceOnly (message : String) (h : whitespaceOnly message) :
    (jsTrim message).length = 0 := by
  have hnil : message.data.dropWhile isJsWhitespace = [] :=
    List.dropWhile_eq_nil_iff.2 h
  simp [jsTrim, hnil, String.length]

namespace ChatAPI

theorem validateMessage_error (message : String)
    (h : (validateMessage message).valid = false) :
    (validateMessage message).error ≠ none := by
  unfold validateMessage at h ⊢
  split
  · simp
  · split
    · simp
    · split
      · simp
      · split
        · simp
        · rename_i h1 h2 h3 h4
          simp [h1, h2, h3, h4] at h

/-- C29: `validateMessage` returns `valid` true only for a message that is not empty
and not white space only, has at most 500 UTF-16 code units, has no case-insensitive
occurrence of `javascript:`, no script element from `<script` to `</script>`, and
no `on` followed by word characters, optional white space and `=`; for every other
message it returns `valid` false with an error that is not null. -/
theorem validateMessage_spec (message : String) :
    ((validateMessage message).valid = true → acceptable message) ∧
      (¬ acceptable message →
        (validateMessage message).valid = false ∧
          (validateMessage message).error ≠ none) := by
  have hvalid : (validateMessage message).valid = true → acceptable message := by
    intro h
    unfold validateMessage at h
    split at h
    · simp at h
    · split at h
      · simp at h
      · split at h
        · simp at h
        · split at h
          · simp at h
          · rename_i h1 h2 h3 h4
            have hpat : ∀ pattern ∈ harmfulPatterns, pattern.test message = false := by
              intro pattern hp
              cases ht : pattern.test message
              · rfl
              · exact absurd (List.any_eq_true.2 ⟨pattern, hp, ht⟩) h4
            refine ⟨?_, ?_, ?_, ?_, ?_, ?_⟩
            · intro e
              exact h1 (by simp [e])
            · intro hw
              exact h2 (by simp [jsTrim_of_whitespaceOnly message hw])
            · exact Nat.le_of_not_lt h3
            · intro hm
              have := hpat javascriptPattern (by simp [harmfulPatterns])
              rw [javascriptPattern_test message hm] at this
              exact Bool.noConfusion this
            · intro hm
              have := hpat scriptPattern (by simp [harmfulPatterns])
              rw [scriptPattern_test message hm] at this
              exact Bool.noConfusion this
            · intro hm
              have := hpat handlerPattern (by simp [harmfulPatterns])
              rw [handlerPattern_test message hm] at this
              exact Bool.noConfusion this
  refine ⟨hvalid, fun hn => ?_⟩
  have hfalse : (validateMessage message).valid = false := by
    cases hv : (validateMessage message).valid
    · rfl
    · exact absurd (hvalid hv) hn
  exact ⟨hfalse, validateMessage_error message hfalse⟩

set_option maxRecDepth 100000 in
/-- Witness for C29: the question of `sampleQuestion` is accepted, so it meets every
requirement; the empty message does not meet them and is rejected with an error, and
so is the message of `sampleEmoji`, whose `length` is 502. -/
theorem validateMessage_spec_witness :
    ((validateMessage sampleQuestion).valid = true ∧ acceptable sampleQuestion) ∧
      (¬ acceptable "" ∧ (validateMessage "").valid = false ∧
        (validateMessage "").error ≠ none) ∧
      ((utf16 sampleEmoji).length = 502 ∧ ¬ acceptable sampleEmoji ∧
        (validateMessage sampleEmoji).valid = false ∧
        (validateMessage sampleEmoji).error ≠ none) :=
  ⟨⟨by decide, (validateMessage_spec sampleQuestion).1 (by decide)⟩,
    ⟨fun h => h.1 rfl, (validateMessage_spec "").2 (fun h => h.1 rfl)⟩,
    by decide, fun h => absurd h.2.2.1 (by decide),
    (validateMessage_spec sampleEmoji).2 (fun h => absurd h.2.2.1 (by decide))⟩

end ChatAPI

end Steam
